import Mathlib

/-!
# FasalNeeti: farmer-profile service and registration form

A shallow embedding of

* `backend/src/database.js` (`connectDB`),
* `backend/src/api/routes/farmers.js` and `backend/src/api/routes/admin.js` (the eight handlers),
* `src/pages/FarmerLogin.js` (`validateForm`),

together with the part of the document store (a MongoDB collection reached through the Node
driver) that these handlers call.  The store is a collaborator of the repository, not part of
it: its documented behaviour on the calls the handlers make is written out below, and whatever
the development does not fix is a field of `Env`, so every statement holds for every behaviour
of that remainder.
-/

namespace FasalNeeti

/-! ## Values -/

/-- The sixteen hexadecimal digits, in the order of their values. -/
def hexDigits : List Char :=
  ['0', '1', '2', '3', '4', '5', '6', '7', '8', '9', 'a', 'b', 'c', 'd', 'e', 'f']

/-- The lower-case hexadecimal digit of a nibble. -/
def hexChar (d : Fin 16) : Char := hexDigits.getD d.val '0'

/-- The nibble a hexadecimal digit stands for, in either case. -/
def hexVal (c : Char) : Option (Fin 16) :=
  if h : hexDigits.indexOf c.toLower < 16 then some ⟨hexDigits.indexOf c.toLower, h⟩ else none

/-- The nibbles of a string of hexadecimal digits; `none` when some character is not one. -/
def hexNibbles : List Char → Option (List (Fin 16))
  | [] => some []
  | c :: cs =>
    match hexVal c, hexNibbles cs with
    | some d, some ds => some (d :: ds)
    | _, _ => none

/-- An `ObjectId` of the driver: twelve bytes, kept as their 24 hexadecimal digits. -/
structure ObjectId where
  nibbles : List (Fin 16)
  size : nibbles.length = 24
  deriving DecidableEq

/-- The text `ObjectId.prototype.toHexString` gives, which is also what `res.json` prints for an
identifier. -/
def ObjectId.toHexString (i : ObjectId) : String := String.mk (i.nibbles.map hexChar)

/-- The constructor call `new ObjectId(s)` on a string: it accepts exactly the strings of 24
hexadecimal digits and throws on every other string. -/
def ObjectId.ofString (s : String) : Option ObjectId :=
  match hexNibbles s.data with
  | some ds => if h : ds.length = 24 then some ⟨ds, h⟩ else none
  | none => none

/-- A value of a request body or of a stored document: the JSON values, and `ObjectId`s.
Numbers are carried as integers; no handler computes with them. -/
inductive BVal where
  | null
  | bool (b : Bool)
  | num (n : Int)
  | str (s : String)
  | oid (i : ObjectId)
  | arr (items : List BVal)
  | doc (fields : List (String × BVal))

mutual
/-- Equality of values is decidable. -/
def BVal.decEq : (a b : BVal) → Decidable (a = b)
  | .null, .null => isTrue rfl
  | .bool x, .bool y =>
    if h : x = y then isTrue (by rw [h]) else isFalse (by intro e; cases e; exact h rfl)
  | .num x, .num y =>
    if h : x = y then isTrue (by rw [h]) else isFalse (by intro e; cases e; exact h rfl)
  | .str x, .str y =>
    if h : x = y then isTrue (by rw [h]) else isFalse (by intro e; cases e; exact h rfl)
  | .oid x, .oid y =>
    if h : x = y then isTrue (by rw [h]) else isFalse (by intro e; cases e; exact h rfl)
  | .arr x, .arr y =>
    match BVal.decEqList x y with
    | isTrue h => isTrue (by rw [h])
    | isFalse h => isFalse (by intro e; cases e; exact h rfl)
  | .doc x, .doc y =>
    match BVal.decEqFields x y with
    | isTrue h => isTrue (by rw [h])
    | isFalse h => isFalse (by intro e; cases e; exact h rfl)
  | .null, .bool _ | .null, .num _ | .null, .str _ | .null, .oid _ | .null, .arr _
  | .null, .doc _ | .bool _, .null | .bool _, .num _ | .bool _, .str _ | .bool _, .oid _
  | .bool _, .arr _ | .bool _, .doc _ | .num _, .null | .num _, .bool _ | .num _, .str _
  | .num _, .oid _ | .num _, .arr _ | .num _, .doc _ | .str _, .null | .str _, .bool _
  | .str _, .num _ | .str _, .oid _ | .str _, .arr _ | .str _, .doc _ | .oid _, .null
  | .oid _, .bool _ | .oid _, .num _ | .oid _, .str _ | .oid _, .arr _ | .oid _, .doc _
  | .arr _, .null | .arr _, .bool _ | .arr _, .num _ | .arr _, .str _ | .arr _, .oid _
  | .arr _, .doc _ | .doc _, .null | .doc _, .bool _ | .doc _, .num _ | .doc _, .str _
  | .doc _, .oid _ | .doc _, .arr _ => isFalse (by intro e; cases e)
/-- Equality of arrays of values is decidable. -/
def BVal.decEqList : (a b : List BVal) → Decidable (a = b)
  | [], [] => isTrue rfl
  | [], _ :: _ => isFalse (by intro e; cases e)
  | _ :: _, [] => isFalse (by intro e; cases e)
  | x :: xs, y :: ys =>
    match BVal.decEq x y, BVal.decEqList xs ys with
    | isTrue h, isTrue h2 => isTrue (by rw [h, h2])
    | isFalse h, _ => isFalse (by intro e; cases e; exact h rfl)
    | _, isFalse h => isFalse (by intro e; cases e; exact h rfl)
/-- Equality of field lists is decidable. -/
def BVal.decEqFields : (a b : List (String × BVal)) → Decidable (a = b)
  | [], [] => isTrue rfl
  | [], _ :: _ => isFalse (by intro e; cases e)
  | _ :: _, [] => isFalse (by intro e; cases e)
  | (k, x) :: xs, (j, y) :: ys =>
    if hk : k = j then
      match BVal.decEq x y, BVal.decEqFields xs ys with
      | isTrue h, isTrue h2 => isTrue (by rw [hk, h, h2])
      | isFalse h, _ => isFalse (by intro e; cases e; exact h rfl)
      | _, isFalse h => isFalse (by intro e; cases e; exact h rfl)
    else isFalse (by intro e; cases e; exact hk rfl)
end

instance : DecidableEq BVal := BVal.decEq

/-- A document (a JSON object, a stored record): its fields in order. -/
abbrev Doc := List (String × BVal)

/-- Property read `d[k]`: the value of the first field named `k`; `none` stands for
`undefined`. -/
def getField (k : String) : Doc → Option BVal
  | [] => none
  | (j, v) :: rest => if j = k then some v else getField k rest

/-- Property write: an existing field keeps its place, a new one goes last. -/
def setField (k : String) (v : BVal) : Doc → Doc
  | [] => [(k, v)]
  | (j, w) :: rest => if j = k then (j, v) :: rest else (j, w) :: setField k v rest

/-- The document without its fields named `k`. -/
def eraseField (k : String) (d : Doc) : Doc := d.filter (fun p => p.1 ≠ k)

/-- JavaScript truthiness of a value: `null`, `false`, `0` and `""` are falsy. -/
def truthy : BVal → Bool
  | .null => false
  | .bool b => b
  | .num n => n != 0
  | .str s => s != ""
  | _ => true

/-! ## What a handler can throw, and the environment of a call -/

/-- The exceptions that reach a handler's `catch`. -/
inductive Thrown where
  /-- `client.connect()` rejected, with the driver's message. -/
  | connect (text : String)
  /-- The store operation failed in transit or in the server, with the driver's message. -/
  | fault (text : String)
  /-- `new ObjectId(s)` on a string that is not 24 hexadecimal digits. -/
  | invalidObjectId
  /-- `insertOne`: a document with this `_id` is already stored. -/
  | duplicateKey
  /-- `insertOne`: an array is no `_id`. -/
  | arrayId
  /-- `$set` with no field, on a server that refuses it. -/
  | emptyUpdate
  /-- `$set` on a path with an empty component. -/
  | emptyPath
  /-- `$set` on two paths of which one leads through the other. -/
  | pathConflict
  /-- `$set` that would change `_id`. -/
  | immutableId
  /-- `$set` on a path that leads through a value which is no document and no array. -/
  | cannotCreateField
  /-- `$push` on a field that holds something other than an array. -/
  | notAnArray
  /-- `$push` with an `$each` that is no array. -/
  | badEach
  /-- Reading a property of `null`. -/
  | nullProperty
  /-- Raised by a part of the store that `Env` supplies. -/
  | other (text : String)
  deriving DecidableEq

/-- What one handler call meets outside the repository's code: how the connection and the
operation fare, the identifier the driver draws for an insert, the message texts of the
libraries, and the store's behaviour on the operators, paths and `$push` clauses that are not
written out here. -/
structure Env where
  /-- The outcome `client.connect()` has if it is called. -/
  connect : Except String Unit
  /-- The message with which the store operation fails in transit, if it does. -/
  fault : Option String
  /-- The identifier the driver generates for an inserted document without `_id`. -/
  newId : ObjectId
  /-- The message text of an exception a library raises. -/
  libraryText : Thrown → String
  /-- Whether the server accepts a `$set` without fields (as a no-op). -/
  emptySetAllowed : Bool
  /-- Parse-time check of a query operator other than `$eq` and `$ne`. -/
  opCheck : String → BVal → Except Thrown Unit
  /-- Whether a field value passes a query operator other than `$eq` and `$ne`. -/
  opHolds : String → BVal → Option BVal → Bool
  /-- Parse-time check of a `$set` path that has a `$` in it. -/
  pathCheck : List String → Except Thrown Unit
  /-- The new value at a position of a document when a `$set` path continues below it through
  an array or through `$` components: current value, remaining components, value to set. -/
  pathSet : Option BVal → List String → BVal → Except Thrown BVal
  /-- Parse-time check of a `$push` modifier document that has clauses besides `$each`. -/
  pushCheck : Doc → Except Thrown Unit
  /-- The array such a modifier document makes of the current one. -/
  pushApply : Doc → List BVal → List BVal

/-- The `message` property of an exception. -/
def Thrown.message (env : Env) : Thrown → String
  | .connect t => t
  | .fault t => t
  | .other t => t
  | e => env.libraryText e

/-! ## The `farmers` collection -/

/-- The content of a collection, in natural order. -/
abbrev Store := List Doc

/-- The invariant the server keeps: every document has an `_id` that is no array, and no two
documents share one. -/
def Store.Valid (s : Store) : Prop :=
  (∀ d ∈ s, ∃ v, getField "_id" d = some v ∧ ∀ xs, v ≠ .arr xs) ∧
    s.Pairwise (fun a b => getField "_id" a ≠ getField "_id" b)

/-- Equality match of a query value against a field: the field holds that value, or is an array
with that value among its elements; `null` also matches a missing field. -/
def valueMatches (q : BVal) (fv : Option BVal) : Bool :=
  decide (fv = some q) || (decide (q = .null) && decide (fv = none)) ||
    (match fv with
     | some (.arr xs) => decide (q ∈ xs)
     | _ => false)

/-- One condition on a field. -/
inductive Cond where
  | eq (v : BVal)
  | ne (v : BVal)
  | op (name : String) (arg : BVal)

/-- The conditions of an operator document such as `{"$ne": null}`. -/
def parseOps (env : Env) : Doc → Except Thrown (List Cond)
  | [] => .ok []
  | (k, a) :: rest =>
    match (if k = "$eq" then .ok (Cond.eq a) else if k = "$ne" then .ok (Cond.ne a)
      else (env.opCheck k a).map (fun _ => Cond.op k a)), parseOps env rest with
    | .ok c, .ok cs => .ok (c :: cs)
    | .error e, _ => .error e
    | _, .error e => .error e

/-- How the server reads the value given for a field in a filter: a document whose first field
name starts with `$` is a list of operators, every other value is matched for equality. -/
def parseCond (env : Env) (q : BVal) : Except Thrown (List Cond) :=
  match q with
  | .doc ((k, a) :: rest) =>
    if k.data.head? = some '$' then parseOps env ((k, a) :: rest) else .ok [Cond.eq q]
  | _ => .ok [Cond.eq q]

/-- Whether a field value passes a condition. -/
def Cond.holds (env : Env) (fv : Option BVal) : Cond → Bool
  | .eq v => valueMatches v fv
  | .ne v => !valueMatches v fv
  | .op name arg => env.opHolds name arg fv

/-- A filter over top-level fields; a field the caller left `undefined` is sent as `null`. -/
abbrev Filter := List (String × Option BVal)

/-- The parsed filter. -/
def parseFilter (env : Env) : Filter → Except Thrown (List (String × List Cond))
  | [] => .ok []
  | (k, q) :: rest =>
    match parseCond env (q.getD .null), parseFilter env rest with
    | .ok c, .ok cs => .ok ((k, c) :: cs)
    | .error e, _ => .error e
    | _, .error e => .error e

/-- Whether a document passes every condition of a parsed filter. -/
def docMatches (env : Env) (f : List (String × List Cond)) (d : Doc) : Bool :=
  f.all (fun kc => kc.2.all (Cond.holds env (getField kc.1 d)))

/-- The filter `{ _id: new ObjectId(..) }`. -/
def idFilter (i : ObjectId) : Filter := [("_id", some (.oid i))]

/-- Whether the document passes `{ _id: i }`. -/
def hasId (i : ObjectId) (d : Doc) : Bool := valueMatches (.oid i) (getField "_id" d)

/-- The list with the first element that passes `p` replaced. -/
def replaceFirst (p : Doc → Bool) (d' : Doc) : Store → Store
  | [] => []
  | d :: rest => if p d then d' :: rest else d :: replaceFirst p d' rest

/-- The list without the first element that passes `p`. -/
def removeFirst (p : Doc → Bool) : Store → Store
  | [] => []
  | d :: rest => if p d then rest else d :: removeFirst p rest

/-- Collection method `insertOne(doc)`: the driver gives a document without `_id` (or with a
`null` one) a fresh identifier, the server stores `_id` as the first field and refuses an `_id`
that is already there.  The result is `insertedId` and the new content. -/
def insertOne (env : Env) (s : Store) (body : Doc) : Except Thrown (BVal × Store) :=
  match env.fault with
  | some t => .error (.fault t)
  | none =>
    let id : BVal :=
      match getField "_id" body with
      | none => .oid env.newId
      | some .null => .oid env.newId
      | some v => v
    match id with
    | .arr _ => .error .arrayId
    | _ =>
      if s.any (fun d => decide (getField "_id" d = some id)) then .error .duplicateKey
      else .ok (id, s ++ [("_id", id) :: eraseField "_id" body])

/-- Collection method `findOne(filter)`: the first document that passes the filter, or `null`. -/
def findOne (env : Env) (s : Store) (f : Filter) : Except Thrown (Option Doc) :=
  match env.fault with
  | some t => .error (.fault t)
  | none =>
    match parseFilter env f with
    | .error e => .error e
    | .ok conds => .ok (s.find? (docMatches env conds))

/-- Collection method `find().toArray()`: every document. -/
def findAll (env : Env) (s : Store) : Except Thrown (List Doc) :=
  match env.fault with
  | some t => .error (.fault t)
  | none => .ok s

/-- Collection method `deleteOne({ _id: i })`: removes the first document with that identifier;
the result is `deletedCount` and the new content. -/
def deleteOne (env : Env) (s : Store) (i : ObjectId) : Except Thrown (Nat × Store) :=
  match env.fault with
  | some t => .error (.fault t)
  | none =>
    match s.find? (hasId i) with
    | none => .ok (0, s)
    | some _ => .ok (1, removeFirst (hasId i) s)

/-- The components of a dotted path. -/
def splitDots : List Char → List (List Char)
  | [] => [[]]
  | c :: cs =>
    if c = '.' then [] :: splitDots cs
    else
      match splitDots cs with
      | h :: t => (c :: h) :: t
      | [] => [[c]]

/-- One parsed entry of a `$set` document. -/
structure SetEntry where
  /-- The components of the path; the first names the top-level field. -/
  path : List String
  /-- Whether the path has a `$` in it, so that the store decides what it reaches. -/
  dollar : Bool
  value : BVal

/-- Parse-time reading of one key of a `$set` document. -/
def parseSetKey (env : Env) (key : String) (v : BVal) : Except Thrown SetEntry :=
  let comps := (splitDots key.data).map String.mk
  if comps.any (fun c => decide (c = "")) then .error .emptyPath
  else if '$' ∈ key.data then (env.pathCheck comps).map (fun _ => ⟨comps, true, v⟩)
  else .ok ⟨comps, false, v⟩

/-- Parse-time reading of the keys of a `$set` document, in order. -/
def parseSetKeys (env : Env) : Doc → Except Thrown (List SetEntry)
  | [] => .ok []
  | (k, v) :: rest =>
    match parseSetKey env k v, parseSetKeys env rest with
    | .ok e, .ok es => .ok (e :: es)
    | .error x, _ => .error x
    | _, .error x => .error x

/-- Whether among the paths one leads through another. -/
def pathsConflict : List (List String) → Bool
  | [] => false
  | p :: ps => ps.any (fun q => p.isPrefixOf q || q.isPrefixOf p) || pathsConflict ps

/-- Parse-time reading of `{ $set: body }`. -/
def parseSet (env : Env) (body : Doc) : Except Thrown (List SetEntry) :=
  match body with
  | [] => if env.emptySetAllowed then .ok [] else .error .emptyUpdate
  | _ =>
    match parseSetKeys env body with
    | .error x => .error x
    | .ok es => if pathsConflict (es.map (fun e => e.path)) then .error .pathConflict else .ok es

/-- The new value at a position when the value `v` is set at the path `comps` below it: missing
embedded documents are created, a document on the way is descended into, a path through an
array is the store's to resolve, and any other value on the way is an error. -/
def setBelow (env : Env) : Option BVal → List String → BVal → Except Thrown BVal
  | _, [], v => .ok v
  | none, c :: rest, v => (setBelow env none rest v).map (fun x => .doc [(c, x)])
  | some (.doc sub), c :: rest, v =>
    (setBelow env (getField c sub) rest v).map (fun x => .doc (setField c x sub))
  | some (.arr xs), c :: rest, v => env.pathSet (some (.arr xs)) (c :: rest) v
  | some _, _ :: _, _ => .error .cannotCreateField

/-- One entry of a `$set` applied to a document: only the top-level field at the root of the
path gets a new value. -/
def applySetEntry (env : Env) (d : Doc) (e : SetEntry) : Except Thrown Doc :=
  match e.path with
  | [] => .ok d
  | root :: rest =>
    (if e.dollar then env.pathSet (getField root d) rest e.value
      else setBelow env (getField root d) rest e.value).map (fun x => setField root x d)

/-- The entries of a `$set` applied in order. -/
def applySetEntries (env : Env) : Doc → List SetEntry → Except Thrown Doc
  | d, [] => .ok d
  | d, e :: es =>
    match applySetEntry env d e with
    | .error x => .error x
    | .ok d' => applySetEntries env d' es

/-- Update operator `$set` applied to a matched document; `_id` may not change. -/
def applySet (env : Env) (es : List SetEntry) (d : Doc) : Except Thrown Doc :=
  match applySetEntries env d es with
  | .error x => .error x
  | .ok d' => if getField "_id" d' = getField "_id" d then .ok d' else .error .immutableId

/-- Collection method `updateOne({ _id: i }, { $set: body })`: the update document is parsed
first, then the first document with that identifier, if any, is updated.  The result is
`modifiedCount` (1 when a document changed) and the new content. -/
def updateOneSet (env : Env) (s : Store) (i : ObjectId) (body : Doc) :
    Except Thrown (Nat × Store) :=
  match env.fault with
  | some t => .error (.fault t)
  | none =>
    match parseSet env body with
    | .error x => .error x
    | .ok es =>
      match s.find? (hasId i) with
      | none => .ok (0, s)
      | some d =>
        match applySet env es d with
        | .error x => .error x
        | .ok d' => .ok (if d' = d then 0 else 1, replaceFirst (hasId i) d' s)

/-- What `$push` appends, read from the value given for the field: a document with an `$each`
field is a modifier document (its array is appended element by element; further clauses are
the store's to resolve), every other document is the one element to append. -/
def parsePush (env : Env) (body : Doc) : Except Thrown (List BVal → List BVal) :=
  match getField "$each" body with
  | none => .ok (fun xs => xs ++ [.doc body])
  | some (.arr items) =>
    if body.length = 1 then .ok (fun xs => xs ++ items)
    else (env.pushCheck body).map (fun _ => env.pushApply body)
  | some _ => .error .badEach

/-- Update operator `$push` on the field `field` of a matched document: a missing field
becomes an array, an array is extended, anything else is an error. -/
def applyPush (field : String) (tr : List BVal → List BVal) (d : Doc) : Except Thrown Doc :=
  match getField field d with
  | none => .ok (setField field (.arr (tr [])) d)
  | some (.arr xs) => .ok (setField field (.arr (tr xs)) d)
  | some _ => .error .notAnArray

/-- Collection method `updateOne({ _id: i }, { $push: { [field]: body } })`. -/
def updateOnePush (env : Env) (s : Store) (i : ObjectId) (field : String) (body : Doc) :
    Except Thrown (Nat × Store) :=
  match env.fault with
  | some t => .error (.fault t)
  | none =>
    match parsePush env body with
    | .error x => .error x
    | .ok tr =>
      match s.find? (hasId i) with
      | none => .ok (0, s)
      | some d =>
        match applyPush field tr d with
        | .error x => .error x
        | .ok d' => .ok (if d' = d then 0 else 1, replaceFirst (hasId i) d' s)

/-! ## `backend/src/database.js` -/

/-- The process and the server behind it: the module variable `dbInstance` of `database.js`
(`none` while it is `undefined`), how often `client.connect()` and `client.db()` have been
called, and the content of the `farmers` collection. -/
structure World where
  dbInstance : Option Nat
  connects : Nat
  handles : Nat
  farmers : Store

/-- Function `connectDB`: returns the cached handle when there is one; otherwise awaits
`client.connect()`, and only when that succeeds stores the handle `client.db()` returns. -/
def connectDB (env : Env) (w : World) : Except Thrown Nat × World :=
  match w.dbInstance with
  | some h => (.ok h, w)
  | none =>
    match env.connect with
    | .error t => (.error (.connect t), { w with connects := w.connects + 1 })
    | .ok _ =>
      (.ok w.handles,
        { w with connects := w.connects + 1, handles := w.handles + 1,
                 dbInstance := some w.handles })

/-! ## `backend/src/api/routes/farmers.js` and `admin.js` -/

/-- What a handler sends: the status and the value given to `res.json` (which prints an
`ObjectId` as its `toHexString`). -/
structure Response where
  status : Nat
  body : BVal
  deriving DecidableEq

/-- Response helper `res.json(v)`. -/
def Response.json (v : BVal) : Response := ⟨200, v⟩

/-- The `catch` branch shared by all handlers:
`res.status(500).json({ success: false, message, error: err.message })`. -/
def serverError (env : Env) (message : String) (err : Thrown) : Response :=
  ⟨500, .doc [("success", .bool false), ("message", .str message),
    ("error", .str (err.message env))]⟩

/-- Expression `new ObjectId(req.params.farmerId)`. -/
def newObjectId (farmerId : String) : Except Thrown ObjectId :=
  match ObjectId.ofString farmerId with
  | some i => .ok i
  | none => .error .invalidObjectId

/-- Handler of `POST /register`. -/
def register (env : Env) (w : World) (body : Doc) : Response × World :=
  match connectDB env w with
  | (.error e, w1) => (serverError env "Registration failed" e, w1)
  | (.ok _, w1) =>
    match insertOne env w1.farmers body with
    | .error e => (serverError env "Registration failed" e, w1)
    | .ok (insertedId, s) =>
      (.json (.doc [("success", .bool true), ("farmerId", insertedId)]), { w1 with farmers := s })

/-- Handler of `POST /login`. -/
def login (env : Env) (w : World) (body : Doc) : Response × World :=
  match connectDB env w with
  | (.error e, w1) => (serverError env "Login failed" e, w1)
  | (.ok _, w1) =>
    match findOne env w1.farmers
        [("email", getField "email" body), ("password", getField "password" body)] with
    | .error e => (serverError env "Login failed" e, w1)
    | .ok none =>
      (⟨401, .doc [("success", .bool false), ("message", .str "Invalid credentials")]⟩, w1)
    | .ok (some farmer) =>
      (.json (.doc [("success", .bool true), ("farmer", .doc farmer)]), w1)

/-- Handler of `GET /:farmerId`. -/
def getProfile (env : Env) (w : World) (farmerId : String) : Response × World :=
  match connectDB env w with
  | (.error e, w1) => (serverError env "Profile fetch failed" e, w1)
  | (.ok _, w1) =>
    match newObjectId farmerId with
    | .error e => (serverError env "Profile fetch failed" e, w1)
    | .ok i =>
      match findOne env w1.farmers (idFilter i) with
      | .error e => (serverError env "Profile fetch failed" e, w1)
      | .ok none => (.json .null, w1)
      | .ok (some farmer) => (.json (.doc farmer), w1)

/-- Handler of `PUT /:farmerId`. -/
def updateProfile (env : Env) (w : World) (farmerId : String) (body : Doc) : Response × World :=
  match connectDB env w with
  | (.error e, w1) => (serverError env "Update failed" e, w1)
  | (.ok _, w1) =>
    match newObjectId farmerId with
    | .error e => (serverError env "Update failed" e, w1)
    | .ok i =>
      match updateOneSet env w1.farmers i body with
      | .error e => (serverError env "Update failed" e, w1)
      | .ok (modifiedCount, s) =>
        (.json (.doc [("success", .bool true), ("updated", .num modifiedCount)]),
          { w1 with farmers := s })

/-- Handler of `GET /:farmerId/dashboard`; `farmer.crops || []` throws when `farmer` is
`null`. -/
def getDashboard (env : Env) (w : World) (farmerId : String) : Response × World :=
  match connectDB env w with
  | (.error e, w1) => (serverError env "Dashboard fetch failed" e, w1)
  | (.ok _, w1) =>
    match newObjectId farmerId with
    | .error e => (serverError env "Dashboard fetch failed" e, w1)
    | .ok i =>
      match findOne env w1.farmers (idFilter i) with
      | .error e => (serverError env "Dashboard fetch failed" e, w1)
      | .ok none => (serverError env "Dashboard fetch failed" .nullProperty, w1)
      | .ok (some farmer) =>
        (.json (.doc [("crops",
            match getField "crops" farmer with
            | some c => if truthy c then c else .arr []
            | none => .arr [])]), w1)

/-- Handler of `POST /:farmerId/crops`. -/
def appendCrop (env : Env) (w : World) (farmerId : String) (body : Doc) : Response × World :=
  match connectDB env w with
  | (.error e, w1) => (serverError env "Crop save failed" e, w1)
  | (.ok _, w1) =>
    match newObjectId farmerId with
    | .error e => (serverError env "Crop save failed" e, w1)
    | .ok i =>
      match updateOnePush env w1.farmers i "crops" body with
      | .error e => (serverError env "Crop save failed" e, w1)
      | .ok (modifiedCount, s) =>
        (.json (.doc [("success", .bool true), ("updated", .num modifiedCount)]),
          { w1 with farmers := s })

/-- Handler of `GET /farmers` of the admin router. -/
def listAll (env : Env) (w : World) : Response × World :=
  match connectDB env w with
  | (.error e, w1) => (serverError env "Failed to fetch farmers" e, w1)
  | (.ok _, w1) =>
    match findAll env w1.farmers with
    | .error e => (serverError env "Failed to fetch farmers" e, w1)
    | .ok farmers => (.json (.arr (farmers.map BVal.doc)), w1)

/-- Handler of `DELETE /farmers/:farmerId` of the admin router. -/
def deleteById (env : Env) (w : World) (farmerId : String) : Response × World :=
  match connectDB env w with
  | (.error e, w1) => (serverError env "Failed to delete farmer" e, w1)
  | (.ok _, w1) =>
    match newObjectId farmerId with
    | .error e => (serverError env "Failed to delete farmer" e, w1)
    | .ok i =>
      match deleteOne env w1.farmers i with
      | .error e => (serverError env "Failed to delete farmer" e, w1)
      | .ok (deletedCount, s) =>
        (.json (.doc [("success", .bool true), ("deleted", .num deletedCount)]),
          { w1 with farmers := s })

/-- A request to one of the eight endpoints, with a JSON object as body where there is one. -/
inductive Request where
  | register (body : Doc)
  | login (body : Doc)
  | getProfile (farmerId : String)
  | updateProfile (farmerId : String) (body : Doc)
  | getDashboard (farmerId : String)
  | appendCrop (farmerId : String) (body : Doc)
  | listAll
  | deleteById (farmerId : String)

/-- The routers of `main.js`: each request goes to its handler. -/
def handle (env : Env) (w : World) : Request → Response × World
  | .register body => register env w body
  | .login body => login env w body
  | .getProfile farmerId => getProfile env w farmerId
  | .updateProfile farmerId body => updateProfile env w farmerId body
  | .getDashboard farmerId => getDashboard env w farmerId
  | .appendCrop farmerId body => appendCrop env w farmerId body
  | .listAll => listAll env w
  | .deleteById farmerId => deleteById env w farmerId

/-- The crop sequence of a profile: the elements of its `crops` array, none when the field is
absent (or holds no array). -/
def cropsOf (d : Doc) : List BVal :=
  match getField "crops" d with
  | some (.arr xs) => xs
  | _ => []

/-- An environment in which the connection and the operation succeed, the driver draws `i`,
and the store refuses everything this development leaves to it. -/
def Env.calm (i : ObjectId) : Env where
  connect := .ok ()
  fault := none
  newId := i
  libraryText := fun _ => "error"
  emptySetAllowed := true
  opCheck := fun _ _ => .error (.other "unknown operator")
  opHolds := fun _ _ _ => false
  pathCheck := fun _ => .error (.other "unsupported path")
  pathSet := fun _ _ _ => .error (.other "unsupported path")
  pushCheck := fun _ => .error (.other "unsupported clause")
  pushApply := fun _ xs => xs

/-- The identifier whose 24 digits all are `d`. -/
def ObjectId.rep (d : Fin 16) : ObjectId := ⟨List.replicate 24 d, by simp⟩

/-- A process that has not connected yet, in front of the collection `s`. -/
def World.fresh (s : Store) : World := ⟨none, 0, 0, s⟩

/-! ## `src/pages/FarmerLogin.js`: the runtime's strings, patterns and numbers -/

/-- The white space and line terminators of JavaScript: what `trim` strips, what `\s` matches
and what the conversion of a string to a number skips at both ends. -/
def isJsSpace (c : Char) : Bool :=
  c.toNat == 0x9 || c.toNat == 0xA || c.toNat == 0xB || c.toNat == 0xC || c.toNat == 0xD ||
  c.toNat == 0x20 || c.toNat == 0xA0 || c.toNat == 0x1680 ||
  (0x2000 ≤ c.toNat && c.toNat ≤ 0x200A) ||
  c.toNat == 0x2028 || c.toNat == 0x2029 || c.toNat == 0x202F || c.toNat == 0x205F ||
  c.toNat == 0x3000 || c.toNat == 0xFEFF

/-- String method `trim`, on the characters of a string. -/
def jsTrim (s : List Char) : List Char :=
  ((s.dropWhile isJsSpace).reverse.dropWhile isJsSpace).reverse

/-- String method `replace(/\s/g, '')`, on the characters of a string. -/
def stripSpaces (s : List Char) : List Char := s.filter (fun c => !isJsSpace c)

/-- Regular expressions, as far as the two patterns of the form need them. -/
inductive Re where
  /-- Matches no string. -/
  | fail
  /-- Matches the empty string. -/
  | eps
  /-- A character class. -/
  | cls (p : Char → Bool)
  | seq (a b : Re)
  | alt (a b : Re)
  | star (a : Re)

/-- Pattern `r+`. -/
def Re.plus (r : Re) : Re := .seq r (.star r)

/-- Pattern `r?`. -/
def Re.opt (r : Re) : Re := .alt r .eps

/-- Pattern `r{n}`. -/
def Re.times (r : Re) : Nat → Re
  | 0 => .eps
  | n + 1 => .seq r (Re.times r n)

/-- Pattern `r{0,n}`. -/
def Re.upTo (r : Re) : Nat → Re
  | 0 => .eps
  | n + 1 => Re.opt (.seq r (Re.upTo r n))

/-- Pattern `r{n,m}` with `n ≤ m`. -/
def Re.between (r : Re) (n m : Nat) : Re := .seq (Re.times r n) (Re.upTo r (m - n))

/-- Whether the pattern matches the empty string. -/
def Re.nullable : Re → Bool
  | .fail => false
  | .eps => true
  | .cls _ => false
  | .seq a b => a.nullable && b.nullable
  | .alt a b => a.nullable || b.nullable
  | .star _ => true

/-- The pattern for what may follow the character `c`. -/
def Re.deriv (c : Char) : Re → Re
  | .fail => .fail
  | .eps => .fail
  | .cls p => if p c then .eps else .fail
  | .seq a b => if a.nullable then .alt (.seq (a.deriv c) b) (b.deriv c) else .seq (a.deriv c) b
  | .alt a b => .alt (a.deriv c) (b.deriv c)
  | .star a => .seq (a.deriv c) (.star a)

/-- RegExp method `test` of `/^r$/`: whether the whole string matches `r`. -/
def Re.test (r : Re) : List Char → Bool
  | [] => r.nullable
  | c :: cs => (r.deriv c).test cs

/-- Class `[^\s@]`. -/
def notSpaceOrAt (c : Char) : Bool := !(isJsSpace c || c == '@')

/-- Class `[0-9]`. -/
def isDigit (c : Char) : Bool := '0' ≤ c && c ≤ '9'

/-- Pattern `/^[^\s@]+@[^\s@]+\.[^\s@]+$/` (between its anchors). -/
def emailPattern : Re :=
  .seq (Re.plus (.cls notSpaceOrAt)) (.seq (.cls (fun c => c == '@'))
    (.seq (Re.plus (.cls notSpaceOrAt)) (.seq (.cls (fun c => c == '.'))
      (Re.plus (.cls notSpaceOrAt)))))

/-- Pattern `/^[+]?[0-9]{10,13}$/` (between its anchors). -/
def mobilePattern : Re :=
  .seq (Re.opt (.cls (fun c => c == '+'))) (Re.between (.cls isDigit) 10 13)

/-- A JavaScript number as comparisons see it: not a number, an infinity, or the finite value
`m * 2 ^ e`. -/
inductive JsNum where
  | nan
  | negInf
  | posInf
  | fin (m : Int) (e : Int)
  deriving DecidableEq

/-- The number an integer literal denotes. -/
def JsNum.ofInt (n : Int) : JsNum := .fin n 0

/-- Operator `<` on numbers: false whenever an operand is not a number. -/
def JsNum.lt : JsNum → JsNum → Bool
  | .nan, _ => false
  | _, .nan => false
  | .negInf, .negInf => false
  | .negInf, _ => true
  | _, .negInf => false
  | .posInf, _ => false
  | _, .posInf => true
  | .fin m e, .fin n f =>
    decide (m * 2 ^ (e - min e f).toNat < n * 2 ^ (f - min e f).toNat)

/-- Floor of the binary logarithm of a positive number (0 for 0), by halving. -/
def log2Floor : Nat → Nat → Nat
  | 0, _ => 0
  | fuel + 1, n => if n < 2 then 0 else log2Floor fuel (n / 2) + 1

/-- The quotient `a / b` rounded to the nearest integer, ties to the even one. -/
def roundHalfEven (a b : Nat) : Nat :=
  if 2 * (a % b) < b then a / b
  else if b < 2 * (a % b) then a / b + 1
  else if (a / b) % 2 = 0 then a / b else a / b + 1

/-- The double nearest to `n / d` (ties to even), for `d > 0`: the binary exponent of the
value, not below that of the subnormals, fixes the unit in the last place; the value is rounded
to a multiple of it, and to infinity when the result reaches `2 ^ 1024`. -/
def roundToDouble (n d : Nat) : JsNum :=
  if n = 0 then .fin 0 0
  else
    let e : Int :=
      if d ≤ n then (log2Floor (n / d) (n / d) : Nat)
      else
        let k := log2Floor (d / n) (d / n)
        if d ≤ n * 2 ^ k then -(k : Int) else -(k : Int) - 1
    let u : Int := max e (-1022) - 52
    let m : Nat := roundHalfEven (n * 2 ^ (-u).toNat) (d * 2 ^ u.toNat)
    if 1024 ≤ (log2Floor m m : Int) + u then .posInf else .fin m u

/-- The sign applied to a non-negative number. -/
def JsNum.signed (negative : Bool) : JsNum → JsNum
  | .fin m e => if negative then .fin (-m) e else .fin m e
  | .posInf => if negative then .negInf else .posInf
  | x => x

/-- The value of a non-empty string of digits in the given base; `none` otherwise. -/
def digitsValue (base : Nat) (cs : List Char) : Option Nat :=
  if cs = [] then none
  else cs.foldl (fun acc c =>
    match acc, hexVal c with
    | some a, some d => if d.val < base then some (a * base + d.val) else none
    | _, _ => none) (some 0)

/-- The exponent part of a decimal literal: nothing, or `e`/`E`, an optional sign and digits. -/
def exponentPart : List Char → Option Int
  | [] => some 0
  | c :: rest =>
    if c = 'e' ∨ c = 'E' then
      match rest with
      | '+' :: ds => (digitsValue 10 ds).map (fun n => (n : Int))
      | '-' :: ds => (digitsValue 10 ds).map (fun n => -(n : Int))
      | ds => (digitsValue 10 ds).map (fun n => (n : Int))
    else none

/-- An unsigned decimal literal `digits[.digits][exponent]` or `.digits[exponent]` as
mantissa and decimal exponent; `none` when the string is no such literal. -/
def decimalLiteral (cs : List Char) : Option (Nat × Int) :=
  let ip := cs.takeWhile isDigit
  let r1 := cs.dropWhile isDigit
  let fp := match r1 with
    | '.' :: t => t.takeWhile isDigit
    | _ => []
  let r2 := match r1 with
    | '.' :: t => t.dropWhile isDigit
    | _ => r1
  if ip = [] ∧ fp = [] then none
  else
    match digitsValue 10 ('0' :: (ip ++ fp)), exponentPart r2 with
    | some m, some x => some (m, x - fp.length)
    | _, _ => none

/-- The number of an unsigned numeric string: `Infinity`, or a decimal literal rounded to a
double. -/
def unsignedNumber (cs : List Char) : JsNum :=
  if cs = "Infinity".data then .posInf
  else
    match decimalLiteral cs with
    | some (m, x) => roundToDouble (m * 10 ^ x.toNat) (10 ^ (-x).toNat)
    | none => .nan

/-- Conversion of a string to a number, as the comparison operators apply it: white space at
both ends is skipped, the empty string is 0, a binary, octal or hexadecimal integer literal or
a signed decimal literal or infinity has its value, and every other string is not a number. -/
def toNumber (s : String) : JsNum :=
  match jsTrim s.data with
  | [] => .fin 0 0
  | '0' :: 'x' :: ds | '0' :: 'X' :: ds =>
    match digitsValue 16 ds with
    | some n => roundToDouble n 1
    | none => .nan
  | '0' :: 'o' :: ds | '0' :: 'O' :: ds =>
    match digitsValue 8 ds with
    | some n => roundToDouble n 1
    | none => .nan
  | '0' :: 'b' :: ds | '0' :: 'B' :: ds =>
    match digitsValue 2 ds with
    | some n => roundToDouble n 1
    | none => .nan
  | '+' :: cs => unsignedNumber cs
  | '-' :: cs => (unsignedNumber cs).signed true
  | cs => unsignedNumber cs

/-! ## `src/pages/FarmerLogin.js`: the form -/

/-- The state `formData` of the registration form; `sensorData` is the name of the uploaded
file, if any. -/
structure FormData where
  name : String
  email : String
  mobile : String
  location : String
  farmSize : String
  soilType : String
  soilPH : String
  lastCrop : String
  irrigationType : String
  fertilizerUsage : String
  pesticidesUsed : String
  farmingExperience : String
  sensorData : Option String

/-- The object `newErrors`: a message per field name. -/
abbrev Errors := List (String × String)

/-- Property read `errors[k]`. -/
def errorOf (k : String) : Errors → Option String
  | [] => none
  | (j, m) :: rest => if j = k then some m else errorOf k rest

/-- Assignment `newErrors[k] = message`. -/
def setError (k message : String) : Errors → Errors
  | [] => [(k, message)]
  | (j, m) :: rest => if j = k then (j, message) :: rest else (j, m) :: setError k message rest

/-- One `if (cond) newErrors[k] = message;` statement. -/
def check (cond : Bool) (k message : String) (e : Errors) : Errors :=
  if cond then setError k message e else e

/-- Function `validateForm`: the error object it hands to `setErrors`, and its result
`Object.keys(newErrors).length === 0`. -/
def validateForm (formData : FormData) : Errors × Bool :=
  let newErrors : Errors := []
  let newErrors := check (jsTrim formData.name.data).isEmpty "name" "Name is required" newErrors
  let newErrors := check (jsTrim formData.email.data).isEmpty "email" "Email is required" newErrors
  let newErrors :=
    check (jsTrim formData.location.data).isEmpty "location" "Location is required" newErrors
  let newErrors :=
    check (jsTrim formData.mobile.data).isEmpty "mobile" "Mobile number is required" newErrors
  let newErrors := check (formData.soilType == "") "soilType" "Please select soil type" newErrors
  let newErrors := check (formData.lastCrop == "") "lastCrop" "Please specify last crop" newErrors
  let newErrors :=
    check (formData.irrigationType == "") "irrigationType" "Please select irrigation type"
      newErrors
  let newErrors :=
    check (jsTrim formData.farmSize.data).isEmpty "farmSize" "Farm size is required" newErrors
  let newErrors :=
    check (formData.email != "" && !emailPattern.test formData.email.data)
      "email" "Please enter a valid email address" newErrors
  let newErrors :=
    check (formData.mobile != "" && !mobilePattern.test (stripSpaces formData.mobile.data))
      "mobile" "Please enter a valid mobile number" newErrors
  let newErrors :=
    check (formData.soilPH != "" &&
        ((toNumber formData.soilPH).lt (JsNum.ofInt 0) ||
          (JsNum.ofInt 14).lt (toNumber formData.soilPH)))
      "soilPH" "pH should be between 0-14" newErrors
  (newErrors, newErrors.isEmpty)

/-- The empty form, the initial state of `formData`. -/
def FormData.empty : FormData :=
  ⟨"", "", "", "", "", "", "", "", "", "", "", "", none⟩


/-! ## `src/pages/FarmerLogin.js`: submitting the form -/

/-- What `localStorage` holds under a key: a plain text, or the text `JSON.stringify` gives
for a value. -/
inductive Stored where
  | text (s : String)
  | json (v : BVal)
  deriving DecidableEq

/-- Browser storage `localStorage`: its items in order of insertion. -/
abbrev LocalStorage := List (String × Stored)

/-- Storage method `localStorage.setItem(k, v)`. -/
def setItem (k : String) (v : Stored) : LocalStorage → LocalStorage
  | [] => [(k, v)]
  | (j, w) :: rest => if j = k then (j, v) :: rest else (j, w) :: setItem k v rest

/-- Storage method `localStorage.getItem(k)`. -/
def getItem (k : String) : LocalStorage → Option Stored
  | [] => none
  | (j, v) :: rest => if j = k then some v else getItem k rest

/-- How the awaited call `mongoService.registerFarmer(formData)` ends: the promise is rejected,
or it is resolved with a value (`none` for `undefined`).  The service is no part of the given
sources, so its reply is taken as it comes. -/
inductive ServiceReply where
  | rejected
  | resolved (result : Option BVal)

/-- Property read `x.k` on a value that may be `undefined`: reading from `undefined` or `null`
throws a `TypeError` (`none`), a document yields its field, and any other value has no such
property. -/
def readProp (x : Option BVal) (k : String) : Option (Option BVal) :=
  match x with
  | none => none
  | some .null => none
  | some (.doc d) => some (getField k d)
  | some _ => some none

/-- Truthiness of a value that may be `undefined`. -/
def truthyOpt : Option BVal → Bool
  | none => false
  | some v => truthy v

/-- The value `JSON.stringify` sees in `formData`: its fields in the order of the initial state;
an uploaded file has no enumerable property of its own. -/
def formJson (f : FormData) : BVal :=
  .doc [("name", .str f.name), ("email", .str f.email), ("mobile", .str f.mobile),
    ("location", .str f.location), ("farmSize", .str f.farmSize), ("soilType", .str f.soilType),
    ("soilPH", .str f.soilPH), ("lastCrop", .str f.lastCrop),
    ("irrigationType", .str f.irrigationType), ("fertilizerUsage", .str f.fertilizerUsage),
    ("pesticidesUsed", .str f.pesticidesUsed), ("farmingExperience", .str f.farmingExperience),
    ("sensorData", match f.sensorData with
      | none => .null
      | some _ => .doc [])]

/-- The component `FarmerLogin` with what it acts on: its state, the local storage, the
navigations it has scheduled with `setTimeout` (delay in milliseconds and route), the labels it
has written to the console, and the forms it has handed to the registration service. -/
structure FarmerPage where
  formData : FormData
  isLoading : Bool
  errors : Errors
  successMessage : String
  localStorage : LocalStorage
  timers : List (Nat × String)
  console : List String
  sent : List FormData

namespace FarmerLogin

/-- The fallback both the `else` branch and the `catch` branch run after their console call:
the form goes to local storage, the completion message is shown and the navigation is
scheduled after 1500 ms. -/
def fallback (p : FarmerPage) : FarmerPage :=
  { p with
    localStorage :=
      setItem "userType" (.text "farmer")
        (setItem "farmerData" (.json (formJson p.formData)) p.localStorage)
    successMessage := "Registration completed! Redirecting to dashboard..."
    timers := p.timers ++ [(1500, "/farmer-dashboard")] }

/-- The `catch` branch of `handleSubmit`. -/
def caught (p : FarmerPage) : FarmerPage :=
  fallback { p with console := p.console ++ ["Registration error:"] }

/-- The statements of the `try` block of `handleSubmit` after the awaited call has been
resolved with `result`; a `TypeError` on the way leads into the `catch` branch with the state
reached so far. -/
def afterReply (result : Option BVal) (p : FarmerPage) : FarmerPage :=
  match readProp result "success" with
  | none => caught p
  | some success =>
    if truthyOpt success then
      let p1 := { p with successMessage := "Registration successful! Redirecting to dashboard..." }
      match readProp result "data" with
      | none => caught p1
      | some data =>
        match readProp data "farmer" with
        | none => caught p1
        | some farmer =>
          { p1 with
            localStorage :=
              setItem "userType" (.text "farmer")
                (setItem "farmerData"
                  (.json (if truthyOpt farmer then farmer.getD .null else formJson p.formData))
                  p1.localStorage)
            timers := p1.timers ++ [(2000, "/farmer-dashboard")] }
    else
      fallback
        { p with console := p.console ++ ["API registration failed, using localStorage:"] }

/-- Function `handleSubmit` of the registration form, run to its end with the given reply of
the registration service: nothing but `setErrors` happens when `validateForm` fails; otherwise
the form is sent, and the `finally` block resets the loading flag. -/
def handleSubmit (reply : ServiceReply) (p : FarmerPage) : FarmerPage :=
  let p0 := { p with errors := (validateForm p.formData).1 }
  if (validateForm p.formData).2 then
    let p1 := { p0 with isLoading := true, successMessage := "", sent := p0.sent ++ [p0.formData] }
    let p2 :=
      match reply with
      | .rejected => caught p1
      | .resolved result => afterReply result p1
    { p2 with isLoading := false }
  else p0

end FarmerLogin

/-! ## `src/pages/AdminLogin.js` -/

/-- The state `credentials` of the admin login form. -/
structure AdminCredentials where
  username : String
  password : String

/-- The component `AdminLogin` with what it acts on: its state, the local storage and the routes
it has navigated to. -/
structure AdminPage where
  credentials : AdminCredentials
  isLoading : Bool
  error : String
  localStorage : LocalStorage
  navigated : List String

namespace AdminLogin

/-- Function `handleSubmit` of the admin login form, run to its end; `now` is the text
`new Date().toISOString()` gives at that moment.  The awaited one-second timer cannot fail, so
the `catch` branch is not reached. -/
def handleSubmit (now : String) (p : AdminPage) : AdminPage :=
  let p1 := { p with isLoading := true, error := "" }
  let p2 :=
    if p1.credentials.username = "admin" ∧ p1.credentials.password = "admin123" then
      { p1 with
        localStorage :=
          setItem "userType" (.text "admin")
            (setItem "adminData"
              (.json (.doc [("username", .str p1.credentials.username), ("role", .str "admin"),
                ("loginTime", .str now)]))
              p1.localStorage)
        navigated := p1.navigated ++ ["/admin-dashboard"] }
    else { p1 with error := "Invalid username or password" }
  { p2 with isLoading := false }

end AdminLogin

/-! ## `backend/routes/farmer.js` -/

namespace RoutesFarmer

/-- Expression `new require('mongodb').ObjectId(req.params.farmerId)`.  It is read as
`(new require('mongodb')).ObjectId(..)`: `new` applies to `require('mongodb')`, which yields the
module, and `ObjectId` is then called as a plain function.  A library whose `ObjectId` is a
function that constructs when called (`callable`, the drivers before version 5) gives the same
as `new ObjectId(..)`; a library whose `ObjectId` is a class throws a `TypeError`. -/
def newObjectId (callable : Bool) (farmerId : String) : Except Thrown ObjectId :=
  if callable then FasalNeeti.newObjectId farmerId
  else .error (.other "Class constructor ObjectId cannot be invoked without 'new'")

/-- Handler of `POST /register`. -/
def register (env : Env) (w : World) (body : Doc) : Response × World :=
  match connectDB env w with
  | (.error e, w1) => (serverError env "Registration failed" e, w1)
  | (.ok _, w1) =>
    match insertOne env w1.farmers body with
    | .error e => (serverError env "Registration failed" e, w1)
    | .ok (insertedId, s) =>
      (.json (.doc [("success", .bool true), ("farmerId", insertedId)]), { w1 with farmers := s })

/-- Handler of `POST /login`. -/
def login (env : Env) (w : World) (body : Doc) : Response × World :=
  match connectDB env w with
  | (.error e, w1) => (serverError env "Login failed" e, w1)
  | (.ok _, w1) =>
    match findOne env w1.farmers
        [("email", getField "email" body), ("password", getField "password" body)] with
    | .error e => (serverError env "Login failed" e, w1)
    | .ok none =>
      (⟨401, .doc [("success", .bool false), ("message", .str "Invalid credentials")]⟩, w1)
    | .ok (some farmer) =>
      (.json (.doc [("success", .bool true), ("farmer", .doc farmer)]), w1)

/-- Handler of `GET /:farmerId`. -/
def getProfile (callable : Bool) (env : Env) (w : World) (farmerId : String) :
    Response × World :=
  match connectDB env w with
  | (.error e, w1) => (serverError env "Profile fetch failed" e, w1)
  | (.ok _, w1) =>
    match newObjectId callable farmerId with
    | .error e => (serverError env "Profile fetch failed" e, w1)
    | .ok i =>
      match findOne env w1.farmers (idFilter i) with
      | .error e => (serverError env "Profile fetch failed" e, w1)
      | .ok none => (.json .null, w1)
      | .ok (some farmer) => (.json (.doc farmer), w1)

end RoutesFarmer

/-! ## Sequences of calls -/

/-- The calls `connectDB()` made one after the other, each in its own environment: their
results and the state they leave. -/
def connectMany : List Env → World → List (Except Thrown Nat) × World
  | [], w => ([], w)
  | env :: rest, w =>
    ((connectDB env w).1 :: (connectMany rest (connectDB env w).2).1,
      (connectMany rest (connectDB env w).2).2)

/-- The requests handled one after the other, each in its own environment: the responses and the
state they leave. -/
def handleMany : List (Env × Request) → World → List Response × World
  | [], w => ([], w)
  | (env, req) :: rest, w =>
    ((handle env w req).1 :: (handleMany rest (handle env w req).2).1,
      (handleMany rest (handle env w req).2).2)

/-! ## `database.js`: calls of `connectDB` that overlap -/

/-- The process while calls of `connectDB` may overlap: the state of the module, and for each
call that is suspended at `await client.connect()`, in the order in which they were made, how
its connection attempt is going to end. -/
structure Proc where
  world : World
  waiting : List (Except String Unit)

/-- What happens next in the process: `connectDB()` is called and runs until it returns or
reaches its `await`; or the connection attempt of the `k`-th waiting call settles and that call
runs on to its end. -/
inductive Event where
  | call (env : Env)
  | resume (k : Nat)

/-- One event.  A call returns the cached handle when there is one, and else calls
`client.connect()` and waits.  A call that resumes after a refused connection throws; after a
successful one it assigns `dbInstance = client.db()`, without looking at `dbInstance` again,
and returns it.  The result is `none` while nothing returns. -/
def Proc.step (p : Proc) : Event → Option (Except Thrown Nat) × Proc
  | .call env =>
    match p.world.dbInstance with
    | some h => (some (.ok h), p)
    | none =>
      (none,
        { world := { p.world with connects := p.world.connects + 1 },
          waiting := p.waiting ++ [env.connect] })
  | .resume k =>
    match p.waiting[k]? with
    | none => (none, p)
    | some (.error t) => (some (.error (.connect t)), { p with waiting := p.waiting.eraseIdx k })
    | some (.ok _) =>
      (some (.ok p.world.handles),
        { world :=
            { p.world with handles := p.world.handles + 1,
                           dbInstance := some p.world.handles },
          waiting := p.waiting.eraseIdx k })

/-- The events one after the other: what each of them returned, and the state at the end. -/
def Proc.run : List Event → Proc → List (Option (Except Thrown Nat)) × Proc
  | [], p => ([], p)
  | ev :: rest, p => ((p.step ev).1 :: (Proc.run rest (p.step ev).2).1, (Proc.run rest (p.step ev).2).2)

/-! ## `src/pages/FarmerLogin.js`: the inputs of the form -/

/-- The exponent of a valid floating-point number, if there is one: `e` or `E`, an optional
sign, and digits. -/
def validExponent : List Char → Bool
  | [] => true
  | c :: t =>
    (c == 'e' || c == 'E') &&
      (match t with
        | '+' :: ds => !ds.isEmpty && ds.all isDigit
        | '-' :: ds => !ds.isEmpty && ds.all isDigit
        | ds => !ds.isEmpty && ds.all isDigit)

/-- A valid floating-point number without sign: digits, or digits, `.` and digits, or `.` and
digits; then the exponent, if any. -/
def validUnsigned (body : List Char) : Bool :=
  match body.dropWhile isDigit with
  | '.' :: t => !(t.takeWhile isDigit).isEmpty && validExponent (t.dropWhile isDigit)
  | r1 => !(body.takeWhile isDigit).isEmpty && validExponent r1

/-- A valid floating-point number, the only non-empty value an `<input type="number">` has: an
optional `-` and a valid floating-point number without sign. -/
def validFloat : List Char → Bool
  | '-' :: body => validUnsigned body
  | body => validUnsigned body

/-- The value of the `<input type="number" name="soilPH">` after the user's entry: the entry
when it is a valid floating-point number, and the empty string otherwise. -/
def numberInputValue (entry : String) : String :=
  if validFloat entry.data then entry else ""

/-- Field `e.target.value` of a change event: the input named `soilPH` has the type `number`;
the entries of the other inputs are taken as they are. -/
def targetValue (name entry : String) : String :=
  if name = "soilPH" then numberInputValue entry else entry

/-- Update `{...prev, [name]: value}` of `formData`, for the names of the inputs. -/
def FormData.set (name value : String) (prev : FormData) : FormData :=
  if name = "name" then { prev with name := value }
  else if name = "email" then { prev with email := value }
  else if name = "mobile" then { prev with mobile := value }
  else if name = "location" then { prev with location := value }
  else if name = "farmSize" then { prev with farmSize := value }
  else if name = "soilType" then { prev with soilType := value }
  else if name = "soilPH" then { prev with soilPH := value }
  else if name = "lastCrop" then { prev with lastCrop := value }
  else if name = "irrigationType" then { prev with irrigationType := value }
  else if name = "fertilizerUsage" then { prev with fertilizerUsage := value }
  else if name = "pesticidesUsed" then { prev with pesticidesUsed := value }
  else if name = "farmingExperience" then { prev with farmingExperience := value }
  else prev

/-- What happens on the page: an entry in the input of the given name, the choice of a file,
or the form is submitted and the registration service replies. -/
inductive FormEvent where
  | change (name entry : String)
  | upload (file : Option String)
  | submit (reply : ServiceReply)

namespace FarmerLogin

/-- Function `handleInputChange`: the field of the input takes the input's value, and an error
shown for that field is cleared. -/
def handleInputChange (name entry : String) (p : FarmerPage) : FarmerPage :=
  { p with
    formData := p.formData.set name (targetValue name entry)
    errors :=
      match errorOf name p.errors with
      | some message => if message ≠ "" then setError name "" p.errors else p.errors
      | none => p.errors }

/-- Function `handleFileUpload`. -/
def handleFileUpload (file : Option String) (p : FarmerPage) : FarmerPage :=
  { p with formData := { p.formData with sensorData := file } }

/-- The page after the events, one after the other. -/
def after (events : List FormEvent) (p : FarmerPage) : FarmerPage :=
  events.foldl
    (fun q ev =>
      match ev with
      | .change name entry => handleInputChange name entry q
      | .upload file => handleFileUpload file q
      | .submit reply => handleSubmit reply q)
    p

end FarmerLogin

/-- The page as it is first rendered: the initial values of `useState`. -/
def FarmerPage.initial : FarmerPage :=
  ⟨FormData.empty, false, [], "", [], [], [], []⟩

/-! ## Notions used in the statements -/

/-- Either a handle is cached or `client.connect()` succeeds. -/
def Env.Connects (env : Env) (w : World) : Prop :=
  w.dbInstance ≠ none ∨ env.connect = .ok ()

/-- The registration of the specification's scenario. -/
def scenarioBody : Doc :=
  [("name", .str "A"), ("email", .str "a@b.com"), ("mobile", .str "+911234567890"),
    ("location", .str "X"), ("soilType", .str "Clay"), ("lastCrop", .str "Wheat"),
    ("irrigationType", .str "Drip"), ("farmSize", .str "2 acres")]

/-- A stored profile, whose identifier is all zeros. -/
def profileB : Doc :=
  [("_id", .oid (ObjectId.rep 0)), ("name", .str "B"), ("email", .str "b@c.org"),
    ("password", .str "secret"), ("crops", .arr [.doc [("crop", .str "Rice")]])]

/-- A collection with that one profile. -/
def oneProfile : Store := [profileB]

/-- Name of a top-level field: no path separator and no `$` in it. -/
def PlainName (field : String) : Prop := '.' ∉ field.data ∧ '$' ∉ field.data

/-- A collection with one profile that has an embedded document. -/
def farmStore : Store :=
  [[("_id", .oid (ObjectId.rep 0)), ("name", .str "B"),
    ("farm", .doc [("size", .str "1 acre")])]]

/-- The field holds the string, or an array with the string among its elements. -/
def Holds (fv : Option BVal) (s : String) : Prop :=
  fv = some (.str s) ∨ ∃ xs, fv = some (.arr xs) ∧ BVal.str s ∈ xs

/-- The record passes for the e-mail address `e` and the password `p`. -/
def Credentials (e p : String) (d : Doc) : Prop :=
  Holds (getField "email" d) e ∧ Holds (getField "password" d) p

/-- The document `f` is the first of the collection with the property `P`. -/
def FirstWith (P : Doc → Prop) (f : Doc) (s : Store) : Prop :=
  ∃ pre post, s = pre ++ f :: post ∧ P f ∧ ∀ d ∈ pre, ¬ P d

/-- A stored profile whose `email` is an array of two addresses. -/
def profileTwoMails : Doc :=
  [("_id", .oid (ObjectId.rep 0)), ("email", .arr [.str "a@b.com", .str "x@y.z"]),
    ("password", .str "p")]

/-- An environment like `Env.calm` in which the store accepts `$push` modifier documents with
further clauses and resolves a `$slice` clause of 0 as the server does: the array is cut to no
elements. -/
def Env.slicing (i : ObjectId) : Env :=
  { Env.calm i with
    pushCheck := fun _ => .ok ()
    pushApply := fun body xs =>
      match getField "$slice" body with
      | some (.num 0) => []
      | _ => xs }

/-- A login body that carries operator documents in place of strings. -/
def operatorBody : Doc :=
  [("email", .doc [("$ne", .null)]), ("password", .doc [("$ne", .null)])]

/-- The top-level field a `$set` key addresses: the key up to its first dot. -/
def rootOf (key : String) : String := String.mk (key.data.takeWhile (fun c => c ≠ '.'))

/-- Requests that leave the crop entries of the stored profiles to the append operation: every
request except an update with a key that is `crops` or a path into it, and except an append
whose body is an `$each` modifier document with further clauses. -/
def Request.KeepsCrops : Request → Prop
  | .updateProfile _ body => ∀ kv ∈ body, rootOf kv.1 ≠ "crops"
  | .appendCrop _ body => ∀ items, getField "$each" body = some (.arr items) → body.length = 1
  | _ => True

/-- How a collection may differ after a request that keeps crops: every document of the new
content is an old one, or follows an old one with the same `_id` and extends its crops, or has
an `_id` that no old one has. -/
def Grows (s s' : Store) : Prop :=
  ∀ d' ∈ s', d' ∈ s ∨
    (∃ d ∈ s, getField "_id" d' = getField "_id" d ∧ cropsOf d <+: cropsOf d') ∨
    ∀ d ∈ s, getField "_id" d' ≠ getField "_id" d

/-- The strings a pattern matches. -/
inductive Re.Matches : Re → List Char → Prop where
  | eps : Re.Matches .eps []
  | cls {p : Char → Bool} {c : Char} : p c = true → Re.Matches (.cls p) [c]
  | seq {a b : Re} {s t : List Char} :
    Re.Matches a s → Re.Matches b t → Re.Matches (.seq a b) (s ++ t)
  | altL {a b : Re} {s : List Char} : Re.Matches a s → Re.Matches (.alt a b) s
  | altR {a b : Re} {s : List Char} : Re.Matches b s → Re.Matches (.alt a b) s
  | starNil {a : Re} : Re.Matches (.star a) []
  | starCons {a : Re} {s t : List Char} :
    Re.Matches a s → Re.Matches (.star a) t → Re.Matches (.star a) (s ++ t)

/-- The string is empty or consists of white space only. -/
def Blank (s : String) : Prop := ∀ c ∈ s.data, isJsSpace c = true

/-- Shape `local@domain.tld`: no white space, exactly one `@`, something before it, and after
it something, a dot and something. -/
def EmailShape (s : List Char) : Prop :=
  (∀ c ∈ s, isJsSpace c = false) ∧ s.count '@' = 1 ∧
    ∃ l d t, s = l ++ '@' :: (d ++ '.' :: t) ∧ l ≠ [] ∧ d ≠ [] ∧ t ≠ []

/-- Shape of a mobile number: an optional `+`, then between 10 and 13 decimal digits, and
nothing else. -/
def MobileShape (s : List Char) : Prop :=
  ∃ digits, (s = digits ∨ s = '+' :: digits) ∧ 10 ≤ digits.length ∧ digits.length ≤ 13 ∧
    ∀ c ∈ digits, isDigit c = true

/-- Operator `<=` on numbers: false whenever an operand is not a number. -/
def JsNum.le : JsNum → JsNum → Bool
  | .nan, _ => false
  | _, .nan => false
  | .negInf, _ => true
  | _, .negInf => false
  | _, .posInf => true
  | .posInf, _ => false
  | .fin m e, .fin n f =>
    decide (m * 2 ^ (e - min e f).toNat ≤ n * 2 ^ (f - min e f).toNat)

/-- The number lies in the closed range from 0 to 14. -/
def InRange (x : JsNum) : Prop := (JsNum.ofInt 0).le x = true ∧ x.le (JsNum.ofInt 14) = true

/-- A form that passes validation: the registration of the specification's scenario. -/
def scenarioForm : FormData :=
  { FormData.empty with
    name := "A", email := "a@b.com", mobile := "+911234567890", location := "X",
    soilType := "Clay", lastCrop := "Wheat", irrigationType := "Drip", farmSize := "2 acres" }

/-- No document of the collection passes the filter `{ _id: i }`. -/
def NoProfile (i : ObjectId) (s : Store) : Prop := ∀ d ∈ s, hasId i d = false

/-- The message in the `catch` branch of the handler a request goes to. -/
def Request.failText : Request → String
  | .register _ => "Registration failed"
  | .login _ => "Login failed"
  | .getProfile _ => "Profile fetch failed"
  | .updateProfile _ _ => "Update failed"
  | .getDashboard _ => "Dashboard fetch failed"
  | .appendCrop _ _ => "Crop save failed"
  | .listAll => "Failed to fetch farmers"
  | .deleteById _ => "Failed to delete farmer"

/-- The identifier parameter of a request, for the routes that have one. -/
def Request.farmerId : Request → Option String
  | .getProfile farmerId => some farmerId
  | .updateProfile farmerId _ => some farmerId
  | .getDashboard farmerId => some farmerId
  | .appendCrop farmerId _ => some farmerId
  | .deleteById farmerId => some farmerId
  | _ => none

/-- The registration call did not succeed: the promise was rejected, or it was resolved with
something that is no result object with a truthy `success`. -/
def ServiceReply.Failed : ServiceReply → Prop
  | .rejected => True
  | .resolved result =>
    match readProp result "success" with
    | none => True
    | some success => truthyOpt success = false

/-- A page on which the form of the scenario has just been filled in. -/
def scenarioPage : FarmerPage :=
  ⟨scenarioForm, false, [], "", [], [], [], []⟩

/-- A value an `<input type="number">` can have: the empty string or a valid floating-point
number. -/
def NumberValue (s : String) : Prop := s = "" ∨ validFloat s.data = true

/-! ## Documents -/

theorem getField_setField_same (k : String) (v : BVal) (d : Doc) :
    getField k (setField k v d) = some v := by
  induction d with
  | nil => simp [setField, getField]
  | cons p rest ih =>
    obtain ⟨j, w⟩ := p
    by_cases h : j = k <;> simp [setField, getField, h, ih]

theorem getField_setField_ne {k k' : String} (h : k' ≠ k) (v : BVal) (d : Doc) :
    getField k' (setField k v d) = getField k' d := by
  induction d with
  | nil => simp [setField, getField, Ne.symm h]
  | cons p rest ih =>
    obtain ⟨j, w⟩ := p
    by_cases hj : j = k
    · subst hj; simp [setField, getField, Ne.symm h]
    · by_cases hj' : j = k'
      · subst hj'; simp [setField, getField, hj]
      · simp [setField, getField, hj, hj', ih]

theorem eraseField_of_absent (k : String) (d : Doc) (h : getField k d = none) :
    eraseField k d = d := by
  induction d with
  | nil => rfl
  | cons p rest ih =>
    obtain ⟨j, w⟩ := p
    by_cases hj : j = k
    · simp [getField, hj] at h
    · simp only [getField, hj, if_false] at h
      have := ih h
      simp only [eraseField] at this ⊢
      rw [List.filter_cons]
      simp only [ne_eq, hj, not_false_eq_true, decide_True, if_true, this]

/-! ## Identifiers -/

theorem hexVal_hexChar : ∀ d : Fin 16, hexVal (hexChar d) = some d := by decide

theorem hexNibbles_map_hexChar (l : List (Fin 16)) : hexNibbles (l.map hexChar) = some l := by
  induction l with
  | nil => rfl
  | cons d ds ih => simp [hexNibbles, hexVal_hexChar, ih]

theorem ofString_toHexString (i : ObjectId) : ObjectId.ofString i.toHexString = some i := by
  obtain ⟨l, hl⟩ := i
  simp [ObjectId.ofString, ObjectId.toHexString, hexNibbles_map_hexChar, hl]

theorem newObjectId_toHexString (i : ObjectId) : newObjectId i.toHexString = .ok i := by
  simp [newObjectId, ofString_toHexString]

/-! ## The connection -/

theorem connectDB_ok {env : Env} {w : World} (h : env.Connects w) :
    ∃ n w1, connectDB env w = (.ok n, w1) ∧ w1.farmers = w.farmers ∧ w1.dbInstance = some n := by
  unfold connectDB
  cases hdb : w.dbInstance with
  | some n => exact ⟨n, w, by simp, rfl, hdb⟩
  | none =>
    rcases h with h | h
    · exact absurd hdb h
    · refine ⟨w.handles, ⟨some w.handles, w.connects + 1, w.handles + 1, w.farmers⟩, ?_, rfl, rfl⟩
      simp [h]

theorem connectDB_farmers (env : Env) (w : World) : (connectDB env w).2.farmers = w.farmers := by
  unfold connectDB
  cases w.dbInstance with
  | some n => rfl
  | none => cases env.connect <;> rfl

/-! ## Lookups by identifier -/

theorem hasId_of_field {i : ObjectId} {d : Doc} (h : getField "_id" d = some (.oid i)) :
    hasId i d = true := by
  simp [hasId, valueMatches, h]

theorem field_of_hasId {i : ObjectId} {d : Doc} (hd : ∀ xs, getField "_id" d ≠ some (.arr xs))
    (h : hasId i d = true) : getField "_id" d = some (.oid i) := by
  unfold hasId valueMatches at h
  cases hf : getField "_id" d with
  | none => simp [hf] at h
  | some v =>
    cases v with
    | arr xs => exact absurd hf (hd xs)
    | oid j => simpa [hf] using h
    | _ => simp [hf] at h

theorem Store.Valid.noArrayId {s : Store} (hs : s.Valid) {d : Doc} (hd : d ∈ s) :
    ∀ xs, getField "_id" d ≠ some (.arr xs) := by
  intro xs h
  obtain ⟨v, hv, hna⟩ := hs.1 d hd
  rw [hv] at h
  exact hna xs (Option.some.inj h)

theorem findOne_idFilter {env : Env} (hf : env.fault = none) (s : Store) (i : ObjectId) :
    findOne env s (idFilter i) = .ok (s.find? (hasId i)) := by
  have : docMatches env [("_id", [Cond.eq (.oid i)])] = hasId i := by
    funext d
    simp [docMatches, Cond.holds, hasId]
  simp [findOne, hf, idFilter, parseFilter, parseCond, this]

theorem find?_append_of_none {p : Doc → Bool} {s : Store} (h : ∀ d ∈ s, p d = false) (d' : Doc)
    (hd' : p d' = true) : (s ++ [d']).find? p = some d' := by
  induction s with
  | nil => simp [hd']
  | cons a rest ih =>
    have ha : p a = false := h a (by simp)
    simp only [List.cons_append, List.find?_cons, ha]
    exact ih (fun d hd => h d (by simp [hd]))

theorem oneProfile_valid : oneProfile.Valid := by
  refine ⟨?_, ?_⟩
  · intro d hd
    simp only [oneProfile, List.mem_singleton] at hd
    subst hd
    exact ⟨_, rfl, by intro xs h; cases h⟩
  · simp [oneProfile]

/-! ## Updates of one document -/

theorem forall₂_same {R : Doc → Doc → Prop} (hR : ∀ d, R d d) (s : Store) : List.Forall₂ R s s := by
  induction s with
  | nil => exact List.Forall₂.nil
  | cons a rest ih => exact List.Forall₂.cons (hR a) ih

theorem replaceFirst_forall₂ {p : Doc → Bool} {d : Doc} (d' : Doc) {s : Store}
    (h : s.find? p = some d) :
    List.Forall₂ (fun a b => b = a ∨ (p a = true ∧ a = d ∧ b = d')) s (replaceFirst p d' s) := by
  induction s with
  | nil => simp at h
  | cons a rest ih =>
    by_cases hp : p a = true
    · have had : a = d := by simpa [List.find?_cons, hp] using h
      simp only [replaceFirst, hp, if_true]
      exact List.Forall₂.cons (Or.inr ⟨hp, had, rfl⟩) (forall₂_same (fun _ => Or.inl rfl) rest)
    · have hrest : rest.find? p = some d := by simpa [List.find?_cons, hp] using h
      simp only [replaceFirst, hp]
      exact List.Forall₂.cons (Or.inl rfl) (ih hrest)

theorem find?_replaceFirst {p : Doc → Bool} {d d' : Doc} {s : Store}
    (h : s.find? p = some d) (hp' : p d' = true) : (replaceFirst p d' s).find? p = some d' := by
  induction s with
  | nil => simp at h
  | cons a rest ih =>
    by_cases hp : p a = true
    · simp [replaceFirst, hp, List.find?_cons, hp']
    · have hrest : rest.find? p = some d := by simpa [List.find?_cons, hp] using h
      simp [replaceFirst, hp, List.find?_cons, ih hrest]

theorem hasId_congr {i : ObjectId} {d d' : Doc} (h : getField "_id" d' = getField "_id" d) :
    hasId i d' = hasId i d := by
  simp [hasId, h]

theorem splitDots_of_no_dot (cs : List Char) (h : '.' ∉ cs) : splitDots cs = [cs] := by
  induction cs with
  | nil => rfl
  | cons c rest ih =>
    have hc : c ≠ '.' := fun e => h (by simp [e])
    have hr : '.' ∉ rest := fun e => h (by simp [e])
    simp [splitDots, hc, ih hr]

/-- What the update handler leaves in the collection: the old content, or the content
`updateOneSet` returns together with the count the response reports. -/
theorem updateProfile_cases (env : Env) (w : World) (farmerId : String) (body : Doc) :
    ((updateProfile env w farmerId body).1.status = 500 ∧
        (updateProfile env w farmerId body).2.farmers = w.farmers) ∨
      ∃ i n s, newObjectId farmerId = .ok i ∧ updateOneSet env w.farmers i body = .ok (n, s) ∧
        (updateProfile env w farmerId body).1
          = .json (.doc [("success", .bool true), ("updated", .num n)]) ∧
        (updateProfile env w farmerId body).2.farmers = s := by
  have hf := connectDB_farmers env w
  unfold updateProfile
  rcases hc : connectDB env w with ⟨r, w1⟩
  rw [hc] at hf
  simp only at hf
  cases r with
  | error e => exact Or.inl ⟨rfl, hf⟩
  | ok n =>
    cases hi : newObjectId farmerId with
    | error e => exact Or.inl ⟨rfl, hf⟩
    | ok i =>
      simp only
      cases hu : updateOneSet env w1.farmers i body with
      | error e => exact Or.inl ⟨rfl, hf⟩
      | ok r =>
        obtain ⟨n, s⟩ := r
        exact Or.inr ⟨i, n, s, rfl, by rw [← hf, hu], rfl, rfl⟩

/-- What `updateOneSet` returns when it succeeds. -/
theorem updateOneSet_ok {env : Env} {s s' : Store} {i : ObjectId} {body : Doc} {n : Nat}
    (h : updateOneSet env s i body = .ok (n, s')) :
    ∃ es, parseSet env body = .ok es ∧
      ((s.find? (hasId i) = none ∧ s' = s ∧ n = 0) ∨
        ∃ d d', s.find? (hasId i) = some d ∧ applySet env es d = .ok d' ∧
          s' = replaceFirst (hasId i) d' s ∧ n = if d' = d then 0 else 1) := by
  unfold updateOneSet at h
  cases hfault : env.fault with
  | some t => simp [hfault] at h
  | none =>
    simp only [hfault] at h
    cases hp : parseSet env body with
    | error x => simp [hp] at h
    | ok es =>
      simp only [hp] at h
      refine ⟨es, rfl, ?_⟩
      cases hfind : s.find? (hasId i) with
      | none =>
        simp only [hfind, Except.ok.injEq, Prod.mk.injEq] at h
        exact Or.inl ⟨rfl, h.2.symm, h.1.symm⟩
      | some d =>
        simp only [hfind] at h
        cases ha : applySet env es d with
        | error x => simp [ha] at h
        | ok d' =>
          simp only [ha, Except.ok.injEq, Prod.mk.injEq] at h
          exact Or.inr ⟨d, d', rfl, ha, h.2.symm, h.1.symm⟩

theorem applySet_keeps_id {env : Env} {es : List SetEntry} {d d' : Doc}
    (h : applySet env es d = .ok d') : getField "_id" d' = getField "_id" d := by
  unfold applySet at h
  cases ha : applySetEntries env d es with
  | error x => simp [ha] at h
  | ok d2 =>
    simp only [ha] at h
    by_cases hid : getField "_id" d2 = getField "_id" d
    · simp only [hid, if_true, Except.ok.injEq] at h
      rw [← h]; exact hid
    · simp [hid] at h

theorem parseSet_single {env : Env} {field : String} {v : BVal} {es : List SetEntry}
    (hplain : PlainName field) (h : parseSet env [(field, v)] = .ok es) :
    es = [⟨[field], false, v⟩] := by
  have hs : (splitDots field.data).map String.mk = [field] := by
    rw [splitDots_of_no_dot _ hplain.1]; rfl
  unfold parseSet at h
  simp only [parseSetKeys, parseSetKey, hs] at h
  by_cases he : field = ""
  · simp [he] at h
  · simp [he, hplain.2, pathsConflict] at h
    exact h.symm

theorem applySet_single {env : Env} {field : String} {v : BVal} {d d' : Doc}
    (h : applySet env [⟨[field], false, v⟩] d = .ok d') : d' = setField field v d := by
  unfold applySet at h
  simp only [applySetEntries, applySetEntry, setBelow] at h
  simp only [Except.map] at h
  by_cases hid : getField "_id" (setField field v d) = getField "_id" d
  · simp [hid] at h; exact h.symm
  · simp [hid] at h

/-- What the crop handler leaves in the collection: the old content, or the content
`updateOnePush` returns together with the count the response reports. -/
theorem appendCrop_cases (env : Env) (w : World) (farmerId : String) (body : Doc) :
    ((appendCrop env w farmerId body).1.status = 500 ∧
        (appendCrop env w farmerId body).2.farmers = w.farmers) ∨
      ∃ i n s, newObjectId farmerId = .ok i ∧
        updateOnePush env w.farmers i "crops" body = .ok (n, s) ∧
        (appendCrop env w farmerId body).1
          = .json (.doc [("success", .bool true), ("updated", .num n)]) ∧
        (appendCrop env w farmerId body).2.farmers = s := by
  have hf := connectDB_farmers env w
  unfold appendCrop
  rcases hc : connectDB env w with ⟨r, w1⟩
  rw [hc] at hf
  simp only at hf
  cases r with
  | error e => exact Or.inl ⟨rfl, hf⟩
  | ok n =>
    cases hi : newObjectId farmerId with
    | error e => exact Or.inl ⟨rfl, hf⟩
    | ok i =>
      simp only
      cases hu : updateOnePush env w1.farmers i "crops" body with
      | error e => exact Or.inl ⟨rfl, hf⟩
      | ok r =>
        obtain ⟨n, s⟩ := r
        exact Or.inr ⟨i, n, s, rfl, by rw [← hf, hu], rfl, rfl⟩

/-- What `updateOnePush` returns when it succeeds. -/
theorem updateOnePush_ok {env : Env} {s s' : Store} {i : ObjectId} {field : String} {body : Doc}
    {n : Nat} (h : updateOnePush env s i field body = .ok (n, s')) :
    ∃ tr, parsePush env body = .ok tr ∧
      ((s.find? (hasId i) = none ∧ s' = s ∧ n = 0) ∨
        ∃ d d', s.find? (hasId i) = some d ∧ applyPush field tr d = .ok d' ∧
          s' = replaceFirst (hasId i) d' s ∧ n = if d' = d then 0 else 1) := by
  unfold updateOnePush at h
  cases hfault : env.fault with
  | some t => simp [hfault] at h
  | none =>
    simp only [hfault] at h
    cases hp : parsePush env body with
    | error x => simp [hp] at h
    | ok tr =>
      simp only [hp] at h
      refine ⟨tr, rfl, ?_⟩
      cases hfind : s.find? (hasId i) with
      | none =>
        simp only [hfind, Except.ok.injEq, Prod.mk.injEq] at h
        exact Or.inl ⟨rfl, h.2.symm, h.1.symm⟩
      | some d =>
        simp only [hfind] at h
        cases ha : applyPush field tr d with
        | error x => simp [ha] at h
        | ok d' =>
          simp only [ha, Except.ok.injEq, Prod.mk.injEq] at h
          exact Or.inr ⟨d, d', rfl, ha, h.2.symm, h.1.symm⟩

/-- What `$push` makes of a document when it succeeds. -/
theorem applyPush_ok {field : String} {tr : List BVal → List BVal} {d d' : Doc}
    (h : applyPush field tr d = .ok d') :
    ∃ xs, (getField field d = none ∧ xs = [] ∨ getField field d = some (.arr xs)) ∧
      d' = setField field (.arr (tr xs)) d := by
  unfold applyPush at h
  cases hf : getField field d with
  | none =>
    simp only [hf, Except.ok.injEq] at h
    exact ⟨[], Or.inl ⟨rfl, rfl⟩, h.symm⟩
  | some v =>
    cases v with
    | arr xs =>
      simp only [hf, Except.ok.injEq] at h
      exact ⟨xs, Or.inr rfl, h.symm⟩
    | _ => simp [hf] at h

theorem cropsOf_applyPush {tr : List BVal → List BVal} {d d' : Doc}
    (h : applyPush "crops" tr d = .ok d') : cropsOf d' = tr (cropsOf d) := by
  obtain ⟨xs, hx, hd'⟩ := applyPush_ok h
  subst hd'
  rcases hx with ⟨hnone, hxs⟩ | hsome
  · subst hxs
    simp [cropsOf, getField_setField_same, hnone]
  · simp [cropsOf, getField_setField_same, hsome]

theorem valueMatches_str_iff (s : String) (fv : Option BVal) :
    valueMatches (.str s) fv = true ↔ Holds fv s := by
  unfold valueMatches Holds
  cases fv with
  | none => simp
  | some v =>
    cases v with
    | arr xs => simp
    | _ => simp

theorem find?_eq_some_iff_firstWith {q : Doc → Bool} {P : Doc → Prop}
    (hq : ∀ d, q d = true ↔ P d) (s : Store) (f : Doc) :
    s.find? q = some f ↔ FirstWith P f s := by
  rw [List.find?_eq_some]
  unfold FirstWith
  constructor
  · rintro ⟨hf, pre, post, hs, hpre⟩
    exact ⟨pre, post, hs, (hq f).1 hf, fun d hd hP => by
      have := hpre d hd
      rw [(hq d).2 hP] at this
      cases this⟩
  · rintro ⟨pre, post, hs, hf, hpre⟩
    refine ⟨(hq f).2 hf, pre, post, hs, fun d hd => ?_⟩
    cases hqd : q d with
    | false => rfl
    | true => exact absurd ((hq d).1 hqd) (hpre d hd)

theorem grows_same (s : Store) : Grows s s := fun _ hd => Or.inl hd

theorem forall₂_mem_right {R : Doc → Doc → Prop} {s s' : Store} (h : List.Forall₂ R s s')
    {b : Doc} (hb : b ∈ s') : ∃ a ∈ s, R a b := by
  induction h with
  | nil => simp at hb
  | cons hab _ ih =>
    rcases List.mem_cons.1 hb with e | hb'
    · subst e
      exact ⟨_, by simp, hab⟩
    · obtain ⟨a, ha, hR⟩ := ih hb'
      exact ⟨a, by simp [ha], hR⟩

theorem grows_replaceFirst {p : Doc → Bool} {d d' : Doc} {s : Store}
    (hfind : s.find? p = some d) (hid : getField "_id" d' = getField "_id" d)
    (hcrops : cropsOf d <+: cropsOf d') : Grows s (replaceFirst p d' s) := by
  intro b hb
  obtain ⟨a, ha, hR⟩ := forall₂_mem_right (replaceFirst_forall₂ d' hfind) hb
  rcases hR with e | ⟨_, had, hbd⟩
  · rw [e]; exact Or.inl ha
  · subst had hbd
    exact Or.inr (Or.inl ⟨a, ha, hid, hcrops⟩)

theorem removeFirst_subset (p : Doc → Bool) (s : Store) : ∀ d ∈ removeFirst p s, d ∈ s := by
  induction s with
  | nil => simp [removeFirst]
  | cons a rest ih =>
    intro d hd
    by_cases hp : p a = true
    · simp only [removeFirst, hp, if_true] at hd
      simp [hd]
    · simp only [removeFirst, hp] at hd
      rcases List.mem_cons.1 hd with e | h
      · simp [e]
      · simp [ih d h]

theorem head_splitDots (cs : List Char) :
    (splitDots cs).head? = some (cs.takeWhile (fun c => c ≠ '.')) := by
  induction cs with
  | nil => rfl
  | cons c rest ih =>
    by_cases hc : c = '.'
    · simp [splitDots, hc]
    · cases hs : splitDots rest with
      | nil => simp [hs] at ih
      | cons h t =>
        simp only [hs, List.head?_cons, Option.some.injEq] at ih
        simp [splitDots, hc, hs, ih]

theorem parseSetKey_root {env : Env} {key : String} {v : BVal} {e : SetEntry}
    (h : parseSetKey env key v = .ok e) : e.path.head? = some (rootOf key) := by
  have hh : ((splitDots key.data).map String.mk).head? = some (rootOf key) := by
    rw [List.head?_map, head_splitDots]
    rfl
  unfold parseSetKey at h
  simp only at h
  split at h
  · cases h
  · split at h
    · cases hc : env.pathCheck ((splitDots key.data).map String.mk) with
      | error x => simp [hc, Except.map] at h
      | ok u =>
        simp only [hc, Except.map, Except.ok.injEq] at h
        rw [← h]
        exact hh
    · simp only [Except.ok.injEq] at h
      rw [← h]
      exact hh

theorem parseSetKeys_roots {env : Env} {body : Doc} {es : List SetEntry}
    (h : parseSetKeys env body = .ok es) {f : String} (hbody : ∀ kv ∈ body, rootOf kv.1 ≠ f) :
    ∀ e ∈ es, e.path.head? ≠ some f := by
  induction body generalizing es with
  | nil =>
    simp only [parseSetKeys, Except.ok.injEq] at h
    subst h
    simp
  | cons kv rest ih =>
    obtain ⟨k, v⟩ := kv
    simp only [parseSetKeys] at h
    cases hk : parseSetKey env k v with
    | error x => simp [hk] at h
    | ok e0 =>
      cases hr : parseSetKeys env rest with
      | error x => simp [hk, hr] at h
      | ok es0 =>
        simp only [hk, hr, Except.ok.injEq] at h
        subst h
        intro e he
        rcases List.mem_cons.1 he with e1 | he'
        · subst e1
          rw [parseSetKey_root hk]
          intro hc
          exact hbody (k, v) (by simp) (Option.some.inj hc)
        · exact ih hr (fun kv hkv => hbody kv (by simp [hkv])) e he'

theorem applySetEntry_other {env : Env} {d d' : Doc} {e : SetEntry} {f : String}
    (h : applySetEntry env d e = .ok d') (hroot : e.path.head? ≠ some f) :
    getField f d' = getField f d := by
  unfold applySetEntry at h
  cases hp : e.path with
  | nil =>
    simp only [hp, Except.ok.injEq] at h
    rw [h]
  | cons root rest =>
    simp only [hp] at h
    have hne : f ≠ root := by
      intro e1
      apply hroot
      rw [hp, e1]
      rfl
    cases hx : (if e.dollar then env.pathSet (getField root d) rest e.value
        else setBelow env (getField root d) rest e.value) with
    | error x => simp [hx, Except.map] at h
    | ok x =>
      simp only [hx, Except.map, Except.ok.injEq] at h
      rw [← h]
      exact getField_setField_ne hne x d

theorem applySetEntries_other {env : Env} {es : List SetEntry} {d d' : Doc} {f : String}
    (h : applySetEntries env d es = .ok d') (hroots : ∀ e ∈ es, e.path.head? ≠ some f) :
    getField f d' = getField f d := by
  induction es generalizing d with
  | nil =>
    simp only [applySetEntries, Except.ok.injEq] at h
    rw [h]
  | cons e rest ih =>
    simp only [applySetEntries] at h
    cases he : applySetEntry env d e with
    | error x => simp [he] at h
    | ok d1 =>
      simp only [he] at h
      rw [ih h (fun e' he' => hroots e' (by simp [he'])),
        applySetEntry_other he (hroots e (by simp))]

theorem applySet_other {env : Env} {es : List SetEntry} {d d' : Doc} {f : String}
    (h : applySet env es d = .ok d') (hroots : ∀ e ∈ es, e.path.head? ≠ some f) :
    getField f d' = getField f d := by
  unfold applySet at h
  cases ha : applySetEntries env d es with
  | error x => simp [ha] at h
  | ok d2 =>
    simp only [ha] at h
    split at h
    · simp only [Except.ok.injEq] at h
      rw [← h]
      exact applySetEntries_other ha hroots
    · cases h

theorem parseSet_roots {env : Env} {body : Doc} {es : List SetEntry}
    (h : parseSet env body = .ok es) {f : String} (hbody : ∀ kv ∈ body, rootOf kv.1 ≠ f) :
    ∀ e ∈ es, e.path.head? ≠ some f := by
  unfold parseSet at h
  cases body with
  | nil =>
    simp only at h
    split at h
    · simp only [Except.ok.injEq] at h
      subst h
      simp
    · cases h
  | cons kv rest =>
    simp only at h
    cases hk : parseSetKeys env (kv :: rest) with
    | error x => simp [hk] at h
    | ok es0 =>
      simp only [hk] at h
      split at h
      · cases h
      · simp only [Except.ok.injEq] at h
        subst h
        exact parseSetKeys_roots hk hbody

theorem grows_insertOne {env : Env} {s s' : Store} {body : Doc} {id : BVal}
    (h : insertOne env s body = .ok (id, s')) : Grows s s' := by
  unfold insertOne at h
  cases hfault : env.fault with
  | some t => simp [hfault] at h
  | none =>
    simp only [hfault] at h
    split at h
    · cases h
    · split at h
      · cases h
      · rename_i hany
        simp only [Except.ok.injEq, Prod.mk.injEq] at h
        obtain ⟨hid, hs⟩ := h
        subst hs
        intro d' hd'
        rcases List.mem_append.1 hd' with hold | hnew
        · exact Or.inl hold
        · refine Or.inr (Or.inr ?_)
          simp only [List.mem_singleton] at hnew
          subst hnew
          intro d hd hEq
          apply hany
          rw [List.any_eq_true]
          refine ⟨d, hd, ?_⟩
          simp only [getField, if_true] at hEq
          simp [← hEq]

theorem grows_register (env : Env) (w : World) (body : Doc) :
    Grows w.farmers (register env w body).2.farmers := by
  have hf := connectDB_farmers env w
  unfold register
  rcases hc : connectDB env w with ⟨r, w1⟩
  rw [hc] at hf
  simp only at hf
  cases r with
  | error e => simp only [hf]; exact grows_same _
  | ok n =>
    simp only
    cases hi : insertOne env w1.farmers body with
    | error e => simp only [hf]; exact grows_same _
    | ok r =>
      obtain ⟨id, s⟩ := r
      simp only
      rw [← hf]
      exact grows_insertOne hi

theorem grows_deleteById (env : Env) (w : World) (farmerId : String) :
    Grows w.farmers (deleteById env w farmerId).2.farmers := by
  have hf := connectDB_farmers env w
  unfold deleteById
  rcases hc : connectDB env w with ⟨r, w1⟩
  rw [hc] at hf
  simp only at hf
  cases r with
  | error e => simp only [hf]; exact grows_same _
  | ok n =>
    simp only
    cases hi : newObjectId farmerId with
    | error e => simp only [hf]; exact grows_same _
    | ok i =>
      simp only
      cases hd : deleteOne env w1.farmers i with
      | error e => simp only [hf]; exact grows_same _
      | ok r =>
        obtain ⟨n, s⟩ := r
        simp only
        unfold deleteOne at hd
        cases hfault : env.fault with
        | some t => simp [hfault] at hd
        | none =>
          simp only [hfault] at hd
          cases hfind : w1.farmers.find? (hasId i) with
          | none =>
            simp only [hfind, Except.ok.injEq, Prod.mk.injEq] at hd
            rw [← hd.2, hf]
            exact grows_same _
          | some d =>
            simp only [hfind, Except.ok.injEq, Prod.mk.injEq] at hd
            rw [← hd.2, hf]
            exact fun d' hd' => Or.inl (removeFirst_subset _ _ d' hd')

theorem farmers_login (env : Env) (w : World) (body : Doc) :
    (login env w body).2.farmers = w.farmers := by
  have hf := connectDB_farmers env w
  unfold login
  rcases hc : connectDB env w with ⟨r, w1⟩
  rw [hc] at hf
  cases r with
  | error e => exact hf
  | ok n =>
    simp only
    cases findOne env w1.farmers
        [("email", getField "email" body), ("password", getField "password" body)] with
    | error e => exact hf
    | ok o => cases o <;> exact hf

theorem farmers_getProfile (env : Env) (w : World) (farmerId : String) :
    (getProfile env w farmerId).2.farmers = w.farmers := by
  have hf := connectDB_farmers env w
  unfold getProfile
  rcases hc : connectDB env w with ⟨r, w1⟩
  rw [hc] at hf
  cases r with
  | error e => exact hf
  | ok n =>
    simp only
    cases newObjectId farmerId with
    | error e => exact hf
    | ok i =>
      simp only
      cases findOne env w1.farmers (idFilter i) with
      | error e => exact hf
      | ok o => cases o <;> exact hf

theorem farmers_getDashboard (env : Env) (w : World) (farmerId : String) :
    (getDashboard env w farmerId).2.farmers = w.farmers := by
  have hf := connectDB_farmers env w
  unfold getDashboard
  rcases hc : connectDB env w with ⟨r, w1⟩
  rw [hc] at hf
  cases r with
  | error e => exact hf
  | ok n =>
    simp only
    cases newObjectId farmerId with
    | error e => exact hf
    | ok i =>
      simp only
      cases findOne env w1.farmers (idFilter i) with
      | error e => exact hf
      | ok o => cases o <;> exact hf

theorem farmers_listAll (env : Env) (w : World) : (listAll env w).2.farmers = w.farmers := by
  have hf := connectDB_farmers env w
  unfold listAll
  rcases hc : connectDB env w with ⟨r, w1⟩
  rw [hc] at hf
  cases r with
  | error e => exact hf
  | ok n =>
    simp only
    cases findAll env w1.farmers with
    | error e => exact hf
    | ok o => exact hf

theorem grows_updateProfile (env : Env) (w : World) (farmerId : String) (body : Doc)
    (hbody : ∀ kv ∈ body, rootOf kv.1 ≠ "crops") :
    Grows w.farmers (updateProfile env w farmerId body).2.farmers := by
  rcases updateProfile_cases env w farmerId body with ⟨_, hsame⟩ | ⟨i, n, s, _, hu, _, hs⟩
  · rw [hsame]; exact grows_same _
  · rw [hs]
    obtain ⟨es, hes, hcase⟩ := updateOneSet_ok hu
    rcases hcase with ⟨_, hs', _⟩ | ⟨d, d', hfind, happ, hs', _⟩
    · rw [hs']; exact grows_same _
    · rw [hs']
      have hcrops : getField "crops" d' = getField "crops" d :=
        applySet_other happ (parseSet_roots hes hbody)
      refine grows_replaceFirst hfind (applySet_keeps_id happ) ?_
      simp [cropsOf, hcrops]

theorem grows_appendCrop (env : Env) (w : World) (farmerId : String) (body : Doc)
    (hbody : ∀ items, getField "$each" body = some (.arr items) → body.length = 1) :
    Grows w.farmers (appendCrop env w farmerId body).2.farmers := by
  rcases appendCrop_cases env w farmerId body with ⟨_, hsame⟩ | ⟨i, n, s, _, hu, _, hs⟩
  · rw [hsame]; exact grows_same _
  · rw [hs]
    obtain ⟨tr, htr, hcase⟩ := updateOnePush_ok hu
    rcases hcase with ⟨_, hs', _⟩ | ⟨d, d', hfind, happ, hs', _⟩
    · rw [hs']; exact grows_same _
    · rw [hs']
      have hcrops := cropsOf_applyPush happ
      obtain ⟨xs, _, hd'⟩ := applyPush_ok happ
      have hid : getField "_id" d' = getField "_id" d := by
        rw [hd']
        exact getField_setField_ne (by decide) _ d
      refine grows_replaceFirst hfind hid ?_
      rw [hcrops]
      unfold parsePush at htr
      cases he : getField "$each" body with
      | none =>
        simp only [he, Except.ok.injEq] at htr
        rw [← htr]
        exact List.prefix_append _ _
      | some v =>
        cases v with
        | arr items =>
          simp only [he, hbody items he, if_true, Except.ok.injEq] at htr
          rw [← htr]
          exact List.prefix_append _ _
        | _ => simp [he] at htr

theorem handle_grows (env : Env) (w : World) (req : Request) (hreq : req.KeepsCrops) :
    Grows w.farmers (handle env w req).2.farmers := by
  cases req with
  | register body => exact grows_register env w body
  | login body => simp only [handle, farmers_login]; exact grows_same _
  | getProfile farmerId => simp only [handle, farmers_getProfile]; exact grows_same _
  | updateProfile farmerId body => exact grows_updateProfile env w farmerId body hreq
  | getDashboard farmerId => simp only [handle, farmers_getDashboard]; exact grows_same _
  | appendCrop farmerId body => exact grows_appendCrop env w farmerId body hreq
  | listAll => simp only [handle, farmers_listAll]; exact grows_same _
  | deleteById farmerId => exact grows_deleteById env w farmerId

theorem Store.Valid.eq_of_id {s : Store} (hs : s.Valid) {a b : Doc} (ha : a ∈ s) (hb : b ∈ s)
    (h : getField "_id" a = getField "_id" b) : a = b := by
  by_contra hne
  have hsymm : Symmetric (fun a b : Doc => getField "_id" a ≠ getField "_id" b) :=
    fun _ _ hxy e => hxy e.symm
  exact List.Pairwise.forall hsymm hs.2 ha hb hne h

theorem connectDB_eq_ok {env : Env} {w w1 : World} {n : Nat}
    (h : connectDB env w = (.ok n, w1)) : w1.dbInstance = some n ∧ w1.farmers = w.farmers := by
  unfold connectDB at h
  cases hdb : w.dbInstance with
  | some m =>
    simp only [hdb, Prod.mk.injEq, Except.ok.injEq] at h
    rw [← h.2, ← h.1]
    exact ⟨hdb, rfl⟩
  | none =>
    simp only [hdb] at h
    cases hc : env.connect with
    | error t => simp [hc] at h
    | ok u =>
      simp only [hc, Prod.mk.injEq, Except.ok.injEq] at h
      rw [← h.2, ← h.1]
      exact ⟨rfl, rfl⟩

theorem connectDB_cached {env : Env} {w : World} {n : Nat} (h : w.dbInstance = some n) :
    connectDB env w = (.ok n, w) := by
  simp [connectDB, h]

theorem Store.Valid.tail {a : Doc} {s : Store} (h : Store.Valid (a :: s)) : Store.Valid s :=
  ⟨fun d hd => h.1 d (by simp [hd]), (List.pairwise_cons.1 h.2).2⟩

theorem find?_removeFirst_hasId {s : Store} (hs : s.Valid) (i : ObjectId) :
    (removeFirst (hasId i) s).find? (hasId i) = none := by
  induction s with
  | nil => rfl
  | cons a rest ih =>
    by_cases ha : hasId i a = true
    · simp only [removeFirst, ha, if_true]
      rw [List.find?_eq_none]
      intro b hb hbi
      have hida := field_of_hasId (hs.noArrayId (by simp)) ha
      have hidb := field_of_hasId (hs.noArrayId (by simp [hb])) hbi
      exact (List.pairwise_cons.1 hs.2).1 b hb (hida.trans hidb.symm)
    · have ha' : hasId i a = false := by simpa using ha
      simp only [removeFirst, ha', Bool.false_eq_true, if_false, List.find?_cons]
      exact ih hs.tail

theorem find?_hasId_isSome_iff {s : Store} (hs : s.Valid) (i : ObjectId) :
    (∃ d, s.find? (hasId i) = some d) ↔ ∃ d ∈ s, getField "_id" d = some (.oid i) := by
  constructor
  · rintro ⟨d, hd⟩
    exact ⟨d, List.mem_of_find?_eq_some hd,
      field_of_hasId (hs.noArrayId (List.mem_of_find?_eq_some hd)) (List.find?_some hd)⟩
  · rintro ⟨d, hd, hid⟩
    cases hf : s.find? (hasId i) with
    | some d0 => exact ⟨d0, rfl⟩
    | none =>
      have := List.find?_eq_none.1 hf d hd
      exact absurd (hasId_of_field hid) this

/-! ## Patterns -/

theorem Re.matches_fail (s : List Char) : ¬ Re.Matches .fail s := by
  intro h; cases h

theorem Re.matches_eps_iff (s : List Char) : Re.Matches .eps s ↔ s = [] := by
  constructor
  · intro h; cases h; rfl
  · intro h; subst h; exact .eps

theorem Re.matches_cls_iff (p : Char → Bool) (s : List Char) :
    Re.Matches (.cls p) s ↔ ∃ c, s = [c] ∧ p c = true := by
  constructor
  · intro h; cases h with
    | cls hc => exact ⟨_, rfl, hc⟩
  · rintro ⟨c, hs, hc⟩; subst hs; exact .cls hc

theorem Re.matches_seq_iff (a b : Re) (s : List Char) :
    Re.Matches (.seq a b) s ↔ ∃ s1 s2, s = s1 ++ s2 ∧ Re.Matches a s1 ∧ Re.Matches b s2 := by
  constructor
  · intro h; cases h with
    | seq ha hb => exact ⟨_, _, rfl, ha, hb⟩
  · rintro ⟨s1, s2, hs, ha, hb⟩; subst hs; exact .seq ha hb

theorem Re.matches_alt_iff (a b : Re) (s : List Char) :
    Re.Matches (.alt a b) s ↔ Re.Matches a s ∨ Re.Matches b s := by
  constructor
  · intro h; cases h with
    | altL ha => exact Or.inl ha
    | altR hb => exact Or.inr hb
  · rintro (ha | hb)
    · exact .altL ha
    · exact .altR hb

theorem Re.nullable_iff (r : Re) : r.nullable = true ↔ Re.Matches r [] := by
  induction r with
  | fail => simp [Re.nullable, Re.matches_fail]
  | eps => simp [Re.nullable, Re.matches_eps_iff]
  | cls p => simp [Re.nullable, Re.matches_cls_iff]
  | seq a b iha ihb =>
    simp only [Re.nullable, Bool.and_eq_true, iha, ihb, Re.matches_seq_iff]
    constructor
    · rintro ⟨ha, hb⟩; exact ⟨[], [], rfl, ha, hb⟩
    · rintro ⟨s1, s2, hs, ha, hb⟩
      have h1 : s1 = [] := (List.append_eq_nil.1 hs.symm).1
      have h2 : s2 = [] := (List.append_eq_nil.1 hs.symm).2
      subst h1 h2
      exact ⟨ha, hb⟩
  | alt a b iha ihb => simp [Re.nullable, iha, ihb, Re.matches_alt_iff]
  | star a _ => simp only [Re.nullable, true_iff]; exact .starNil

/-- A match of `a*` on a non-empty string starts with a non-empty match of `a`. -/
theorem Re.matches_star_cons {a : Re} {c : Char} {s : List Char}
    (h : Re.Matches (.star a) (c :: s)) :
    ∃ s1 s2, s = s1 ++ s2 ∧ Re.Matches a (c :: s1) ∧ Re.Matches (.star a) s2 := by
  generalize hr : Re.star a = r at h
  generalize hx : c :: s = x at h
  induction h with
  | eps => cases hr
  | cls _ => cases hr
  | seq _ _ _ _ => cases hr
  | altL _ _ => cases hr
  | altR _ _ => cases hr
  | starNil => cases hx
  | @starCons a' u t hu ht _ iht =>
    cases hr
    cases u with
    | nil => exact iht rfl (by simpa using hx)
    | cons c' u' =>
      simp only [List.cons_append, List.cons.injEq] at hx
      obtain ⟨hc, hs⟩ := hx
      subst hc hs
      exact ⟨u', t, rfl, hu, ht⟩

theorem Re.matches_deriv_iff (r : Re) (c : Char) (s : List Char) :
    Re.Matches (r.deriv c) s ↔ Re.Matches r (c :: s) := by
  induction r generalizing s with
  | fail => simp [Re.deriv, Re.matches_fail]
  | eps => simp [Re.deriv, Re.matches_fail, Re.matches_eps_iff]
  | cls p =>
    by_cases hp : p c = true
    · simp only [Re.deriv, hp, if_true, Re.matches_eps_iff, Re.matches_cls_iff]
      constructor
      · intro h; subst h; exact ⟨c, rfl, hp⟩
      · rintro ⟨c', h, _⟩
        simp only [List.cons.injEq] at h
        exact h.2
    · simp only [Re.deriv, hp, Re.matches_cls_iff]
      constructor
      · intro h; exact absurd h (Re.matches_fail s)
      · rintro ⟨c', h, hc'⟩
        simp only [List.cons.injEq] at h
        rw [← h.1] at hc'
        exact absurd hc' hp
  | seq a b iha ihb =>
    have key : Re.Matches (.seq a b) (c :: s) ↔
        (∃ s1 s2, s = s1 ++ s2 ∧ Re.Matches a (c :: s1) ∧ Re.Matches b s2) ∨
          (Re.Matches a [] ∧ Re.Matches b (c :: s)) := by
      rw [Re.matches_seq_iff]
      constructor
      · rintro ⟨s1, s2, hs, ha, hb⟩
        cases s1 with
        | nil =>
          simp only [List.nil_append] at hs
          subst hs
          exact Or.inr ⟨ha, hb⟩
        | cons c' s1' =>
          simp only [List.cons_append, List.cons.injEq] at hs
          obtain ⟨hc, hs⟩ := hs
          subst hc
          exact Or.inl ⟨s1', s2, hs, ha, hb⟩
      · rintro (⟨s1, s2, hs, ha, hb⟩ | ⟨ha, hb⟩)
        · exact ⟨c :: s1, s2, by simp [hs], ha, hb⟩
        · exact ⟨[], c :: s, rfl, ha, hb⟩
    rw [key]
    by_cases hn : a.nullable = true
    · simp only [Re.deriv, hn, if_true, Re.matches_alt_iff, Re.matches_seq_iff, iha, ihb]
      constructor
      · rintro (h | h)
        · exact Or.inl h
        · exact Or.inr ⟨(Re.nullable_iff a).1 hn, h⟩
      · rintro (h | h)
        · exact Or.inl h
        · exact Or.inr h.2
    · have hn' : a.nullable = false := by simpa using hn
      simp only [Re.deriv, hn', Bool.false_eq_true, if_false, Re.matches_seq_iff, iha]
      constructor
      · intro h; exact Or.inl h
      · rintro (h | h)
        · exact h
        · exact absurd ((Re.nullable_iff a).2 h.1) hn
  | alt a b iha ihb => simp [Re.deriv, Re.matches_alt_iff, iha, ihb]
  | star a iha =>
    simp only [Re.deriv, Re.matches_seq_iff, iha]
    constructor
    · rintro ⟨s1, s2, hs, ha, hst⟩
      subst hs
      exact Re.Matches.starCons ha hst
    · intro h
      exact Re.matches_star_cons h

/-- The matcher decides the relation. -/
theorem Re.test_iff (r : Re) (s : List Char) : r.test s = true ↔ Re.Matches r s := by
  induction s generalizing r with
  | nil => exact Re.nullable_iff r
  | cons c cs ih => rw [Re.test, ih, Re.matches_deriv_iff]

theorem Re.matches_star_cls_iff (p : Char → Bool) (s : List Char) :
    Re.Matches (.star (.cls p)) s ↔ ∀ c ∈ s, p c = true := by
  induction s with
  | nil => simp only [List.not_mem_nil, false_implies, implies_true, iff_true]; exact .starNil
  | cons c cs ih =>
    constructor
    · intro h
      obtain ⟨s1, s2, hs, ha, hst⟩ := Re.matches_star_cons h
      obtain ⟨c', hc', hp⟩ := (Re.matches_cls_iff p _).1 ha
      simp only [List.cons.injEq] at hc'
      obtain ⟨hcc, hs1⟩ := hc'
      subst hcc hs1
      simp only [List.nil_append] at hs
      subst hs
      intro x hx
      rcases List.mem_cons.1 hx with e | hx'
      · rw [e]; exact hp
      · exact (ih.1 hst) x hx'
    · intro h
      have h1 : Re.Matches (.cls p) [c] := .cls (h c (by simp))
      have h2 : Re.Matches (.star (.cls p)) cs := ih.2 (fun x hx => h x (by simp [hx]))
      exact Re.Matches.starCons h1 h2

theorem Re.matches_plus_cls_iff (p : Char → Bool) (s : List Char) :
    Re.Matches (Re.plus (.cls p)) s ↔ s ≠ [] ∧ ∀ c ∈ s, p c = true := by
  simp only [Re.plus, Re.matches_seq_iff, Re.matches_cls_iff, Re.matches_star_cls_iff]
  constructor
  · rintro ⟨s1, s2, hs, ⟨c, hc, hp⟩, hall⟩
    subst hc hs
    refine ⟨by simp, fun x hx => ?_⟩
    rcases List.mem_cons.1 hx with e | hx'
    · rw [e]; exact hp
    · exact hall x hx'
  · rintro ⟨hne, hall⟩
    cases s with
    | nil => exact absurd rfl hne
    | cons c cs =>
      exact ⟨[c], cs, rfl, ⟨c, rfl, hall c (by simp)⟩, fun x hx => hall x (by simp [hx])⟩

theorem Re.matches_times_cls_iff (p : Char → Bool) (n : Nat) (s : List Char) :
    Re.Matches (Re.times (.cls p) n) s ↔ s.length = n ∧ ∀ c ∈ s, p c = true := by
  induction n generalizing s with
  | zero =>
    simp only [Re.times, Re.matches_eps_iff, List.length_eq_zero]
    constructor
    · intro h; subst h; simp
    · intro h; exact h.1
  | succ n ih =>
    simp only [Re.times, Re.matches_seq_iff, Re.matches_cls_iff, ih]
    constructor
    · rintro ⟨s1, s2, hs, ⟨c, hc, hp⟩, hlen, hall⟩
      subst hc hs
      refine ⟨by simp [hlen], fun x hx => ?_⟩
      rcases List.mem_cons.1 hx with e | hx'
      · rw [e]; exact hp
      · exact hall x hx'
    · rintro ⟨hlen, hall⟩
      cases s with
      | nil => simp at hlen
      | cons c cs =>
        exact ⟨[c], cs, rfl, ⟨c, rfl, hall c (by simp)⟩, by simpa using hlen,
          fun x hx => hall x (by simp [hx])⟩

theorem Re.matches_upTo_cls_iff (p : Char → Bool) (n : Nat) (s : List Char) :
    Re.Matches (Re.upTo (.cls p) n) s ↔ s.length ≤ n ∧ ∀ c ∈ s, p c = true := by
  induction n generalizing s with
  | zero =>
    simp only [Re.upTo, Re.matches_eps_iff, Nat.le_zero, List.length_eq_zero]
    constructor
    · intro h; subst h; simp
    · intro h; exact h.1
  | succ n ih =>
    simp only [Re.upTo, Re.opt, Re.matches_alt_iff, Re.matches_seq_iff, Re.matches_cls_iff,
      Re.matches_eps_iff, ih]
    constructor
    · rintro (⟨s1, s2, hs, ⟨c, hc, hp⟩, hlen, hall⟩ | h)
      · subst hc hs
        refine ⟨by simp; omega, fun x hx => ?_⟩
        rcases List.mem_cons.1 hx with e | hx'
        · rw [e]; exact hp
        · exact hall x hx'
      · subst h; simp
    · rintro ⟨hlen, hall⟩
      cases s with
      | nil => exact Or.inr rfl
      | cons c cs =>
        refine Or.inl ⟨[c], cs, rfl, ⟨c, rfl, hall c (by simp)⟩, ?_,
          fun x hx => hall x (by simp [hx])⟩
        simp only [List.length_cons] at hlen
        omega

theorem Re.matches_between_cls_iff (p : Char → Bool) (n m : Nat) (hnm : n ≤ m)
    (s : List Char) :
    Re.Matches (Re.between (.cls p) n m) s ↔
      n ≤ s.length ∧ s.length ≤ m ∧ ∀ c ∈ s, p c = true := by
  simp only [Re.between, Re.matches_seq_iff, Re.matches_times_cls_iff, Re.matches_upTo_cls_iff]
  constructor
  · rintro ⟨s1, s2, hs, ⟨hl1, h1⟩, hl2, h2⟩
    subst hs
    refine ⟨by simp; omega, by simp; omega, fun x hx => ?_⟩
    rcases List.mem_append.1 hx with h | h
    · exact h1 x h
    · exact h2 x h
  · rintro ⟨hn, hm, hall⟩
    refine ⟨s.take n, s.drop n, (List.take_append_drop n s).symm,
      ⟨by simp [hn], fun x hx => hall x (List.mem_of_mem_take hx)⟩,
      by simp; omega, fun x hx => hall x (List.mem_of_mem_drop hx)⟩

/-! ## The form -/

theorem errorOf_setError (k message k' : String) (e : Errors) :
    errorOf k' (setError k message e) = if k = k' then some message else errorOf k' e := by
  induction e with
  | nil => simp [setError, errorOf]
  | cons p rest ih =>
    obtain ⟨j, m⟩ := p
    by_cases hj : j = k
    · subst hj
      by_cases hk : j = k' <;> simp [setError, errorOf, hk]
    · by_cases hk : k = k'
      · subst hk
        simp [setError, errorOf, hj, ih]
      · by_cases hj' : j = k'
        · subst hj'
          simp [setError, errorOf, hj, hk]
        · simp [setError, errorOf, hj, hj', hk, ih]

theorem errorOf_check (cond : Bool) (k message k' : String) (e : Errors) :
    errorOf k' (check cond k message e)
      = if cond = true ∧ k = k' then some message else errorOf k' e := by
  cases cond <;> simp [check, errorOf_setError]

theorem errors_eq_nil_iff (e : Errors) : e = [] ↔ ∀ k, errorOf k e = none := by
  cases e with
  | nil => simp [errorOf]
  | cons p rest =>
    obtain ⟨j, m⟩ := p
    simp only [reduceCtorEq, false_iff, not_forall]
    exact ⟨j, by simp [errorOf]⟩

theorem jsTrim_isEmpty_iff (s : String) : (jsTrim s.data).isEmpty = true ↔ Blank s := by
  unfold jsTrim Blank
  rw [List.isEmpty_iff, List.reverse_eq_nil_iff, List.dropWhile_eq_nil_iff]
  simp only [List.mem_reverse]
  constructor
  · intro h
    have hnil : s.data.dropWhile isJsSpace = [] := by
      by_contra hne
      have := List.head_dropWhile_not isJsSpace s.data hne
      rw [h _ (List.head_mem hne)] at this
      cases this
    exact List.dropWhile_eq_nil_iff.1 hnil
  · intro h c hc
    exact h c ((List.dropWhile_sublist isJsSpace).subset hc)

theorem string_ne_empty_iff (s : String) : (s != "") = true ↔ s.data ≠ [] := by
  cases s with
  | mk cs =>
    simp only [bne_iff_ne, ne_eq]
    constructor
    · intro h e
      apply h
      rw [show cs = [] from e]
    · intro h e
      apply h
      have := congrArg String.data e
      simpa using this

theorem string_eq_empty_iff (s : String) : (s == "") = true ↔ s = "" := by
  simp

theorem errorOf_name (f : FormData) :
    errorOf "name" (validateForm f).1
      = if (jsTrim f.name.data).isEmpty then some "Name is required" else none := by
  simp [validateForm, errorOf_check, errorOf]

theorem errorOf_location (f : FormData) :
    errorOf "location" (validateForm f).1
      = if (jsTrim f.location.data).isEmpty then some "Location is required" else none := by
  simp [validateForm, errorOf_check, errorOf]

theorem errorOf_farmSize (f : FormData) :
    errorOf "farmSize" (validateForm f).1
      = if (jsTrim f.farmSize.data).isEmpty then some "Farm size is required" else none := by
  simp [validateForm, errorOf_check, errorOf]

theorem errorOf_soilType (f : FormData) :
    errorOf "soilType" (validateForm f).1
      = if f.soilType = "" then some "Please select soil type" else none := by
  simp [validateForm, errorOf_check, errorOf]

theorem errorOf_lastCrop (f : FormData) :
    errorOf "lastCrop" (validateForm f).1
      = if f.lastCrop = "" then some "Please specify last crop" else none := by
  simp [validateForm, errorOf_check, errorOf]

theorem errorOf_irrigationType (f : FormData) :
    errorOf "irrigationType" (validateForm f).1
      = if f.irrigationType = "" then some "Please select irrigation type" else none := by
  simp [validateForm, errorOf_check, errorOf]

theorem errorOf_email (f : FormData) :
    errorOf "email" (validateForm f).1
      = if (f.email != "" && !emailPattern.test f.email.data) = true
          then some "Please enter a valid email address"
        else if (jsTrim f.email.data).isEmpty then some "Email is required" else none := by
  simp [validateForm, errorOf_check, errorOf]

theorem errorOf_mobile (f : FormData) :
    errorOf "mobile" (validateForm f).1
      = if (f.mobile != "" && !mobilePattern.test (stripSpaces f.mobile.data)) = true
          then some "Please enter a valid mobile number"
        else if (jsTrim f.mobile.data).isEmpty then some "Mobile number is required"
        else none := by
  simp [validateForm, errorOf_check, errorOf]

theorem errorOf_soilPH (f : FormData) :
    errorOf "soilPH" (validateForm f).1
      = if (f.soilPH != "" && ((toNumber f.soilPH).lt (JsNum.ofInt 0) ||
            (JsNum.ofInt 14).lt (toNumber f.soilPH))) = true
          then some "pH should be between 0-14" else none := by
  simp [validateForm, errorOf_check, errorOf]

theorem notSpaceOrAt_iff (c : Char) :
    notSpaceOrAt c = true ↔ isJsSpace c = false ∧ c ≠ '@' := by
  simp [notSpaceOrAt]

theorem emailPattern_matches_iff (s : List Char) :
    Re.Matches emailPattern s ↔
      ∃ l d t, s = l ++ '@' :: (d ++ '.' :: t) ∧
        (l ≠ [] ∧ ∀ c ∈ l, notSpaceOrAt c = true) ∧
        (d ≠ [] ∧ ∀ c ∈ d, notSpaceOrAt c = true) ∧
        (t ≠ [] ∧ ∀ c ∈ t, notSpaceOrAt c = true) := by
  simp only [emailPattern, Re.matches_seq_iff, Re.matches_plus_cls_iff, Re.matches_cls_iff]
  constructor
  · rintro ⟨l, r1, hs, hl, a, r2, hr1, ⟨c1, ha, hc1⟩, d, r3, hr2, hd, b, t, hr3, ⟨c2, hb, hc2⟩, ht⟩
    have e1 : c1 = '@' := by simpa using hc1
    have e2 : c2 = '.' := by simpa using hc2
    subst hs hr1 ha hr2 hr3 hb e1 e2
    exact ⟨l, d, t, by simp, hl, hd, ht⟩
  · rintro ⟨l, d, t, hs, hl, hd, ht⟩
    exact ⟨l, '@' :: (d ++ '.' :: t), hs, hl, ['@'], d ++ '.' :: t, rfl, ⟨'@', rfl, by simp⟩,
      d, '.' :: t, rfl, hd, ['.'], t, rfl, ⟨'.', rfl, by simp⟩, ht⟩

theorem emailPattern_test_iff (s : List Char) : emailPattern.test s = true ↔ EmailShape s := by
  rw [Re.test_iff, emailPattern_matches_iff]
  unfold EmailShape
  constructor
  · rintro ⟨l, d, t, hs, ⟨hl, hal⟩, ⟨hd, had⟩, ⟨ht, hat⟩⟩
    have hcl : l.count '@' = 0 :=
      List.count_eq_zero.2 (fun h => ((notSpaceOrAt_iff _).1 (hal _ h)).2 rfl)
    have hcd : d.count '@' = 0 :=
      List.count_eq_zero.2 (fun h => ((notSpaceOrAt_iff _).1 (had _ h)).2 rfl)
    have hct : t.count '@' = 0 :=
      List.count_eq_zero.2 (fun h => ((notSpaceOrAt_iff _).1 (hat _ h)).2 rfl)
    refine ⟨?_, ?_, l, d, t, hs, hl, hd, ht⟩
    · intro c hc
      rw [hs] at hc
      simp only [List.mem_append, List.mem_cons] at hc
      rcases hc with h | h | h | h | h
      · exact ((notSpaceOrAt_iff _).1 (hal _ h)).1
      · rw [h]; decide
      · exact ((notSpaceOrAt_iff _).1 (had _ h)).1
      · rw [h]; decide
      · exact ((notSpaceOrAt_iff _).1 (hat _ h)).1
    · rw [hs]
      simp [List.count_append, List.count_cons, hcl, hcd, hct]
  · rintro ⟨hsp, hcount, l, d, t, hs, hl, hd, ht⟩
    rw [hs] at hcount
    simp only [List.count_append, List.count_cons, beq_self_eq_true, if_true] at hcount
    have hdot : (('.' : Char) == '@') = false := by decide
    simp only [hdot, Bool.false_eq_true, if_false, Nat.add_zero] at hcount
    have hcl : l.count '@' = 0 := by omega
    have hcd : d.count '@' = 0 := by omega
    have hct : t.count '@' = 0 := by omega
    have hmem : ∀ c, c ∈ l ∨ c ∈ d ∨ c ∈ t → c ∈ s := by
      intro c hc
      rw [hs]
      simp only [List.mem_append, List.mem_cons]
      rcases hc with h | h | h
      · exact Or.inl h
      · exact Or.inr (Or.inr (Or.inl h))
      · exact Or.inr (Or.inr (Or.inr (Or.inr h)))
    refine ⟨l, d, t, hs, ⟨hl, fun c hc => ?_⟩, ⟨hd, fun c hc => ?_⟩, ⟨ht, fun c hc => ?_⟩⟩
    · exact (notSpaceOrAt_iff c).2 ⟨hsp c (hmem c (Or.inl hc)),
        fun e => List.count_eq_zero.1 hcl (e ▸ hc)⟩
    · exact (notSpaceOrAt_iff c).2 ⟨hsp c (hmem c (Or.inr (Or.inl hc))),
        fun e => List.count_eq_zero.1 hcd (e ▸ hc)⟩
    · exact (notSpaceOrAt_iff c).2 ⟨hsp c (hmem c (Or.inr (Or.inr hc))),
        fun e => List.count_eq_zero.1 hct (e ▸ hc)⟩

theorem EmailShape.not_blank {s : String} (h : EmailShape s.data) : ¬ Blank s := by
  intro hb
  obtain ⟨hsp, _, l, d, t, hs, hl, _, _⟩ := h
  cases l with
  | nil => exact hl rfl
  | cons c l' =>
    have hc : c ∈ s.data := by rw [hs]; simp
    have h1 := hsp c hc
    rw [hb c hc] at h1
    cases h1

theorem mobilePattern_test_iff (s : List Char) : mobilePattern.test s = true ↔ MobileShape s := by
  rw [Re.test_iff]
  simp only [mobilePattern, Re.opt, Re.matches_seq_iff, Re.matches_alt_iff, Re.matches_cls_iff,
    Re.matches_eps_iff, Re.matches_between_cls_iff _ 10 13 (by decide)]
  unfold MobileShape
  constructor
  · rintro ⟨s1, s2, hs, h1, h10, h13, hall⟩
    rcases h1 with ⟨c, hc, hplus⟩ | h1
    · have e : c = '+' := by simpa using hplus
      subst hc e
      exact ⟨s2, Or.inr hs, h10, h13, hall⟩
    · subst h1
      exact ⟨s2, Or.inl hs, h10, h13, hall⟩
  · rintro ⟨ds, hs, h10, h13, hall⟩
    rcases hs with hs | hs
    · exact ⟨[], ds, hs, Or.inr rfl, h10, h13, hall⟩
    · exact ⟨['+'], ds, hs, Or.inl ⟨'+', rfl, by simp⟩, h10, h13, hall⟩

theorem stripSpaces_blank {s : String} (h : Blank s) : stripSpaces s.data = [] := by
  unfold stripSpaces
  rw [List.filter_eq_nil_iff]
  intro c hc
  simp [h c hc]

theorem MobileShape.ne_nil {s : List Char} (h : MobileShape s) : s ≠ [] := by
  obtain ⟨ds, hs, h10, _, _⟩ := h
  rcases hs with hs | hs
  · intro e
    rw [hs] at e
    rw [e] at h10
    simp at h10
  · rw [hs]; simp

theorem JsNum.le_eq_not_lt (a b : JsNum) (ha : a ≠ .nan) (hb : b ≠ .nan) :
    a.le b = !b.lt a := by
  cases a with
  | nan => exact absurd rfl ha
  | negInf => cases b <;> simp_all [JsNum.le, JsNum.lt]
  | posInf => cases b <;> simp_all [JsNum.le, JsNum.lt]
  | fin m e =>
    cases b with
    | nan => exact absurd rfl hb
    | negInf => simp [JsNum.le, JsNum.lt]
    | posInf => simp [JsNum.le, JsNum.lt]
    | fin n f =>
      simp only [JsNum.le, JsNum.lt, min_comm f e]
      by_cases h : m * 2 ^ (e - min e f).toNat ≤ n * 2 ^ (f - min e f).toNat
      · simp [h, Int.not_lt.2 h]
      · simp [h, Int.not_le.1 h]

theorem inRange_iff (x : JsNum) (hx : x ≠ .nan) :
    InRange x ↔ x.lt (JsNum.ofInt 0) = false ∧ (JsNum.ofInt 14).lt x = false := by
  unfold InRange
  rw [JsNum.le_eq_not_lt _ _ (by simp [JsNum.ofInt]) hx,
    JsNum.le_eq_not_lt _ _ hx (by simp [JsNum.ofInt])]
  simp

theorem not_inRange_nan : ¬ InRange .nan := by
  simp [InRange, JsNum.le]

theorem lt_nan (x : JsNum) : JsNum.lt .nan x = false ∧ JsNum.lt x .nan = false := by
  cases x <;> simp [JsNum.lt]

/-! ## The invariant of the collection is kept by every handler -/

theorem valid_iff_ids (s : Store) :
    s.Valid ↔ (∀ o ∈ s.map (getField "_id"), ∃ v, o = some v ∧ ∀ xs, v ≠ .arr xs) ∧
      (s.map (getField "_id")).Pairwise (fun a b => a ≠ b) := by
  unfold Store.Valid
  rw [List.pairwise_map]
  simp only [List.mem_map, forall_exists_index, and_imp, forall_apply_eq_imp_iff₂]

theorem valid_of_same_ids {s s' : Store}
    (h : s'.map (getField "_id") = s.map (getField "_id")) (hs : s.Valid) : s'.Valid := by
  rw [valid_iff_ids] at hs ⊢
  rw [h]
  exact hs

theorem map_id_replaceFirst {p : Doc → Bool} {d d' : Doc} {s : Store}
    (hfind : s.find? p = some d) (hid : getField "_id" d' = getField "_id" d) :
    (replaceFirst p d' s).map (getField "_id") = s.map (getField "_id") := by
  induction s with
  | nil => rfl
  | cons a rest ih =>
    by_cases hp : p a = true
    · have had : a = d := by simpa [List.find?_cons, hp] using hfind
      subst had
      simp [replaceFirst, hp, hid]
    · have hrest : rest.find? p = some d := by simpa [List.find?_cons, hp] using hfind
      simp [replaceFirst, hp, ih hrest]

theorem removeFirst_sublist (p : Doc → Bool) (s : Store) : (removeFirst p s).Sublist s := by
  induction s with
  | nil => exact List.Sublist.slnil
  | cons a rest ih =>
    by_cases hp : p a = true
    · simp only [removeFirst, hp, if_true]
      exact List.sublist_cons_self a rest
    · simp only [removeFirst, hp]
      exact List.Sublist.cons₂ a ih

theorem valid_of_sublist {s s' : Store} (h : s'.Sublist s) (hs : s.Valid) : s'.Valid :=
  ⟨fun d hd => hs.1 d (h.subset hd), hs.2.sublist h⟩

theorem valid_insertOne {env : Env} {s s' : Store} {body : Doc} {id : BVal}
    (h : insertOne env s body = .ok (id, s')) (hs : s.Valid) : s'.Valid := by
  unfold insertOne at h
  cases hfault : env.fault with
  | some t => simp [hfault] at h
  | none =>
    simp only [hfault] at h
    split at h
    · cases h
    · rename_i hnarr
      split at h
      · cases h
      · rename_i hany
        simp only [Except.ok.injEq, Prod.mk.injEq] at h
        obtain ⟨hid, hs'⟩ := h
        subst hs'
        rw [hid] at hany hnarr ⊢
        have hnew : ∀ d ∈ s, getField "_id" d ≠ some id := by
          intro d hd hEq
          apply hany
          rw [List.any_eq_true]
          exact ⟨d, hd, by simp [hEq]⟩
        refine ⟨?_, ?_⟩
        · intro d hd
          rcases List.mem_append.1 hd with hold | hnew'
          · exact hs.1 d hold
          · simp only [List.mem_singleton] at hnew'
            subst hnew'
            exact ⟨id, by simp [getField], fun xs hxs => hnarr xs hxs⟩
        · rw [List.pairwise_append]
          refine ⟨hs.2, by simp, ?_⟩
          intro a ha b hb
          simp only [List.mem_singleton] at hb
          subst hb
          simp only [getField, if_true]
          exact hnew a ha

theorem handle_valid (env : Env) (w : World) (req : Request) (hs : w.farmers.Valid) :
    (handle env w req).2.farmers.Valid := by
  cases req with
  | register body =>
    have hf := connectDB_farmers env w
    simp only [handle]
    unfold register
    rcases hc : connectDB env w with ⟨r, w1⟩
    rw [hc] at hf
    simp only at hf
    cases r with
    | error e => simp only [hf]; exact hs
    | ok n =>
      simp only
      cases hi : insertOne env w1.farmers body with
      | error e => simp only [hf]; exact hs
      | ok r =>
        obtain ⟨id, s⟩ := r
        exact valid_insertOne hi (by rw [hf]; exact hs)
  | login body => simp only [handle, farmers_login]; exact hs
  | getProfile farmerId => simp only [handle, farmers_getProfile]; exact hs
  | getDashboard farmerId => simp only [handle, farmers_getDashboard]; exact hs
  | listAll => simp only [handle, farmers_listAll]; exact hs
  | updateProfile farmerId body =>
    simp only [handle]
    rcases updateProfile_cases env w farmerId body with ⟨_, hsame⟩ | ⟨i, n, s, _, hu, _, hs'⟩
    · rw [hsame]; exact hs
    · rw [hs']
      obtain ⟨es, _, hcase⟩ := updateOneSet_ok hu
      rcases hcase with ⟨_, e, _⟩ | ⟨d, d', hfind, happ, e, _⟩
      · rw [e]; exact hs
      · rw [e]
        exact valid_of_same_ids (map_id_replaceFirst hfind (applySet_keeps_id happ)) hs
  | appendCrop farmerId body =>
    simp only [handle]
    rcases appendCrop_cases env w farmerId body with ⟨_, hsame⟩ | ⟨i, n, s, _, hu, _, hs'⟩
    · rw [hsame]; exact hs
    · rw [hs']
      obtain ⟨tr, _, hcase⟩ := updateOnePush_ok hu
      rcases hcase with ⟨_, e, _⟩ | ⟨d, d', hfind, happ, e, _⟩
      · rw [e]; exact hs
      · rw [e]
        obtain ⟨xs, _, hd'⟩ := applyPush_ok happ
        have hid : getField "_id" d' = getField "_id" d := by
          rw [hd']
          exact getField_setField_ne (by decide) _ d
        exact valid_of_same_ids (map_id_replaceFirst hfind hid) hs
  | deleteById farmerId =>
    have hf := connectDB_farmers env w
    simp only [handle]
    unfold deleteById
    rcases hc : connectDB env w with ⟨r, w1⟩
    rw [hc] at hf
    simp only at hf
    cases r with
    | error e => simp only [hf]; exact hs
    | ok n =>
      simp only
      cases hi : newObjectId farmerId with
      | error e => simp only [hf]; exact hs
      | ok i =>
        simp only
        cases hd : deleteOne env w1.farmers i with
        | error e => simp only [hf]; exact hs
        | ok r =>
          obtain ⟨n, s⟩ := r
          simp only
          unfold deleteOne at hd
          cases hfault : env.fault with
          | some t => simp [hfault] at hd
          | none =>
            simp only [hfault] at hd
            cases hfind : w1.farmers.find? (hasId i) with
            | none =>
              simp only [hfind, Except.ok.injEq, Prod.mk.injEq] at hd
              rw [← hd.2, hf]
              exact hs
            | some d =>
              simp only [hfind, Except.ok.injEq, Prod.mk.injEq] at hd
              rw [← hd.2, hf]
              exact valid_of_sublist (removeFirst_sublist _ _) hs

/-- What the login handler answers to a body with a string e-mail and a string password. -/
theorem login_answers (env : Env) (w : World) (body : Doc) (e p : String)
    (hconn : env.Connects w) (hfault : env.fault = none)
    (he : getField "email" body = some (.str e))
    (hp : getField "password" body = some (.str p)) :
    (∀ farmer, (login env w body).1
          = .json (.doc [("success", .bool true), ("farmer", .doc farmer)]) ↔
        FirstWith (Credentials e p) farmer w.farmers) ∧
      ((login env w body).1
          = ⟨401, .doc [("success", .bool false), ("message", .str "Invalid credentials")]⟩ ↔
        ∀ d ∈ w.farmers, ¬ Credentials e p d) ∧
      ((∃ farmer, (login env w body).1
          = .json (.doc [("success", .bool true), ("farmer", .doc farmer)])) ∨
        (login env w body).1
          = ⟨401, .doc [("success", .bool false), ("message", .str "Invalid credentials")]⟩) ∧
      (login env w body).2.farmers = w.farmers := by
  obtain ⟨n, w1, hc, hw1, _⟩ := connectDB_ok hconn
  have hq : ∀ d, (valueMatches (.str e) (getField "email" d) &&
      valueMatches (.str p) (getField "password" d)) = true ↔ Credentials e p d := by
    intro d
    simp [Credentials, valueMatches_str_iff]
  have hfindOne : findOne env w1.farmers
      [("email", getField "email" body), ("password", getField "password" body)]
      = .ok (w.farmers.find? (fun d => valueMatches (.str e) (getField "email" d) &&
          valueMatches (.str p) (getField "password" d))) := by
    have : docMatches env [("email", [Cond.eq (.str e)]), ("password", [Cond.eq (.str p)])]
        = fun d => valueMatches (.str e) (getField "email" d) &&
          valueMatches (.str p) (getField "password" d) := by
      funext d
      simp [docMatches, Cond.holds]
    simp [findOne, hfault, he, hp, parseFilter, parseCond, this, hw1]
  cases hfind : w.farmers.find? (fun d => valueMatches (.str e) (getField "email" d) &&
      valueMatches (.str p) (getField "password" d)) with
  | none =>
    have hlogin : login env w body
        = (⟨401, .doc [("success", .bool false), ("message", .str "Invalid credentials")]⟩,
            w1) := by
      simp [login, hc, hfindOne, hfind]
    have hnone : ∀ d ∈ w.farmers, ¬ Credentials e p d := by
      intro d hd hcred
      have := List.find?_eq_none.1 hfind d hd
      exact this ((hq d).2 hcred)
    rw [hlogin]
    refine ⟨fun farmer => ⟨fun h => ?_, fun h => ?_⟩, ⟨fun _ => hnone, fun _ => rfl⟩,
      Or.inr rfl, hw1⟩
    · simp [Response.json] at h
    · obtain ⟨pre, post, hs, hf, _⟩ := h
      exact absurd hf (hnone farmer (by rw [hs]; simp))
  | some f =>
    have hlogin : login env w body
        = (.json (.doc [("success", .bool true), ("farmer", .doc f)]), w1) := by
      simp [login, hc, hfindOne, hfind]
    have hfirst := (find?_eq_some_iff_firstWith hq w.farmers f).1 hfind
    rw [hlogin]
    refine ⟨fun farmer => ⟨fun h => ?_, fun h => ?_⟩, ⟨fun h => ?_, fun h => ?_⟩,
      Or.inl ⟨f, rfl⟩, hw1⟩
    · have hEq : f = farmer := by simpa [Response.json] using h
      rw [← hEq]
      exact hfirst
    · have := (find?_eq_some_iff_firstWith hq w.farmers farmer).2 h
      rw [hfind] at this
      cases this
      rfl
    · simp [Response.json] at h
    · obtain ⟨pre, post, hs, hf, _⟩ := hfirst
      exact absurd hf (h f (by rw [hs]; simp))

theorem rootOf_plain {field : String} (h : PlainName field) : rootOf field = field := by
  unfold rootOf
  have : field.data.takeWhile (fun c => decide (c ≠ '.')) = field.data := by
    rw [List.takeWhile_eq_self_iff]
    intro c hc
    simp only [ne_eq, decide_not, Bool.not_eq_eq_eq_not, Bool.not_true, decide_eq_false_iff_not]
    intro e
    exact h.1 (e ▸ hc)
  rw [this]


/-- What `updateOneSet` and `updateOnePush` give when no document has the identifier and the
update document parses. -/
theorem updateOne_without_profile {env : Env} {s : Store} {i : ObjectId}
    (hfault : env.fault = none) (hfind : s.find? (hasId i) = none) :
    (∀ patch es, parseSet env patch = .ok es → updateOneSet env s i patch = .ok (0, s)) ∧
      (∀ entry tr, parsePush env entry = .ok tr →
        updateOnePush env s i "crops" entry = .ok (0, s)) := by
  refine ⟨fun patch es hes => ?_, fun entry tr htr => ?_⟩
  · simp [updateOneSet, hfault, hes, hfind]
  · simp [updateOnePush, hfault, htr, hfind]

theorem parseSet_plain (env : Env) {field : String} (v : BVal) (hplain : PlainName field)
    (hne : field ≠ "") : parseSet env [(field, v)] = .ok [⟨[field], false, v⟩] := by
  have hs : (splitDots field.data).map String.mk = [field] := by
    rw [splitDots_of_no_dot _ hplain.1]; rfl
  simp [parseSet, parseSetKeys, parseSetKey, hs, hne, hplain.2, pathsConflict]

/-- The count `updateOneSet` and `updateOnePush` report is 0 or 1. -/
theorem modifiedCount_le_one {env : Env} {s s' : Store} {i : ObjectId} {n : Nat} :
    (∀ body, updateOneSet env s i body = .ok (n, s') → n = 0 ∨ n = 1) ∧
      (∀ field body, updateOnePush env s i field body = .ok (n, s') → n = 0 ∨ n = 1) := by
  refine ⟨fun body h => ?_, fun field body h => ?_⟩
  · obtain ⟨_, _, hcase⟩ := updateOneSet_ok h
    rcases hcase with ⟨_, _, hn⟩ | ⟨d, d', _, _, _, hn⟩
    · exact Or.inl hn
    · rw [hn]; split <;> simp
  · obtain ⟨_, _, hcase⟩ := updateOnePush_ok h
    rcases hcase with ⟨_, _, hn⟩ | ⟨d, d', _, _, _, hn⟩
    · exact Or.inl hn
    · rw [hn]; split <;> simp

/-- What `findOne` by identifier gives: the store's fault, or the first document with the
identifier. -/
theorem findOne_idFilter_cases (env : Env) (s : Store) (i : ObjectId) :
    (∃ t, env.fault = some t ∧ findOne env s (idFilter i) = .error (.fault t)) ∨
      (env.fault = none ∧ findOne env s (idFilter i) = .ok (s.find? (hasId i))) := by
  cases hf : env.fault with
  | some t => exact Or.inl ⟨t, rfl, by simp [findOne, hf]⟩
  | none => exact Or.inr ⟨rfl, findOne_idFilter hf s i⟩

/-! ## The connection over several calls -/

theorem find?_of_noProfile {i : ObjectId} {s : Store} (h : NoProfile i s) :
    s.find? (hasId i) = none := by
  rw [List.find?_eq_none]
  intro d hd
  simp [h d hd]

theorem connectMany_cached {w : World} {n : Nat} (h : w.dbInstance = some n) (envs : List Env) :
    (connectMany envs w).1 = envs.map (fun _ => .ok n) ∧ (connectMany envs w).2 = w := by
  induction envs with
  | nil => exact ⟨rfl, rfl⟩
  | cons env rest ih =>
    simp only [connectMany, connectDB_cached h, List.map_cons]
    exact ⟨by rw [ih.1], ih.2⟩

/-- A handler leaves the connection state as its call of `connectDB` leaves it. -/
theorem handle_connection (env : Env) (w : World) (req : Request) :
    (handle env w req).2.dbInstance = (connectDB env w).2.dbInstance ∧
      (handle env w req).2.connects = (connectDB env w).2.connects ∧
      (handle env w req).2.handles = (connectDB env w).2.handles := by
  cases req <;>
    simp only [handle, register, login, getProfile, updateProfile, getDashboard, appendCrop,
      listAll, deleteById] <;>
    rcases connectDB env w with ⟨r, w1⟩ <;>
    cases r <;>
    simp only <;>
    (repeat' split) <;>
    first
      | exact ⟨rfl, rfl, rfl⟩
      | simp

theorem handleMany_cached {w : World} {n : Nat} (h : w.dbInstance = some n)
    (steps : List (Env × Request)) :
    (handleMany steps w).2.dbInstance = some n ∧
      (handleMany steps w).2.connects = w.connects ∧
      (handleMany steps w).2.handles = w.handles := by
  induction steps generalizing w with
  | nil => exact ⟨h, rfl, rfl⟩
  | cons step rest ih =>
    obtain ⟨env, req⟩ := step
    have hc := handle_connection env w req
    rw [connectDB_cached h] at hc
    simp only [handleMany]
    have := ih (w := (handle env w req).2) (by rw [hc.1]; exact h)
    exact ⟨this.1, by rw [this.2.1, hc.2.1], by rw [this.2.2, hc.2.2]⟩

/-- The store operation of each handler fails when the store is at fault. -/
theorem store_fault {env : Env} {t : String} (h : env.fault = some t) (s : Store) :
    (∀ body, insertOne env s body = .error (.fault t)) ∧
      (∀ f, findOne env s f = .error (.fault t)) ∧
      findAll env s = .error (.fault t) ∧
      (∀ i, deleteOne env s i = .error (.fault t)) ∧
      (∀ i body, updateOneSet env s i body = .error (.fault t)) ∧
      (∀ i field body, updateOnePush env s i field body = .error (.fault t)) := by
  refine ⟨fun _ => ?_, fun _ => ?_, ?_, fun _ => ?_, fun _ _ => ?_, fun _ _ _ => ?_⟩ <;>
    simp [insertOne, findOne, findAll, deleteOne, updateOneSet, updateOnePush, h]

/-- A response with status 500 is the `catch` branch of the handler, for some exception. -/
theorem handle_500 (env : Env) (w : World) (req : Request)
    (h : (handle env w req).1.status = 500) :
    ∃ e : Thrown, (handle env w req).1 = serverError env req.failText e := by
  revert h
  cases req <;>
    simp only [handle, register, login, getProfile, updateProfile, getDashboard, appendCrop,
      listAll, deleteById, Request.failText] <;>
    rcases connectDB env w with ⟨r, w1⟩ <;>
    cases r <;>
    simp only <;>
    (repeat' split) <;>
    intro h <;>
    first
      | exact ⟨_, rfl⟩
      | (simp [Response.json] at h)

/-! ## Connections that fail -/

theorem connectDB_failed {env : Env} {w : World} {t : String} (hnone : w.dbInstance = none)
    (hfail : env.connect = .error t) :
    connectDB env w = (.error (.connect t), { w with connects := w.connects + 1 }) := by
  simp [connectDB, hnone, hfail]

theorem connectDB_fresh {env : Env} {w : World} (hnone : w.dbInstance = none)
    (hok : env.connect = .ok ()) :
    connectDB env w
      = (.ok w.handles,
          { w with connects := w.connects + 1, handles := w.handles + 1,
                   dbInstance := some w.handles }) := by
  simp [connectDB, hnone, hok]

/-- A call that leaves a handle in `dbInstance` either found it there or made a connection. -/
theorem connectDB_sets_cache {env : Env} {w : World} {h : Nat}
    (hset : (connectDB env w).2.dbInstance = some h) :
    w.dbInstance = some h ∨
      (w.dbInstance = none ∧ env.connect = .ok () ∧ (connectDB env w).1 = .ok h) := by
  cases hdb : w.dbInstance with
  | some n =>
    rw [connectDB_cached hdb] at hset
    exact Or.inl (by rw [← hdb]; exact hset)
  | none =>
    cases hc : env.connect with
    | error t =>
      rw [connectDB_failed hdb hc] at hset
      simp [hdb] at hset
    | ok u =>
      cases u
      rw [connectDB_fresh hdb hc] at hset ⊢
      simp only [Option.some.injEq] at hset
      exact Or.inr ⟨rfl, rfl, by rw [hset]⟩

theorem connectMany_sets_cache (envs : List Env) {w : World} {h : Nat}
    (hset : (connectMany envs w).2.dbInstance = some h) :
    w.dbInstance = some h ∨ ∃ env ∈ envs, env.connect = .ok () := by
  induction envs generalizing w with
  | nil => exact Or.inl hset
  | cons env rest ih =>
    simp only [connectMany] at hset
    rcases ih hset with h1 | ⟨e, he, hok⟩
    · rcases connectDB_sets_cache h1 with h2 | ⟨-, hok, -⟩
      · exact Or.inl h2
      · exact Or.inr ⟨env, by simp, hok⟩
    · exact Or.inr ⟨e, by simp [he], hok⟩

theorem connectMany_all_failed (envs : List Env) {w : World} (hnone : w.dbInstance = none)
    (hall : ∀ env ∈ envs, ∃ t, env.connect = .error t) :
    List.Forall₂ (fun env r => ∃ t, env.connect = .error t ∧ r = .error (.connect t))
        envs (connectMany envs w).1 ∧
      (connectMany envs w).2
        = { w with connects := w.connects + envs.length } := by
  induction envs generalizing w with
  | nil => exact ⟨List.Forall₂.nil, rfl⟩
  | cons env rest ih =>
    obtain ⟨t, ht⟩ := hall env (by simp)
    have hrest := ih (w := { w with connects := w.connects + 1 }) hnone
      (fun e he => hall e (by simp [he]))
    simp only [connectMany, connectDB_failed hnone ht]
    refine ⟨List.Forall₂.cons ⟨t, ht, rfl⟩ hrest.1, ?_⟩
    rw [hrest.2]
    simp only [List.length_cons]
    congr 1
    omega

/-! ## The soil pH rule and calls in a row -/

/-- The soil pH rule on any string: `validateForm` raises no soil pH error exactly when `soilPH`
is empty, or does not convert to a number, or converts to a number in the closed range from 0
to 14; `"15"` gets
`pH should be between 0-14`, and `"6.8"`, `"0"` and `"14"` get no error. -/
theorem soilPH_rule (f : FormData) :
    (errorOf "soilPH" (validateForm f).1 = none ↔
        f.soilPH = "" ∨ toNumber f.soilPH = .nan ∨ InRange (toNumber f.soilPH)) ∧
      (f.soilPH = "15" →
        errorOf "soilPH" (validateForm f).1 = some "pH should be between 0-14") ∧
      (f.soilPH = "6.8" → errorOf "soilPH" (validateForm f).1 = none) ∧
      (f.soilPH = "0" → errorOf "soilPH" (validateForm f).1 = none) ∧
      (f.soilPH = "14" → errorOf "soilPH" (validateForm f).1 = none) := by
  refine ⟨?_, ?_, ?_, ?_, ?_⟩
  · rw [errorOf_soilPH]
    by_cases he : f.soilPH = ""
    · simp [he]
    · have hbne : (f.soilPH != "") = true := by simpa using he
      by_cases hn : toNumber f.soilPH = .nan
      · simp [hn, (lt_nan _).1, (lt_nan _).2]
      · rw [inRange_iff _ hn]
        simp [hbne, he, hn]
  all_goals
    intro h
    rw [errorOf_soilPH, h]
    decide

/-- Calls in a row: once a call of `connectDB` has succeeded with a handle, every later call, in whatever
environment, returns that same handle and leaves the state as it is, so that `client.connect`
is not called again; the same holds while the handlers serve requests in between: the cached
handle and the number of connection attempts stay as they are. -/
theorem connectDB_memoizes (env : Env) (w w1 : World) (n : Nat)
    (hok : connectDB env w = (.ok n, w1)) :
    (∀ envs, (connectMany envs w1).1 = envs.map (fun _ => .ok n) ∧
        (connectMany envs w1).2 = w1) ∧
      (∀ steps envs, (connectMany envs (handleMany steps w1).2).1 = envs.map (fun _ => .ok n) ∧
        (connectMany envs (handleMany steps w1).2).2.connects = w1.connects) := by
  have hdb := (connectDB_eq_ok hok).1
  refine ⟨fun envs => connectMany_cached hdb envs, fun steps envs => ?_⟩
  have hs := handleMany_cached hdb steps
  have hm := connectMany_cached hs.1 envs
  exact ⟨hm.1, by rw [hm.2, hs.2.1]⟩

/-! ## Calls of `connectDB` that overlap -/

/-- A call that runs alone, from its start to its end, is the function `connectDB`. -/
theorem step_alone (env : Env) (w : World) :
    (∀ h, w.dbInstance = some h →
        Proc.step ⟨w, []⟩ (.call env) = (some (connectDB env w).1, ⟨(connectDB env w).2, []⟩)) ∧
      (w.dbInstance = none →
        (Proc.step ⟨w, []⟩ (.call env)).1 = none ∧
          Proc.step (Proc.step ⟨w, []⟩ (.call env)).2 (.resume 0)
            = (some (connectDB env w).1, ⟨(connectDB env w).2, []⟩)) := by
  constructor
  · intro h hdb
    simp [Proc.step, connectDB, hdb]
  · intro hdb
    cases hc : env.connect with
    | error t => simp [Proc.step, connectDB, hdb, hc]
    | ok u => simp [Proc.step, connectDB, hdb, hc]

theorem step_cached {p : Proc} {n : Nat} (h : p.world.dbInstance = some n) (ev : Event) :
    (∃ m, (p.step ev).2.world.dbInstance = some m) ∧
      (p.step ev).2.world.connects = p.world.connects ∧
      (p.step ev).2.world.farmers = p.world.farmers := by
  cases ev with
  | call env => simp [Proc.step, h]
  | resume k =>
    simp only [Proc.step]
    split
    · exact ⟨⟨n, h⟩, rfl, rfl⟩
    · exact ⟨⟨n, h⟩, rfl, rfl⟩
    · exact ⟨⟨_, rfl⟩, rfl, rfl⟩

theorem run_cached (evs : List Event) {p : Proc} {n : Nat} (h : p.world.dbInstance = some n) :
    (∃ m, (Proc.run evs p).2.world.dbInstance = some m) ∧
      (Proc.run evs p).2.world.connects = p.world.connects := by
  induction evs generalizing p n with
  | nil => exact ⟨⟨n, h⟩, rfl⟩
  | cons ev rest ih =>
    obtain ⟨⟨m, hm⟩, hc, -⟩ := step_cached h ev
    simp only [Proc.run]
    exact ⟨(ih hm).1, by rw [(ih hm).2, hc]⟩

theorem step_settled {p : Proc} {n : Nat} (h : p.world.dbInstance = some n)
    (hw : p.waiting = []) (ev : Event) :
    p.step ev = (none, p) ∨ p.step ev = (some (.ok n), p) := by
  cases ev with
  | call env => right; simp [Proc.step, h]
  | resume k => left; simp [Proc.step, hw]

theorem run_settled (evs : List Event) {p : Proc} {n : Nat} (h : p.world.dbInstance = some n)
    (hw : p.waiting = []) :
    (∀ r ∈ (Proc.run evs p).1, r = none ∨ r = some (.ok n)) ∧ (Proc.run evs p).2 = p := by
  induction evs with
  | nil => exact ⟨by simp [Proc.run], rfl⟩
  | cons ev rest ih =>
    simp only [Proc.run]
    rcases step_settled h hw ev with hs | hs <;> rw [hs] <;> simp only
    · refine ⟨fun r hr => ?_, ih.2⟩
      rcases List.mem_cons.1 hr with rfl | hr
      · exact Or.inl rfl
      · exact ih.1 r hr
    · refine ⟨fun r hr => ?_, ih.2⟩
      rcases List.mem_cons.1 hr with rfl | hr
      · exact Or.inr rfl
      · exact ih.1 r hr

/-! ## The number input -/

theorem isDigit_mem {c : Char} (h : isDigit c = true) :
    c ∈ ['0', '1', '2', '3', '4', '5', '6', '7', '8', '9'] := by
  simp only [isDigit, Bool.and_eq_true, decide_eq_true_eq] at h
  have h1 : 48 ≤ c.toNat := h.1
  have h2 : c.toNat ≤ 57 := h.2
  have hc : c = Char.ofNat c.toNat := (Char.ofNat_toNat c).symm
  rw [hc]
  generalize c.toNat = n at h1 h2
  interval_cases n <;> decide

theorem isDigit_facts {c : Char} (h : isDigit c = true) :
    (∃ d, hexVal c = some d ∧ d.val < 10) ∧ isJsSpace c = false ∧ c ≠ '.' ∧ c ≠ '-' ∧
      c ≠ '+' := by
  have hm := isDigit_mem h
  simp only [List.mem_cons, List.mem_singleton, List.not_mem_nil, or_false] at hm
  rcases hm with rfl | rfl | rfl | rfl | rfl | rfl | rfl | rfl | rfl | rfl <;>
    decide

theorem roundToDouble_ne_nan (n d : Nat) : roundToDouble n d ≠ .nan := by
  unfold roundToDouble
  by_cases h : n = 0
  · simp [h]
  · rw [if_neg h]
    intro heq
    simp only [] at heq
    split_ifs at heq

theorem signed_ne_nan {x : JsNum} (b : Bool) (h : x ≠ .nan) : x.signed b ≠ .nan := by
  cases x <;> cases b <;> simp_all [JsNum.signed]

theorem foldl_digits (ds : List Char) (h : ∀ c ∈ ds, isDigit c = true) (a : Nat) :
    ∃ n, ds.foldl
        (fun acc c =>
          match acc, hexVal c with
          | some a, some d => if d.val < 10 then some (a * 10 + d.val) else none
          | _, _ => none)
        (some a) = some n := by
  induction ds generalizing a with
  | nil => exact ⟨a, rfl⟩
  | cons c rest ih =>
    obtain ⟨⟨d, hd, hlt⟩, -⟩ := isDigit_facts (h c (by simp))
    simp only [List.foldl_cons, hd, hlt, if_true]
    exact ih (fun x hx => h x (by simp [hx])) _

theorem digitsValue_digits {ds : List Char} (hne : ds ≠ [])
    (h : ∀ c ∈ ds, isDigit c = true) : ∃ n, digitsValue 10 ds = some n := by
  unfold digitsValue
  rw [if_neg hne]
  exact foldl_digits ds h 0

theorem exponentPart_of_valid {r : List Char} (h : validExponent r = true) :
    ∃ x, exponentPart r = some x := by
  cases r with
  | nil => exact ⟨0, rfl⟩
  | cons c t =>
    simp only [validExponent, Bool.and_eq_true, Bool.or_eq_true, beq_iff_eq] at h
    obtain ⟨hc, ht⟩ := h
    simp only [exponentPart, hc, if_true]
    split at ht <;> simp only [Bool.and_eq_true, Bool.not_eq_true', List.isEmpty_eq_false,
      List.all_eq_true] at ht <;>
      obtain ⟨n, hn⟩ := digitsValue_digits ht.1 ht.2 <;> simp [hn]

theorem validExponent_chars {r : List Char} (h : validExponent r = true) :
    ∀ c ∈ r, isJsSpace c = false := by
  cases r with
  | nil => simp
  | cons c t =>
    simp only [validExponent, Bool.and_eq_true, Bool.or_eq_true, beq_iff_eq] at h
    obtain ⟨hc, ht⟩ := h
    have hc' : isJsSpace c = false := by rcases hc with rfl | rfl <;> decide
    intro x hx
    rcases List.mem_cons.1 hx with rfl | hx
    · exact hc'
    · split at ht <;> simp only [Bool.and_eq_true, List.all_eq_true] at ht
      · rcases List.mem_cons.1 hx with rfl | hx
        · decide
        · exact (isDigit_facts (ht.2 x hx)).2.1
      · rcases List.mem_cons.1 hx with rfl | hx
        · decide
        · exact (isDigit_facts (ht.2 x hx)).2.1
      · exact (isDigit_facts (ht.2 x hx)).2.1

theorem decimalLiteral_of_valid {body : List Char} (h : validUnsigned body = true) :
    ∃ mx, decimalLiteral body = some mx := by
  unfold validUnsigned at h
  unfold decimalLiteral
  simp only []
  have hip : ∀ c ∈ body.takeWhile isDigit, isDigit c = true :=
    fun c hc => List.mem_takeWhile_imp hc
  generalize body.takeWhile isDigit = ip at h hip ⊢
  generalize body.dropWhile isDigit = r1 at h ⊢
  split at h
  · rename_i t
    simp only [Bool.and_eq_true, Bool.not_eq_true', List.isEmpty_eq_false] at h
    have hfp : ∀ c ∈ t.takeWhile isDigit, isDigit c = true :=
      fun c hc => List.mem_takeWhile_imp hc
    obtain ⟨x, hx⟩ := exponentPart_of_valid h.2
    obtain ⟨m, hm⟩ := @digitsValue_digits ('0' :: (ip ++ t.takeWhile isDigit)) (by simp)
      (by
        intro c hc
        rcases List.mem_cons.1 hc with rfl | hc
        · decide
        · rcases List.mem_append.1 hc with hc | hc
          · exact hip c hc
          · exact hfp c hc)
    rw [if_neg (by simp [h.1]), hm, hx]
    exact ⟨_, rfl⟩
  · simp only [Bool.and_eq_true, Bool.not_eq_true', List.isEmpty_eq_false] at h
    obtain ⟨x, hx⟩ := exponentPart_of_valid h.2
    obtain ⟨m, hm⟩ := @digitsValue_digits ('0' :: (ip ++ [])) (by simp)
      (by
        intro c hc
        rcases List.mem_cons.1 hc with rfl | hc
        · decide
        · exact hip c (by simpa using hc))
    rw [if_neg (by simp [h.1]), hm, hx]
    exact ⟨_, rfl⟩

theorem unsignedNumber_of_valid {body : List Char} (h : validUnsigned body = true) :
    unsignedNumber body ≠ .nan := by
  unfold unsignedNumber
  split
  · simp
  · obtain ⟨⟨m, x⟩, hmx⟩ := decimalLiteral_of_valid h
    rw [hmx]
    exact roundToDouble_ne_nan _ _

theorem validUnsigned_chars {body : List Char} (h : validUnsigned body = true) :
    ∀ c ∈ body, isJsSpace c = false := by
  unfold validUnsigned at h
  have hsplit := List.takeWhile_append_dropWhile isDigit body
  have hip : ∀ c ∈ body.takeWhile isDigit, isDigit c = true :=
    fun c hc => List.mem_takeWhile_imp hc
  generalize body.takeWhile isDigit = ip at h hip hsplit
  generalize body.dropWhile isDigit = r1 at h hsplit
  split at h
  · rename_i t
    simp only [Bool.and_eq_true] at h
    intro c hc
    rw [← hsplit] at hc
    rcases List.mem_append.1 hc with hc | hc
    · exact (isDigit_facts (hip c hc)).2.1
    · rcases List.mem_cons.1 hc with rfl | hc
      · decide
      · rw [← List.takeWhile_append_dropWhile isDigit t] at hc
        rcases List.mem_append.1 hc with hc | hc
        · exact (isDigit_facts (List.mem_takeWhile_imp hc)).2.1
        · exact validExponent_chars h.2 c hc
  · simp only [Bool.and_eq_true] at h
    intro c hc
    rw [← hsplit] at hc
    rcases List.mem_append.1 hc with hc | hc
    · exact (isDigit_facts (hip c hc)).2.1
    · exact validExponent_chars h.2 c hc

theorem jsTrim_of_no_space {cs : List Char} (h : ∀ c ∈ cs, isJsSpace c = false) :
    jsTrim cs = cs := by
  unfold jsTrim
  have h1 : cs.dropWhile isJsSpace = cs := by
    cases cs with
    | nil => rfl
    | cons a t => simp [List.dropWhile_cons, h a (by simp)]
  have h2 : cs.reverse.dropWhile isJsSpace = cs.reverse := by
    cases hr : cs.reverse with
    | nil => rfl
    | cons a t =>
      have : a ∈ cs := by
        rw [← List.mem_reverse, hr]
        simp
      simp [List.dropWhile_cons, h a this]
  rw [h1, h2, List.reverse_reverse]

theorem validFloat_chars {cs : List Char} (h : validFloat cs = true) :
    ∀ c ∈ cs, isJsSpace c = false := by
  unfold validFloat at h
  split at h
  · intro c hc
    rcases List.mem_cons.1 hc with rfl | hc
    · decide
    · exact validUnsigned_chars h c hc
  · exact validUnsigned_chars h

theorem validFloat_head {c d : Char} {ds : List Char} (hc : c = '0')
    (hd : isDigit d = false) (hd1 : d ≠ '.') (hd2 : d ≠ 'e') (hd3 : d ≠ 'E') :
    validFloat (c :: d :: ds) = false := by
  subst hc
  have h0 : isDigit '0' = true := by decide
  have hv : validUnsigned ('0' :: d :: ds) = false := by
    unfold validUnsigned
    simp only [List.dropWhile_cons, List.takeWhile_cons, h0, hd, if_true]
    split
    · rename_i heq
      simp only [Bool.false_eq_true, if_false, List.cons.injEq] at heq
      exact absurd heq.1 hd1
    · simp [validExponent, hd2, hd3]
  unfold validFloat
  split
  · rename_i heq
    simp at heq
  · exact hv

theorem toNumber_of_validFloat {s : String} (h : validFloat s.data = true) :
    toNumber s ≠ .nan := by
  unfold toNumber
  rw [jsTrim_of_no_space (validFloat_chars h)]
  generalize s.data = cs at h
  split
  · simp
  all_goals first
    | (rw [validFloat_head rfl (by decide) (by decide) (by decide) (by decide)] at h
       cases h)
    | skip
  · rename_i t
    have : validUnsigned ('+' :: t) = false := by
      simp [validUnsigned, List.dropWhile_cons, List.takeWhile_cons, isDigit]
    simp [validFloat, this] at h
  · exact signed_ne_nan _ (unsignedNumber_of_valid (by simpa [validFloat] using h))
  · refine unsignedNumber_of_valid ?_
    unfold validFloat at h
    split at h
    · rename_i hminus
      exact absurd rfl (hminus _)
    · exact h

theorem numberInputValue_value (entry : String) : NumberValue (numberInputValue entry) := by
  unfold numberInputValue
  by_cases h : validFloat entry.data = true
  · rw [if_pos h]
    exact Or.inr h
  · rw [if_neg h]
    exact Or.inl rfl

theorem set_soilPH (name value : String) (f : FormData) :
    (f.set name value).soilPH = if name = "soilPH" then value else f.soilPH := by
  unfold FormData.set
  by_cases h : name = "soilPH"
  · have e1 : name ≠ "name" := by rw [h]; decide
    have e2 : name ≠ "email" := by rw [h]; decide
    have e3 : name ≠ "mobile" := by rw [h]; decide
    have e4 : name ≠ "location" := by rw [h]; decide
    have e5 : name ≠ "farmSize" := by rw [h]; decide
    have e6 : name ≠ "soilType" := by rw [h]; decide
    rw [if_neg e1, if_neg e2, if_neg e3, if_neg e4, if_neg e5, if_neg e6, if_pos h, if_pos h]
  · rw [if_neg h, if_neg h]
    by_cases h0 : name = "name"
    · rw [if_pos h0]
    rw [if_neg h0]
    by_cases h1 : name = "email"
    · rw [if_pos h1]
    rw [if_neg h1]
    by_cases h2 : name = "mobile"
    · rw [if_pos h2]
    rw [if_neg h2]
    by_cases h3 : name = "location"
    · rw [if_pos h3]
    rw [if_neg h3]
    by_cases h4 : name = "farmSize"
    · rw [if_pos h4]
    rw [if_neg h4]
    by_cases h5 : name = "soilType"
    · rw [if_pos h5]
    rw [if_neg h5]
    by_cases h6 : name = "lastCrop"
    · rw [if_pos h6]
    rw [if_neg h6]
    by_cases h7 : name = "irrigationType"
    · rw [if_pos h7]
    rw [if_neg h7]
    by_cases h8 : name = "fertilizerUsage"
    · rw [if_pos h8]
    rw [if_neg h8]
    by_cases h9 : name = "pesticidesUsed"
    · rw [if_pos h9]
    rw [if_neg h9]
    by_cases h10 : name = "farmingExperience"
    · rw [if_pos h10]
    rw [if_neg h10]

theorem handleSubmit_formData (reply : ServiceReply) (p : FarmerPage) :
    (FarmerLogin.handleSubmit reply p).formData = p.formData := by
  unfold FarmerLogin.handleSubmit
  simp only []
  split
  · cases reply with
    | rejected => rfl
    | resolved result =>
      simp only [FarmerLogin.afterReply]
      repeat' split
      all_goals rfl
  · rfl

theorem after_numberValue (events : List FormEvent) (p : FarmerPage)
    (h : NumberValue p.formData.soilPH) :
    NumberValue (FarmerLogin.after events p).formData.soilPH := by
  unfold FarmerLogin.after
  induction events generalizing p with
  | nil => exact h
  | cons ev rest ih =>
    rw [List.foldl_cons]
    apply ih
    cases ev with
    | change name entry =>
      simp only [FarmerLogin.handleInputChange, set_soilPH, targetValue]
      by_cases hn : name = "soilPH"
      · simp only [hn, if_true]
        exact numberInputValue_value entry
      · simp only [hn, if_false]
        exact h
    | upload file => exact h
    | submit reply =>
      simp only [handleSubmit_formData]
      exact h

theorem soilPH_of_numberValue (f : FormData) (h : NumberValue f.soilPH) :
    errorOf "soilPH" (validateForm f).1 = none ↔
      f.soilPH = "" ∨ InRange (toNumber f.soilPH) := by
  rw [(soilPH_rule f).1]
  constructor
  · rintro (he | hn | hr)
    · exact Or.inl he
    · rcases h with he | hv
      · exact Or.inl he
      · exact absurd hn (toNumber_of_validFloat hv)
    · exact Or.inr hr
  · rintro (he | hr)
    · exact Or.inl he
    · exact Or.inr (Or.inr hr)

theorem soilPH_after_entry (events : List FormEvent) (entry : String) (p : FarmerPage) :
    (FarmerLogin.after (events ++ [.change "soilPH" entry]) p).formData.soilPH
      = numberInputValue entry := by
  unfold FarmerLogin.after
  rw [List.foldl_append]
  simp only [List.foldl_cons, List.foldl_nil, FarmerLogin.handleInputChange, set_soilPH,
    targetValue, if_true]

/-! ## The claims -/

/-- C1: when the connection and the store operation succeed, the register handler stores the
request body verbatim (after the `_id` the driver draws for it) and answers
`{success: true, farmerId}`; a following `getProfile` with that `farmerId` returns the stored
record, in which every field of the body has the submitted value.  This holds for every body
without an `_id` of its own, which includes every document of a validated form. -/
theorem register_then_getProfile (env env2 : Env) (w : World) (body : Doc)
    (hconn : env.Connects w) (hfault : env.fault = none) (hfault2 : env2.fault = none)
    (hvalid : w.farmers.Valid) (hnoid : getField "_id" body = none)
    (hfresh : ∀ d ∈ w.farmers, getField "_id" d ≠ some (.oid env.newId)) :
    (register env w body).1
        = .json (.doc [("success", .bool true), ("farmerId", .oid env.newId)]) ∧
      (register env w body).2.farmers = w.farmers ++ [("_id", .oid env.newId) :: body] ∧
      (getProfile env2 (register env w body).2 env.newId.toHexString).1
        = .json (.doc (("_id", .oid env.newId) :: body)) ∧
      ∀ k v, getField k body = some v →
        getField k (("_id", .oid env.newId) :: body) = some v := by
  obtain ⟨n, w1, hc, hw1, hdb⟩ := connectDB_ok hconn
  have hany : (w.farmers.any fun d => decide (getField "_id" d = some (.oid env.newId))) = false := by
    rw [List.any_eq_false]
    intro d hd
    simpa using hfresh d hd
  have hreg : register env w body
      = (.json (.doc [("success", .bool true), ("farmerId", .oid env.newId)]),
          { w1 with farmers := w.farmers ++ [("_id", .oid env.newId) :: body] }) := by
    simp [register, hc, insertOne, hfault, hnoid, hw1, hany, eraseField_of_absent _ _ hnoid]
  have hfind : (w.farmers ++ [("_id", BVal.oid env.newId) :: body]).find? (hasId env.newId)
      = some (("_id", .oid env.newId) :: body) := by
    apply find?_append_of_none
    · intro d hd
      by_contra hne
      exact hfresh d hd (field_of_hasId (hvalid.noArrayId hd) (by simpa using hne))
    · exact hasId_of_field (by simp [getField])
  refine ⟨by rw [hreg], by rw [hreg], ?_, ?_⟩
  · rw [hreg]
    simp [getProfile, connectDB, hdb, newObjectId_toHexString, findOne_idFilter hfault2, hfind]
  · intro k v hk
    have hne : ¬ ("_id" = k) := by
      intro h
      rw [← h, hnoid] at hk
      cases hk
    simp [getField, hne, hk]

/-- C1 at the scenario of the specification: registering it next to an existing profile, then
fetching it, gives a record whose `name` is `"A"`. -/
theorem register_then_getProfile_witness :
    (register (Env.calm (ObjectId.rep 1)) (World.fresh oneProfile) scenarioBody).1
        = .json (.doc [("success", .bool true), ("farmerId", .oid (ObjectId.rep 1))]) ∧
      (getProfile (Env.calm (ObjectId.rep 2))
          (register (Env.calm (ObjectId.rep 1)) (World.fresh oneProfile) scenarioBody).2
          "111111111111111111111111").1
        = .json (.doc (("_id", .oid (ObjectId.rep 1)) :: scenarioBody)) ∧
      getField "name" (("_id", .oid (ObjectId.rep 1)) :: scenarioBody) = some (.str "A") :=
  have h := register_then_getProfile (Env.calm (ObjectId.rep 1)) (Env.calm (ObjectId.rep 2))
    (World.fresh oneProfile) scenarioBody (Or.inr rfl) rfl rfl oneProfile_valid (by decide)
    (by decide)
  ⟨h.1, h.2.2.1, h.2.2.2 "name" (.str "A") (by decide)⟩

/-- C2 (amended): for every field name and every value, `PUT /:farmerId` with the body
`{field: v}` leaves every profile with another identifier as it is, and in every profile leaves
every top-level field at its prior value except the one the name addresses: the name itself when
it is a plain name (no `.` and no `$`), and else the part of the name before its first dot.  For
a plain name, a success answer for an existing profile means that the profile is the old one with
`field` set to `v`. -/
theorem updateProfile_changes_only_field (env : Env) (w : World) (farmerId field : String)
    (v : BVal) (i : ObjectId) (hid : ObjectId.ofString farmerId = some i) :
    List.Forall₂
        (fun d d' => (hasId i d = false → d' = d) ∧
          ∀ k, k ≠ rootOf field → getField k d' = getField k d)
        w.farmers (updateProfile env w farmerId [(field, v)]).2.farmers ∧
      (PlainName field → rootOf field = field ∧
        ∀ d, w.farmers.find? (hasId i) = some d →
          (updateProfile env w farmerId [(field, v)]).1.status = 200 →
          (updateProfile env w farmerId [(field, v)]).2.farmers.find? (hasId i)
            = some (setField field v d)) := by
  have hnew : newObjectId farmerId = .ok i := by simp [newObjectId, hid]
  rcases updateProfile_cases env w farmerId [(field, v)] with
    ⟨hst, hsame⟩ | ⟨j, n, s, hj, hu, hresp, hs⟩
  · rw [hsame]
    refine ⟨forall₂_same (fun d => ⟨fun _ => rfl, fun _ _ => rfl⟩) _, fun hplain => ?_⟩
    refine ⟨rootOf_plain hplain, ?_⟩
    intro d _ h200
    rw [hst] at h200
    cases h200
  · rw [hnew] at hj
    cases hj
    rw [hs]
    obtain ⟨es, hes, hcase⟩ := updateOneSet_ok hu
    rcases hcase with ⟨hnone, hs', _⟩ | ⟨d, d', hfind, happ, hs', _⟩
    · subst hs'
      refine ⟨forall₂_same (fun d => ⟨fun _ => rfl, fun _ _ => rfl⟩) _, fun hplain => ?_⟩
      refine ⟨rootOf_plain hplain, ?_⟩
      intro d hd
      rw [hnone] at hd
      cases hd
    · have hkeep := applySet_keeps_id happ
      subst hs'
      refine ⟨?_, fun hplain => ⟨rootOf_plain hplain, ?_⟩⟩
      · refine List.Forall₂.imp ?_ (replaceFirst_forall₂ d' hfind)
        intro a b hab
        rcases hab with hab | ⟨hpa, had, hbd⟩
        · exact ⟨fun _ => hab, fun k _ => by rw [hab]⟩
        · refine ⟨fun hfalse => ?_, fun k hk => ?_⟩
          · rw [hpa] at hfalse
            cases hfalse
          · rw [hbd, had]
            refine applySet_other happ (parseSet_roots hes ?_)
            intro kv hkv
            simp only [List.mem_singleton] at hkv
            rw [hkv]
            exact fun e => hk e.symm
      · intro d0 hd0 _
        rw [hfind] at hd0
        cases hd0
        have hes' := parseSet_single hplain hes
        subst hes'
        rw [← applySet_single happ]
        apply find?_replaceFirst hfind
        rw [hasId_congr hkeep]
        exact List.find?_some hfind

/-- C2 (amended) at a stored profile: setting `name` keeps `email`, `password` and `crops`. -/
theorem updateProfile_changes_only_field_witness :
    (updateProfile (Env.calm (ObjectId.rep 1)) (World.fresh oneProfile)
        "000000000000000000000000" [("name", .str "C")]).2.farmers.find? (hasId (ObjectId.rep 0))
      = some [("_id", .oid (ObjectId.rep 0)), ("name", .str "C"), ("email", .str "b@c.org"),
          ("password", .str "secret"), ("crops", .arr [.doc [("crop", .str "Rice")]])] :=
  ((updateProfile_changes_only_field (Env.calm (ObjectId.rep 1)) (World.fresh oneProfile)
    "000000000000000000000000" "name" (.str "C") (ObjectId.rep 0) (by decide)).2
    ⟨by decide, by decide⟩).2 profileB (by decide) (by decide)

/-- C2 as stated fails for a dotted field name: the body `{"farm.area": v}` is a path into the
embedded document `farm`, so the field `farm`, which is not the field named in the request, does
not keep its prior value. -/
theorem updateProfile_dotted_name_changes_root :
    (updateProfile (Env.calm (ObjectId.rep 1)) (World.fresh farmStore)
        "000000000000000000000000" [("farm.area", .str "2 acres")]).2.farmers
      = [[("_id", .oid (ObjectId.rep 0)), ("name", .str "B"),
          ("farm", .doc [("size", .str "1 acre"), ("area", .str "2 acres")])]] ∧
    ¬ List.Forall₂
        (fun d d' => (hasId (ObjectId.rep 0) d = false → d' = d) ∧
          ∀ k, k ≠ "farm.area" → getField k d' = getField k d)
        farmStore
        (updateProfile (Env.calm (ObjectId.rep 1)) (World.fresh farmStore)
          "000000000000000000000000" [("farm.area", .str "2 acres")]).2.farmers := by
  have h : (updateProfile (Env.calm (ObjectId.rep 1)) (World.fresh farmStore)
        "000000000000000000000000" [("farm.area", .str "2 acres")]).2.farmers
      = [[("_id", .oid (ObjectId.rep 0)), ("name", .str "B"),
          ("farm", .doc [("size", .str "1 acre"), ("area", .str "2 acres")])]] := by decide
  refine ⟨h, ?_⟩
  rw [h]
  intro hall
  simp only [farmStore, List.forall₂_cons] at hall
  have := hall.1.2 "farm" (by decide)
  revert this
  decide

/-- C3 (amended): for an existing profile and a crop entry that has no `$each` field, a
successful `POST /:farmerId/crops` reports one updated profile and makes its crops the previous
sequence (empty when absent) followed by the entry: one entry longer, the prior entries in their
order, every other field untouched. -/
theorem appendCrop_appends (env : Env) (w : World) (farmerId : String) (body d : Doc)
    (i : ObjectId) (hid : ObjectId.ofString farmerId = some i)
    (hfind : w.farmers.find? (hasId i) = some d) (hentry : getField "$each" body = none)
    (hok : (appendCrop env w farmerId body).1.status = 200) :
    (appendCrop env w farmerId body).1
        = .json (.doc [("success", .bool true), ("updated", .num 1)]) ∧
      ∃ d', (appendCrop env w farmerId body).2.farmers.find? (hasId i) = some d' ∧
        cropsOf d' = cropsOf d ++ [.doc body] ∧
        (cropsOf d').length = (cropsOf d).length + 1 ∧
        ∀ k, k ≠ "crops" → getField k d' = getField k d := by
  have hnew : newObjectId farmerId = .ok i := by simp [newObjectId, hid]
  rcases appendCrop_cases env w farmerId body with ⟨hst, _⟩ | ⟨j, n, s, hj, hu, hresp, hs⟩
  · rw [hst] at hok
    cases hok
  · rw [hnew] at hj
    cases hj
    obtain ⟨tr, htr, hcase⟩ := updateOnePush_ok hu
    have htr' : tr = fun xs => xs ++ [.doc body] := by
      simp only [parsePush, hentry, Except.ok.injEq] at htr
      exact htr.symm
    subst htr'
    rcases hcase with ⟨hnone, _, _⟩ | ⟨d0, d', hfind0, happ, hs', hn⟩
    · rw [hnone] at hfind
      cases hfind
    · rw [hfind] at hfind0
      cases hfind0
      have hcrops := cropsOf_applyPush happ
      obtain ⟨xs, _, hd'⟩ := applyPush_ok happ
      have hframe : ∀ k, k ≠ "crops" → getField k d' = getField k d := by
        intro k hk
        rw [hd']
        exact getField_setField_ne hk _ d
      have hne : d' ≠ d := by
        intro e
        rw [e] at hcrops
        have := congrArg List.length hcrops
        simp at this
      refine ⟨?_, d', ?_, hcrops, by rw [hcrops]; simp, hframe⟩
      · rw [hresp, hn, if_neg hne]
        rfl
      · rw [hs, hs']
        apply find?_replaceFirst hfind
        rw [hasId_congr (hframe "_id" (by decide))]
        exact List.find?_some hfind

/-- C3 (amended) at a stored profile with one crop: the new entry comes second. -/
theorem appendCrop_appends_witness :
    ∃ d', (appendCrop (Env.calm (ObjectId.rep 1)) (World.fresh oneProfile)
        "000000000000000000000000" [("crop", .str "Wheat")]).2.farmers.find?
          (hasId (ObjectId.rep 0)) = some d' ∧
      cropsOf d' = cropsOf profileB ++ [.doc [("crop", .str "Wheat")]] :=
  have h := appendCrop_appends (Env.calm (ObjectId.rep 1)) (World.fresh oneProfile)
    "000000000000000000000000" [("crop", .str "Wheat")] profileB (ObjectId.rep 0)
    (by decide) (by decide) (by decide) (by decide)
  ⟨h.2.choose, h.2.choose_spec.1, h.2.choose_spec.2.1⟩

/-- C3 as stated fails for an entry that is an `$each` modifier document: the append succeeds,
and the crops grow by the two elements of its array instead of by the entry itself. -/
theorem appendCrop_each_appends_two :
    (appendCrop (Env.calm (ObjectId.rep 1)) (World.fresh oneProfile) "000000000000000000000000"
        [("$each", .arr [.doc [("crop", .str "Wheat")], .doc [("crop", .str "Maize")]])]).1
      = .json (.doc [("success", .bool true), ("updated", .num 1)]) ∧
    (appendCrop (Env.calm (ObjectId.rep 1)) (World.fresh oneProfile) "000000000000000000000000"
        [("$each", .arr [.doc [("crop", .str "Wheat")], .doc [("crop", .str "Maize")]])]
      ).2.farmers.map cropsOf
      = [[.doc [("crop", .str "Rice")], .doc [("crop", .str "Wheat")],
          .doc [("crop", .str "Maize")]]] ∧
    [BVal.doc [("crop", .str "Rice")], .doc [("crop", .str "Wheat")],
        .doc [("crop", .str "Maize")]]
      ≠ cropsOf profileB ++
        [.doc [("$each", .arr [.doc [("crop", .str "Wheat")], .doc [("crop", .str "Maize")]])]] := by
  decide

/-- C4 (amended): when the connection and the store operation succeed and the body gives
`email` and `password` as strings, the login handler answers `{success: true, farmer}` exactly
for the first record whose `email` and `password` each hold the supplied string (equal to it, or
an array containing it), and answers 401 `Invalid credentials` exactly when no record does; it
answers one of the two and does not change the collection.  A returned farmer whose `email` and
`password` are no arrays has exactly the supplied e-mail and password. -/
theorem login_iff_credentials (env : Env) (w : World) (body : Doc) (e p : String)
    (hconn : env.Connects w) (hfault : env.fault = none)
    (he : getField "email" body = some (.str e))
    (hp : getField "password" body = some (.str p)) :
    (∀ farmer, (login env w body).1
          = .json (.doc [("success", .bool true), ("farmer", .doc farmer)]) ↔
        FirstWith (Credentials e p) farmer w.farmers) ∧
      ((login env w body).1
          = ⟨401, .doc [("success", .bool false), ("message", .str "Invalid credentials")]⟩ ↔
        ∀ d ∈ w.farmers, ¬ Credentials e p d) ∧
      ((∃ farmer, (login env w body).1
          = .json (.doc [("success", .bool true), ("farmer", .doc farmer)])) ∨
        (login env w body).1
          = ⟨401, .doc [("success", .bool false), ("message", .str "Invalid credentials")]⟩) ∧
      (login env w body).2.farmers = w.farmers ∧
      ∀ farmer, (login env w body).1
          = .json (.doc [("success", .bool true), ("farmer", .doc farmer)]) →
        (∀ xs, getField "email" farmer ≠ some (.arr xs)) →
        (∀ xs, getField "password" farmer ≠ some (.arr xs)) →
        getField "email" farmer = some (.str e) ∧ getField "password" farmer = some (.str p) := by
  obtain ⟨h1, h2, h3, h4⟩ := login_answers env w body e p hconn hfault he hp
  refine ⟨h1, h2, h3, h4, ?_⟩
  intro farmer hresp hne hnp
  obtain ⟨_, _, _, hcred, _⟩ := (h1 farmer).1 hresp
  obtain ⟨hE, hP⟩ := hcred
  refine ⟨?_, ?_⟩
  · rcases hE with h | ⟨xs, h, _⟩
    · exact h
    · exact absurd h (hne xs)
  · rcases hP with h | ⟨xs, h, _⟩
    · exact h
    · exact absurd h (hnp xs)

/-- C4 (amended) at a wrong password: the answer is 401. -/
theorem login_iff_credentials_witness :
    (login (Env.calm (ObjectId.rep 1)) (World.fresh oneProfile)
        [("email", .str "b@c.org"), ("password", .str "wrong")]).1
      = ⟨401, .doc [("success", .bool false), ("message", .str "Invalid credentials")]⟩ :=
  ((login_iff_credentials (Env.calm (ObjectId.rep 1)) (World.fresh oneProfile)
    [("email", .str "b@c.org"), ("password", .str "wrong")] "b@c.org" "wrong"
    (Or.inr rfl) rfl rfl rfl).2.1).2 (by
      intro d hd
      have hd' : d = profileB := by simpa [World.fresh, oneProfile] using hd
      subst hd'
      simp [Credentials, Holds, profileB, getField])

/-- C4 as stated fails for a body whose `email` and `password` are operator documents: with
`{"$ne": null}` for both, login returns a stored profile although no record has that e-mail
value or that password value.  It also fails for a record whose `email` is an array: login with
one of its elements returns the record although its e-mail is not equal to the supplied one. -/
theorem login_not_exact_match :
    ((login (Env.calm (ObjectId.rep 1)) (World.fresh oneProfile) operatorBody).1
        = .json (.doc [("success", .bool true), ("farmer", .doc profileB)]) ∧
      ¬ ∃ d ∈ oneProfile, getField "email" d = getField "email" operatorBody ∧
          getField "password" d = getField "password" operatorBody) ∧
    ((login (Env.calm (ObjectId.rep 1)) (World.fresh [profileTwoMails])
          [("email", .str "a@b.com"), ("password", .str "p")]).1
        = .json (.doc [("success", .bool true), ("farmer", .doc profileTwoMails)]) ∧
      ¬ ∃ d ∈ [profileTwoMails], getField "email" d = some (.str "a@b.com") ∧
          getField "password" d = some (.str "p")) := by
  decide

/-- C5 (amended): from a collection with unique identifiers, every request that is not an
update naming `crops` (or a path into it) and not an append with an `$each` document that has
further clauses leaves, for every profile that exists before and after, the previous crops as a
leading part of the new crops. -/
theorem crops_append_only (env : Env) (w : World) (req : Request) (hvalid : w.farmers.Valid)
    (hreq : req.KeepsCrops) :
    ∀ d ∈ w.farmers, ∀ d' ∈ (handle env w req).2.farmers,
      getField "_id" d' = getField "_id" d → cropsOf d <+: cropsOf d' := by
  intro d hd d' hd' hid
  rcases handle_grows env w req hreq d' hd' with hold | ⟨d0, hd0, hid0, hpre⟩ | hnew
  · rw [hvalid.eq_of_id hold hd hid]
  · rw [hvalid.eq_of_id hd (hd0) (hid.symm.trans hid0)]
    exact hpre
  · exact absurd hid (hnew d hd)

/-- C5 (amended) at an append: the old crops of the stored profile lead its new crops. -/
theorem crops_append_only_witness :
    cropsOf profileB <+: cropsOf (setField "crops"
      (.arr [.doc [("crop", .str "Rice")], .doc [("crop", .str "Wheat")]]) profileB) :=
  crops_append_only (Env.calm (ObjectId.rep 1)) (World.fresh oneProfile)
    (.appendCrop "000000000000000000000000" [("crop", .str "Wheat")]) oneProfile_valid
    (by intro items h; cases h) profileB (by decide)
    (setField "crops" (.arr [.doc [("crop", .str "Rice")], .doc [("crop", .str "Wheat")]])
      profileB) (by decide) (by decide)

/-- C5 as stated fails for the update endpoint: `PUT /:farmerId` with the body `{crops: []}`
removes the crop entries of the profile.  It also fails for an append whose body is an `$each`
document with a further clause, when the store resolves `$slice: 0` to the array cut to no
elements. -/
theorem crops_not_append_only :
    (¬ ∀ d ∈ oneProfile, ∀ d' ∈ (handle (Env.calm (ObjectId.rep 1)) (World.fresh oneProfile)
        (.updateProfile "000000000000000000000000" [("crops", .arr [])])).2.farmers,
      getField "_id" d' = getField "_id" d → cropsOf d <+: cropsOf d') ∧
    ¬ ∀ d ∈ oneProfile, ∀ d' ∈ (handle (Env.slicing (ObjectId.rep 1)) (World.fresh oneProfile)
        (.appendCrop "000000000000000000000000"
          [("$each", .arr []), ("$slice", .num 0)])).2.farmers,
      getField "_id" d' = getField "_id" d → cropsOf d <+: cropsOf d' := by
  decide

/-- C6: for a well-formed identifier and a collection with unique identifiers, when the admin
delete handler answers with success, its deleted count is 1 if a record with that identifier
existed and 0 if none did, and a following `getProfile` for the identifier never returns a
profile document: it answers `null` whenever its own store operation succeeds. -/
theorem deleteById_then_getProfile (env env2 : Env) (w : World) (farmerId : String)
    (i : ObjectId) (hid : ObjectId.ofString farmerId = some i) (hvalid : w.farmers.Valid)
    (hok : (deleteById env w farmerId).1.status = 200) :
    ((∃ d ∈ w.farmers, getField "_id" d = some (.oid i)) →
        (deleteById env w farmerId).1
          = .json (.doc [("success", .bool true), ("deleted", .num 1)])) ∧
      ((∀ d ∈ w.farmers, getField "_id" d ≠ some (.oid i)) →
        (deleteById env w farmerId).1
          = .json (.doc [("success", .bool true), ("deleted", .num 0)])) ∧
      (∀ farmer, (getProfile env2 (deleteById env w farmerId).2 farmerId).1
          ≠ .json (.doc farmer)) ∧
      (env2.fault = none →
        (getProfile env2 (deleteById env w farmerId).2 farmerId).1 = .json .null) := by
  have hnew : newObjectId farmerId = .ok i := by simp [newObjectId, hid]
  rcases hc : connectDB env w with ⟨r, w1⟩
  cases r with
  | error e => simp [deleteById, hc, serverError] at hok
  | ok n =>
    obtain ⟨hdb, hw1⟩ := connectDB_eq_ok hc
    cases hfault : env.fault with
    | some t => simp [deleteById, hc, hnew, deleteOne, hfault, serverError] at hok
    | none =>
      have hget : ∀ s' : Store, s'.find? (hasId i) = none →
          (∀ farmer, (getProfile env2 { w1 with farmers := s' } farmerId).1
            ≠ .json (.doc farmer)) ∧
          (env2.fault = none →
            (getProfile env2 { w1 with farmers := s' } farmerId).1 = .json .null) := by
        intro s' hs'
        have hcd : connectDB env2 { w1 with farmers := s' } = (.ok n, { w1 with farmers := s' }) :=
          connectDB_cached hdb
        cases hf2 : env2.fault with
        | some t =>
          refine ⟨fun farmer => ?_, fun h => by cases h⟩
          simp [getProfile, hcd, hnew, findOne, hf2, serverError, Response.json]
        | none =>
          have : (getProfile env2 { w1 with farmers := s' } farmerId).1 = .json .null := by
            simp [getProfile, hcd, hnew, findOne_idFilter hf2, hs']
          exact ⟨fun farmer => by rw [this]; simp [Response.json], fun _ => this⟩
      have hvalid1 : w1.farmers.Valid := by rw [hw1]; exact hvalid
      cases hfind : w1.farmers.find? (hasId i) with
      | none =>
        have hdel : deleteById env w farmerId
            = (.json (.doc [("success", .bool true), ("deleted", .num 0)]),
                { w1 with farmers := w1.farmers }) := by
          simp [deleteById, hc, hnew, deleteOne, hfault, hfind]
        have hnone : ¬ ∃ d ∈ w.farmers, getField "_id" d = some (.oid i) := by
          intro h
          rw [← hw1] at h
          obtain ⟨d, hd⟩ := (find?_hasId_isSome_iff hvalid1 i).2 h
          rw [hfind] at hd
          cases hd
        rw [hdel]
        exact ⟨fun h => absurd h hnone, fun _ => rfl, (hget _ hfind).1, (hget _ hfind).2⟩
      | some d =>
        have hdel : deleteById env w farmerId
            = (.json (.doc [("success", .bool true), ("deleted", .num 1)]),
                { w1 with farmers := removeFirst (hasId i) w1.farmers }) := by
          simp [deleteById, hc, hnew, deleteOne, hfault, hfind]
        have hsome : ∃ d ∈ w.farmers, getField "_id" d = some (.oid i) := by
          rw [← hw1]
          exact (find?_hasId_isSome_iff hvalid1 i).1 ⟨d, hfind⟩
        have hgone := find?_removeFirst_hasId hvalid1 i
        rw [hdel]
        refine ⟨fun _ => rfl, fun h => ?_, (hget _ hgone).1, (hget _ hgone).2⟩
        obtain ⟨d0, hd0, hid0⟩ := hsome
        exact absurd hid0 (h d0 hd0)

/-- C6 at a stored profile: one record deleted, then `null` for its identifier. -/
theorem deleteById_then_getProfile_witness :
    (deleteById (Env.calm (ObjectId.rep 1)) (World.fresh oneProfile)
        "000000000000000000000000").1
      = .json (.doc [("success", .bool true), ("deleted", .num 1)]) ∧
    (getProfile (Env.calm (ObjectId.rep 2))
        (deleteById (Env.calm (ObjectId.rep 1)) (World.fresh oneProfile)
          "000000000000000000000000").2 "000000000000000000000000").1 = .json .null :=
  have h := deleteById_then_getProfile (Env.calm (ObjectId.rep 1)) (Env.calm (ObjectId.rep 2))
    (World.fresh oneProfile) "000000000000000000000000" (ObjectId.rep 0) (by decide)
    oneProfile_valid (by decide)
  ⟨h.1 ⟨profileB, by decide, by decide⟩, h.2.2.2 rfl⟩

/-- C7: `validateForm` reports an error on `name`, `location` and `farmSize` exactly when the
field is empty or white space only, on `email` and `mobile` whenever it is, and on `soilType`,
`lastCrop` and `irrigationType` exactly when the field is empty; it returns true exactly when no
field has an error, and so never for a form with an empty name. -/
theorem validateForm_required (f : FormData) :
    (errorOf "name" (validateForm f).1 ≠ none ↔ Blank f.name) ∧
      (errorOf "location" (validateForm f).1 ≠ none ↔ Blank f.location) ∧
      (errorOf "farmSize" (validateForm f).1 ≠ none ↔ Blank f.farmSize) ∧
      (Blank f.email → errorOf "email" (validateForm f).1 ≠ none) ∧
      (Blank f.mobile → errorOf "mobile" (validateForm f).1 ≠ none) ∧
      (errorOf "soilType" (validateForm f).1 ≠ none ↔ f.soilType = "") ∧
      (errorOf "lastCrop" (validateForm f).1 ≠ none ↔ f.lastCrop = "") ∧
      (errorOf "irrigationType" (validateForm f).1 ≠ none ↔ f.irrigationType = "") ∧
      ((validateForm f).2 = true ↔ ∀ k, errorOf k (validateForm f).1 = none) ∧
      (f.name = "" → (validateForm f).2 = false) := by
  have hname : errorOf "name" (validateForm f).1 ≠ none ↔ Blank f.name := by
    rw [errorOf_name, ← jsTrim_isEmpty_iff]
    split <;> simp_all
  have hacc : (validateForm f).2 = true ↔ ∀ k, errorOf k (validateForm f).1 = none := by
    rw [← errors_eq_nil_iff]
    simp [validateForm]
  refine ⟨hname, ?_, ?_, ?_, ?_, ?_, ?_, ?_, hacc, ?_⟩
  · rw [errorOf_location, ← jsTrim_isEmpty_iff]
    split <;> simp_all
  · rw [errorOf_farmSize, ← jsTrim_isEmpty_iff]
    split <;> simp_all
  · intro hb
    rw [errorOf_email]
    split
    · simp
    · simp [(jsTrim_isEmpty_iff f.email).2 hb]
  · intro hb
    rw [errorOf_mobile]
    split
    · simp
    · simp [(jsTrim_isEmpty_iff f.mobile).2 hb]
  · rw [errorOf_soilType]
    split <;> simp_all
  · rw [errorOf_lastCrop]
    split <;> simp_all
  · rw [errorOf_irrigationType]
    split <;> simp_all
  · intro hempty
    have hb : Blank f.name := by
      intro c hc
      rw [hempty] at hc
      simp at hc
    have hne := hname.2 hb
    cases h2 : (validateForm f).2 with
    | false => rfl
    | true => exact absurd (hacc.1 h2 "name") hne

/-- C8: for a non-empty e-mail string `validateForm` raises no e-mail error exactly when the
string has the shape `local@domain.tld` (no white space, exactly one `@`, a non-empty part
before it, and after it a non-empty part, a dot and a non-empty part); `"foo@bar"` gets
`Please enter a valid email address` and `"a@b.com"` gets no error. -/
theorem email_rule (f : FormData) (hne : f.email ≠ "") :
    (errorOf "email" (validateForm f).1 = none ↔ EmailShape f.email.data) ∧
      (f.email = "foo@bar" →
        errorOf "email" (validateForm f).1 = some "Please enter a valid email address") ∧
      (f.email = "a@b.com" → errorOf "email" (validateForm f).1 = none) := by
  have hbne : (f.email != "") = true := by simpa using hne
  refine ⟨?_, ?_, ?_⟩
  · rw [errorOf_email]
    by_cases ht : emailPattern.test f.email.data = true
    · have hshape := (emailPattern_test_iff _).1 ht
      have hnb : (jsTrim f.email.data).isEmpty = false := by
        cases hb : (jsTrim f.email.data).isEmpty with
        | false => rfl
        | true => exact absurd ((jsTrim_isEmpty_iff f.email).1 hb) hshape.not_blank
      simp [hbne, ht, hnb, hshape]
    · have hshape : ¬ EmailShape f.email.data := fun h => ht ((emailPattern_test_iff _).2 h)
      simp [hbne, ht, hshape]
  · intro h
    rw [errorOf_email, h]
    decide
  · intro h
    rw [errorOf_email, h]
    decide

/-- C8 at the form of the scenario. -/
theorem email_rule_witness :
    errorOf "email" (validateForm scenarioForm).1 = none ↔ EmailShape "a@b.com".data :=
  (email_rule scenarioForm (by decide)).1

/-- C9 (amended): for a non-empty mobile string `validateForm` raises no mobile error exactly
when the string with all white space removed is an optional `+` followed by 10 to 13 decimal
digits; `"123"` is rejected and `"+919876543210"` is accepted. -/
theorem mobile_rule (f : FormData) (hne : f.mobile ≠ "") :
    (errorOf "mobile" (validateForm f).1 = none ↔ MobileShape (stripSpaces f.mobile.data)) ∧
      (f.mobile = "123" →
        errorOf "mobile" (validateForm f).1 = some "Please enter a valid mobile number") ∧
      (f.mobile = "+919876543210" → errorOf "mobile" (validateForm f).1 = none) := by
  have hbne : (f.mobile != "") = true := by simpa using hne
  refine ⟨?_, ?_, ?_⟩
  · rw [errorOf_mobile]
    by_cases ht : mobilePattern.test (stripSpaces f.mobile.data) = true
    · have hshape := (mobilePattern_test_iff _).1 ht
      have hnb : (jsTrim f.mobile.data).isEmpty = false := by
        cases hb : (jsTrim f.mobile.data).isEmpty with
        | false => rfl
        | true =>
          exact absurd (stripSpaces_blank ((jsTrim_isEmpty_iff f.mobile).1 hb)) hshape.ne_nil
      simp [hbne, ht, hnb, hshape]
    · have hshape : ¬ MobileShape (stripSpaces f.mobile.data) :=
        fun h => ht ((mobilePattern_test_iff _).2 h)
      simp [hbne, ht, hshape]
  · intro h
    rw [errorOf_mobile, h]
    decide
  · intro h
    rw [errorOf_mobile, h]
    decide

/-- C9 (amended) at the form of the scenario. -/
theorem mobile_rule_witness :
    errorOf "mobile" (validateForm scenarioForm).1 = none ↔
      MobileShape (stripSpaces "+911234567890".data) :=
  (mobile_rule scenarioForm (by decide)).1

/-- C9 as stated fails for a number written with spaces: `"+91 98765 43210"` raises no mobile
error although it is not a `+` followed by digits and nothing else. -/
theorem mobile_with_spaces_accepted :
    errorOf "mobile" (validateForm { scenarioForm with mobile := "+91 98765 43210" }).1 = none ∧
      ¬ MobileShape "+91 98765 43210".data := by
  refine ⟨by decide, ?_⟩
  rintro ⟨ds, hs, _, _, hall⟩
  have hmem : ' ' ∈ ds := by
    rcases hs with hs | hs
    · rw [← hs]; decide
    · have : ds = "91 98765 43210".data := by
        have := List.tail_eq_of_cons_eq hs.symm
        rw [this]
      rw [this]; decide
  have := hall ' ' hmem
  revert this
  decide

/-- C10: in every state of the form, that is after any entries, file choices and submissions
on the page as it is first rendered, `validateForm` raises no soil pH error exactly when
`soilPH` is empty or its value lies in the closed range from 0 to 14; the same holds of every
form whose `soilPH` is a value that the number input can have.  After the entry `15` the field
holds `15` and gets `pH should be between 0-14`; after the entries `6.8`, `0` and `14` it holds
them and gets no error. -/
theorem soilPH_in_range (events : List FormEvent) :
    (errorOf "soilPH" (validateForm (FarmerLogin.after events FarmerPage.initial).formData).1
          = none ↔
        (FarmerLogin.after events FarmerPage.initial).formData.soilPH = "" ∨
          InRange (toNumber (FarmerLogin.after events FarmerPage.initial).formData.soilPH)) ∧
      (∀ f : FormData, NumberValue f.soilPH →
        (errorOf "soilPH" (validateForm f).1 = none ↔
          f.soilPH = "" ∨ InRange (toNumber f.soilPH))) ∧
      ((FarmerLogin.after (events ++ [.change "soilPH" "15"]) FarmerPage.initial).formData.soilPH
          = "15" ∧
        errorOf "soilPH" (validateForm
            (FarmerLogin.after (events ++ [.change "soilPH" "15"]) FarmerPage.initial).formData).1
          = some "pH should be between 0-14") ∧
      ((FarmerLogin.after (events ++ [.change "soilPH" "6.8"]) FarmerPage.initial).formData.soilPH
          = "6.8" ∧
        errorOf "soilPH" (validateForm
            (FarmerLogin.after (events ++ [.change "soilPH" "6.8"]) FarmerPage.initial).formData).1
          = none) ∧
      ((FarmerLogin.after (events ++ [.change "soilPH" "0"]) FarmerPage.initial).formData.soilPH
          = "0" ∧
        errorOf "soilPH" (validateForm
            (FarmerLogin.after (events ++ [.change "soilPH" "0"]) FarmerPage.initial).formData).1
          = none) ∧
      ((FarmerLogin.after (events ++ [.change "soilPH" "14"]) FarmerPage.initial).formData.soilPH
          = "14" ∧
        errorOf "soilPH" (validateForm
            (FarmerLogin.after (events ++ [.change "soilPH" "14"]) FarmerPage.initial).formData).1
          = none) := by
  refine ⟨soilPH_of_numberValue _ (after_numberValue events _ (Or.inl rfl)),
    fun f hf => soilPH_of_numberValue f hf, ?_, ?_, ?_, ?_⟩
  all_goals
    rw [errorOf_soilPH, soilPH_after_entry]
    decide

/-- C10 at the entries `7`, then `abc`, which the number input does not take, then `15`. -/
theorem soilPH_in_range_witness :
    (FarmerLogin.after [.change "soilPH" "7", .change "soilPH" "abc"]
        FarmerPage.initial).formData.soilPH = "" ∧
      errorOf "soilPH" (validateForm
          (FarmerLogin.after
            [.change "soilPH" "7", .change "soilPH" "abc", .change "soilPH" "15"]
            FarmerPage.initial).formData).1
        = some "pH should be between 0-14" :=
  ⟨by decide,
    (soilPH_in_range [.change "soilPH" "7", .change "soilPH" "abc"]).2.2.1.2⟩

/-- C11: for an existing profile, when the connection and the lookup succeed, the dashboard
handler answers `{crops: c}` where `c` is the value of the profile's `crops` field if that is
truthy and the empty array otherwise; so it answers `{crops: []}` when the field is absent and
exactly the profile's crops when the field holds an array.  In particular a profile registered
without a `crops` field, with no crop appended since, gets `{crops: []}` and not an error. -/
theorem getDashboard_crops :
    (∀ (env : Env) (w : World) (farmerId : String) (i : ObjectId) (d : Doc),
        ObjectId.ofString farmerId = some i → env.Connects w → env.fault = none →
        w.farmers.find? (hasId i) = some d →
        (getDashboard env w farmerId).1
            = .json (.doc [("crops",
                match getField "crops" d with
                | some c => if truthy c then c else .arr []
                | none => .arr [])]) ∧
          (getField "crops" d = none →
            (getDashboard env w farmerId).1 = .json (.doc [("crops", .arr [])])) ∧
          (∀ xs, getField "crops" d = some (.arr xs) →
            (getDashboard env w farmerId).1 = .json (.doc [("crops", .arr (cropsOf d))]))) ∧
      (∀ (env env2 : Env) (w : World) (body : Doc),
        env.Connects w → env.fault = none → env2.fault = none → w.farmers.Valid →
        getField "_id" body = none → getField "crops" body = none →
        (∀ d ∈ w.farmers, getField "_id" d ≠ some (.oid env.newId)) →
        (getDashboard env2 (register env w body).2 env.newId.toHexString).1
          = .json (.doc [("crops", .arr [])])) := by
  have hgen : ∀ (env : Env) (w : World) (farmerId : String) (i : ObjectId) (d : Doc),
      ObjectId.ofString farmerId = some i → env.Connects w → env.fault = none →
      w.farmers.find? (hasId i) = some d →
      (getDashboard env w farmerId).1
          = .json (.doc [("crops",
              match getField "crops" d with
              | some c => if truthy c then c else .arr []
              | none => .arr [])]) := by
    intro env w farmerId i d hid hconn hfault hfind
    have hnew : newObjectId farmerId = .ok i := by simp [newObjectId, hid]
    obtain ⟨n, w1, hc, hw1, _⟩ := connectDB_ok hconn
    have hfind1 : w1.farmers.find? (hasId i) = some d := by rw [hw1]; exact hfind
    simp [getDashboard, hc, hnew, findOne_idFilter hfault, hfind1]
  refine ⟨fun env w farmerId i d hid hconn hfault hfind => ?_, ?_⟩
  · have h := hgen env w farmerId i d hid hconn hfault hfind
    refine ⟨h, fun hnone => ?_, fun xs hxs => ?_⟩
    · rw [h, hnone]
    · rw [h, hxs]
      simp [cropsOf, hxs, truthy]
  · intro env env2 w body hconn hfault hfault2 hvalid hnoid hnocrops hfresh
    obtain ⟨n, w1, hc, hw1, hdb⟩ := connectDB_ok hconn
    have hany : (w.farmers.any fun d => decide (getField "_id" d = some (.oid env.newId)))
        = false := by
      rw [List.any_eq_false]
      intro d hd
      simpa using hfresh d hd
    have hreg : (register env w body).2
        = { w1 with farmers := w.farmers ++ [("_id", .oid env.newId) :: body] } := by
      simp [register, hc, insertOne, hfault, hnoid, hw1, hany, eraseField_of_absent _ _ hnoid]
    have hfind : (w.farmers ++ [("_id", BVal.oid env.newId) :: body]).find? (hasId env.newId)
        = some (("_id", .oid env.newId) :: body) := by
      apply find?_append_of_none
      · intro d hd
        by_contra hne
        exact hfresh d hd (field_of_hasId (hvalid.noArrayId hd) (by simpa using hne))
      · exact hasId_of_field (by simp [getField])
    have h := hgen env2 (register env w body).2 env.newId.toHexString env.newId
      (("_id", .oid env.newId) :: body) (ofString_toHexString _)
      (Or.inl (by rw [hreg]; simp [hdb])) hfault2 (by rw [hreg]; exact hfind)
    rw [h]
    have hc2 : getField "crops" (("_id", BVal.oid env.newId) :: body) = none := by
      simp [getField, hnocrops]
    rw [hc2]

/-- C11 at the scenario of the specification: registered, then asked for its dashboard. -/
theorem getDashboard_crops_witness :
    (getDashboard (Env.calm (ObjectId.rep 2))
        (register (Env.calm (ObjectId.rep 1)) (World.fresh oneProfile) scenarioBody).2
        "111111111111111111111111").1
      = .json (.doc [("crops", .arr [])]) :=
  getDashboard_crops.2 (Env.calm (ObjectId.rep 1)) (Env.calm (ObjectId.rep 2))
    (World.fresh oneProfile) scenarioBody (Or.inr rfl) rfl rfl oneProfile_valid (by decide)
    (by decide) (by decide)

/-- C12 (amended): for a well-formed identifier that matches no profile, when the connection
and the store operation succeed, `updateProfile` with a patch that parses as a `$set` document
and `appendCrop` with an entry that parses as a `$push` value answer
`{success: true, updated: 0}` and leave the collection as it is; a patch of one plain non-empty
field name and an entry without `$each` field always parse.  For every request to these two
handlers the reported count is 0 or 1. -/
theorem update_and_append_without_profile (env : Env) (w : World) (farmerId : String)
    (i : ObjectId) (hid : ObjectId.ofString farmerId = some i) (hno : NoProfile i w.farmers)
    (hconn : env.Connects w) (hfault : env.fault = none) :
    (∀ patch es, parseSet env patch = .ok es →
        (updateProfile env w farmerId patch).1
            = .json (.doc [("success", .bool true), ("updated", .num 0)]) ∧
          (updateProfile env w farmerId patch).2.farmers = w.farmers) ∧
      (∀ entry tr, parsePush env entry = .ok tr →
        (appendCrop env w farmerId entry).1
            = .json (.doc [("success", .bool true), ("updated", .num 0)]) ∧
          (appendCrop env w farmerId entry).2.farmers = w.farmers) ∧
      (∀ field v, PlainName field → field ≠ "" →
        (updateProfile env w farmerId [(field, v)]).1
            = .json (.doc [("success", .bool true), ("updated", .num 0)]) ∧
          (updateProfile env w farmerId [(field, v)]).2.farmers = w.farmers) ∧
      (∀ entry, getField "$each" entry = none →
        (appendCrop env w farmerId entry).1
            = .json (.doc [("success", .bool true), ("updated", .num 0)]) ∧
          (appendCrop env w farmerId entry).2.farmers = w.farmers) ∧
      (∀ (env2 : Env) (w2 : World) (id2 : String) (body : Doc) (n : Int),
        ((updateProfile env2 w2 id2 body).1
            = .json (.doc [("success", .bool true), ("updated", .num n)]) ∨
          (appendCrop env2 w2 id2 body).1
            = .json (.doc [("success", .bool true), ("updated", .num n)])) →
        n = 0 ∨ n = 1) := by
  have hnew : newObjectId farmerId = .ok i := by simp [newObjectId, hid]
  obtain ⟨m, w1, hc, hw1, _⟩ := connectDB_ok hconn
  have hfind : w1.farmers.find? (hasId i) = none := by
    rw [hw1]; exact find?_of_noProfile hno
  have hup := updateOne_without_profile hfault hfind
  rw [hw1] at hup
  have hset : ∀ patch es, parseSet env patch = .ok es →
      (updateProfile env w farmerId patch).1
          = .json (.doc [("success", .bool true), ("updated", .num 0)]) ∧
        (updateProfile env w farmerId patch).2.farmers = w.farmers := by
    intro patch es hes
    simp [updateProfile, hc, hnew, hup.1 patch es hes, hw1]
  have hpush : ∀ entry tr, parsePush env entry = .ok tr →
      (appendCrop env w farmerId entry).1
          = .json (.doc [("success", .bool true), ("updated", .num 0)]) ∧
        (appendCrop env w farmerId entry).2.farmers = w.farmers := by
    intro entry tr htr
    simp [appendCrop, hc, hnew, hup.2 entry tr htr, hw1]
  refine ⟨hset, hpush, fun field v hplain hne => hset _ _ (parseSet_plain env v hplain hne),
    fun entry hentry => hpush entry (fun xs => xs ++ [.doc entry])
      (by simp [parsePush, hentry]), ?_⟩
  intro env2 w2 id2 body n hresp
  rcases hresp with h | h
  · rcases updateProfile_cases env2 w2 id2 body with ⟨hst, _⟩ | ⟨j, k, s, _, hu, hr, _⟩
    · rw [h] at hst
      cases hst
    · rw [hr] at h
      have hk : (k : Int) = n := by simpa [Response.json] using h
      rcases modifiedCount_le_one.1 body hu with h0 | h1
      · left; rw [← hk, h0]; rfl
      · right; rw [← hk, h1]; rfl
  · rcases appendCrop_cases env2 w2 id2 body with ⟨hst, _⟩ | ⟨j, k, s, _, hu, hr, _⟩
    · rw [h] at hst
      cases hst
    · rw [hr] at h
      have hk : (k : Int) = n := by simpa [Response.json] using h
      rcases modifiedCount_le_one.2 "crops" body hu with h0 | h1
      · left; rw [← hk, h0]; rfl
      · right; rw [← hk, h1]; rfl

/-- C12 (amended) at an identifier that no stored profile has: a patch of one field and a crop
entry both give `updated: 0`. -/
theorem update_and_append_without_profile_witness :
    (updateProfile (Env.calm (ObjectId.rep 2)) (World.fresh oneProfile)
        "111111111111111111111111" [("name", .str "C")]).1
      = .json (.doc [("success", .bool true), ("updated", .num 0)]) ∧
    (appendCrop (Env.calm (ObjectId.rep 2)) (World.fresh oneProfile)
        "111111111111111111111111" [("crop", .str "Wheat")]).1
      = .json (.doc [("success", .bool true), ("updated", .num 0)]) :=
  have h := update_and_append_without_profile (Env.calm (ObjectId.rep 2))
    (World.fresh oneProfile) "111111111111111111111111" (ObjectId.rep 1) (by decide)
    (by unfold NoProfile; decide) (Or.inr rfl) rfl
  ⟨(h.2.2.1 "name" (.str "C") ⟨by decide, by decide⟩ (by decide)).1,
    (h.2.2.2.1 [("crop", .str "Wheat")] (by decide)).1⟩

/-- C12 as stated fails for a patch that the store refuses as a `$set` document and for an
entry that it refuses as a `$push` value: with no profile matching the identifier, a patch with
the paths `a` and `a.b` and an entry whose `$each` is a string are both answered with status
500. -/
theorem update_and_append_can_fail_without_profile :
    (∀ d ∈ oneProfile, hasId (ObjectId.rep 1) d = false) ∧
    (updateProfile (Env.calm (ObjectId.rep 2)) (World.fresh oneProfile)
        "111111111111111111111111" [("a", .num 1), ("a.b", .num 2)]).1
      = ⟨500, .doc [("success", .bool false), ("message", .str "Update failed"),
          ("error", .str "error")]⟩ ∧
    (appendCrop (Env.calm (ObjectId.rep 2)) (World.fresh oneProfile)
        "111111111111111111111111" [("$each", .str "Wheat")]).1
      = ⟨500, .doc [("success", .bool false), ("message", .str "Crop save failed"),
          ("error", .str "error")]⟩ := by
  decide

/-- C18: for a well-formed identifier that matches no profile the dashboard handler answers
with status 500 and the message `Dashboard fetch failed`, in every environment, and so never
with a crop list; when the connection and the lookup succeed, the error it reports is the fault
of reading `crops` from `null`.  The collection stays as it is. -/
theorem getDashboard_missing_profile (env : Env) (w : World) (farmerId : String)
    (i : ObjectId) (hid : ObjectId.ofString farmerId = some i)
    (hno : NoProfile i w.farmers) :
    (∃ e : Thrown, (getDashboard env w farmerId).1
        = ⟨500, .doc [("success", .bool false), ("message", .str "Dashboard fetch failed"),
            ("error", .str (e.message env))]⟩) ∧
      (env.Connects w → env.fault = none →
        (getDashboard env w farmerId).1
          = ⟨500, .doc [("success", .bool false), ("message", .str "Dashboard fetch failed"),
              ("error", .str (env.libraryText .nullProperty))]⟩) ∧
      (∀ crops, (getDashboard env w farmerId).1 ≠ .json (.doc [("crops", crops)])) ∧
      (getDashboard env w farmerId).2.farmers = w.farmers := by
  have hnew : newObjectId farmerId = .ok i := by simp [newObjectId, hid]
  have hfind := find?_of_noProfile hno
  have hmain : ∃ e, (getDashboard env w farmerId).1 = serverError env "Dashboard fetch failed" e ∧
      (env.Connects w → env.fault = none → e = .nullProperty) := by
    rcases hc : connectDB env w with ⟨r, w1⟩
    cases r with
    | error e =>
      refine ⟨e, by simp [getDashboard, hc], fun hconn _ => ?_⟩
      obtain ⟨n, w2, hc2, _, _⟩ := connectDB_ok hconn
      rw [hc2] at hc
      cases hc
    | ok n =>
      have hw1 := (connectDB_eq_ok hc).2
      rcases findOne_idFilter_cases env w1.farmers i with ⟨t, ht, hfo⟩ | ⟨hnf, hfo⟩
      · refine ⟨.fault t, by simp [getDashboard, hc, hnew, hfo], fun _ hf => ?_⟩
        rw [hf] at ht
        cases ht
      · rw [show w1.farmers.find? (hasId i) = none by rw [hw1]; exact hfind] at hfo
        exact ⟨.nullProperty, by simp [getDashboard, hc, hnew, hfo], fun _ _ => rfl⟩
  obtain ⟨e, he, hnull⟩ := hmain
  refine ⟨⟨e, he⟩, fun hconn hf => ?_, fun crops => ?_, farmers_getDashboard env w farmerId⟩
  · rw [he, hnull hconn hf]
    rfl
  · rw [he]
    simp [serverError, Response.json]

/-- C18 at the identifier of all ones, which no stored profile has. -/
theorem getDashboard_missing_profile_witness :
    (getDashboard (Env.calm (ObjectId.rep 1)) (World.fresh oneProfile)
        "111111111111111111111111").1
      = ⟨500, .doc [("success", .bool false), ("message", .str "Dashboard fetch failed"),
          ("error", .str "error")]⟩ :=
  (getDashboard_missing_profile (Env.calm (ObjectId.rep 1)) (World.fresh oneProfile)
    "111111111111111111111111" (ObjectId.rep 1) (by decide)
    (by unfold NoProfile; decide)).2.1 (Or.inr rfl) rfl

/-- C13: for an identifier string that is not in the identifier format, `getProfile` answers
with status 500 and the message `Profile fetch failed` (with the library's complaint about the
identifier whenever the connection stands), and its answer does not depend on the content of
the collection or on how a lookup would fare: no record is queried.  For a well-formed
identifier that matches no profile it answers `null` when the connection and the lookup
succeed.  The two answers are never the same response. -/
theorem getProfile_malformed_vs_missing (env : Env) (w : World) :
    (∀ farmerId, ObjectId.ofString farmerId = none →
        (∃ e : Thrown, (getProfile env w farmerId).1
          = ⟨500, .doc [("success", .bool false), ("message", .str "Profile fetch failed"),
              ("error", .str (e.message env))]⟩) ∧
        (env.Connects w →
          (getProfile env w farmerId).1
            = ⟨500, .doc [("success", .bool false), ("message", .str "Profile fetch failed"),
                ("error", .str (env.libraryText .invalidObjectId))]⟩) ∧
        ∀ fault farmers,
          (getProfile { env with fault := fault } { w with farmers := farmers } farmerId).1
            = (getProfile env w farmerId).1) ∧
      (∀ farmerId i, ObjectId.ofString farmerId = some i → NoProfile i w.farmers →
        env.Connects w → env.fault = none → (getProfile env w farmerId).1 = .json .null) ∧
      (∀ (env2 : Env) (w2 : World) (bad good : String) (i : ObjectId),
        ObjectId.ofString bad = none → ObjectId.ofString good = some i →
        NoProfile i w2.farmers → env2.Connects w2 → env2.fault = none →
        (getProfile env w bad).1 ≠ (getProfile env2 w2 good).1) := by
  have hbad : ∀ (env : Env) (w : World) (farmerId : String),
      ObjectId.ofString farmerId = none →
      (∃ e, (getProfile env w farmerId).1 = serverError env "Profile fetch failed" e) ∧
      (env.Connects w →
        (getProfile env w farmerId).1 = serverError env "Profile fetch failed" .invalidObjectId) ∧
      ∀ fault farmers,
        (getProfile { env with fault := fault } { w with farmers := farmers } farmerId).1
          = (getProfile env w farmerId).1 := by
    intro env w farmerId hnone
    have hnew : newObjectId farmerId = .error .invalidObjectId := by simp [newObjectId, hnone]
    refine ⟨?_, ?_, ?_⟩
    · rcases hc : connectDB env w with ⟨r, w1⟩
      cases r with
      | error e => exact ⟨e, by simp [getProfile, hc]⟩
      | ok n => exact ⟨.invalidObjectId, by simp [getProfile, hc, hnew]⟩
    · intro hconn
      obtain ⟨n, w1, hc, _, _⟩ := connectDB_ok hconn
      simp [getProfile, hc, hnew]
    · intro fault farmers
      unfold getProfile connectDB
      cases hdb : w.dbInstance with
      | some n => simp [hnew, serverError, Thrown.message]
      | none =>
        cases hcon : env.connect with
        | error t => simp [serverError, Thrown.message]
        | ok u => simp [hnew, serverError, Thrown.message]
  have hgood : ∀ (env : Env) (w : World) (farmerId : String) (i : ObjectId),
      ObjectId.ofString farmerId = some i → NoProfile i w.farmers →
      env.Connects w → env.fault = none → (getProfile env w farmerId).1 = .json .null := by
    intro env w farmerId i hid hno hconn hfault
    have hnew : newObjectId farmerId = .ok i := by simp [newObjectId, hid]
    obtain ⟨n, w1, hc, hw1, _⟩ := connectDB_ok hconn
    have hfind : w1.farmers.find? (hasId i) = none := by
      rw [hw1]; exact find?_of_noProfile hno
    simp [getProfile, hc, hnew, findOne_idFilter hfault, hfind]
  refine ⟨fun farmerId hnone => ?_, hgood env w, ?_⟩
  · obtain ⟨⟨e, he⟩, h2, h3⟩ := hbad env w farmerId hnone
    exact ⟨⟨e, he⟩, h2, h3⟩
  · intro env2 w2 bad good i hb hg hno hconn hfault
    obtain ⟨⟨e, he⟩, _, _⟩ := hbad env w bad hb
    rw [he, hgood env2 w2 good i hg hno hconn hfault]
    simp [serverError, Response.json]

/-- C13 at the malformed identifier `abc` and at the identifier of all ones, which no stored
profile has. -/
theorem getProfile_malformed_vs_missing_witness :
    (getProfile (Env.calm (ObjectId.rep 1)) (World.fresh oneProfile) "abc").1
        = ⟨500, .doc [("success", .bool false), ("message", .str "Profile fetch failed"),
            ("error", .str "error")]⟩ ∧
      (getProfile (Env.calm (ObjectId.rep 1)) (World.fresh oneProfile)
          "111111111111111111111111").1 = .json .null :=
  have h := getProfile_malformed_vs_missing (Env.calm (ObjectId.rep 1)) (World.fresh oneProfile)
  ⟨(h.1 "abc" (by decide)).2.1 (Or.inr rfl),
    h.2.1 "111111111111111111111111" (ObjectId.rep 1) (by decide)
      (by unfold NoProfile; decide) (Or.inr rfl) rfl⟩

/-- C14: calls of `connectDB` that run one after the other memoize the handle: once one has
returned a handle, every later one returns that handle and leaves the state, with its count of
`client.connect` calls, as it is.  For calls that overlap, once a handle is cached the count of
`client.connect` calls stays as it is and every call made from then on returns a cached handle at
once; the handle stays the same one when no call is waiting for its connection at that moment.
But a call that was waiting then replaces the cached handle when its own connection succeeds:
of two calls made before either connection is there, the first returns handle 0 and the second
handle 1, and a third call, made after both, returns handle 1, after two connection attempts. -/
theorem connectDB_overlapping_calls :
    (∀ (env : Env) (w w1 : World) (n : Nat), connectDB env w = (.ok n, w1) →
        ∀ envs, (connectMany envs w1).1 = envs.map (fun _ => .ok n) ∧
          (connectMany envs w1).2 = w1) ∧
      (∀ (p : Proc) (n : Nat) (evs : List Event), p.world.dbInstance = some n →
        (Proc.run evs p).2.world.connects = p.world.connects ∧
          ∀ env, ∃ m, (Proc.run evs p).2.step (.call env)
            = (some (.ok m), (Proc.run evs p).2)) ∧
      (∀ (p : Proc) (n : Nat) (evs : List Event), p.world.dbInstance = some n →
        p.waiting = [] → ∀ r ∈ (Proc.run evs p).1, r = none ∨ r = some (.ok n)) ∧
      (Proc.run
          [.call (Env.calm (ObjectId.rep 1)), .call (Env.calm (ObjectId.rep 1)), .resume 0,
            .resume 0, .call (Env.calm (ObjectId.rep 1))]
          ⟨World.fresh oneProfile, []⟩).1
        = [none, none, some (.ok 0), some (.ok 1), some (.ok 1)] ∧
      (Proc.run
          [.call (Env.calm (ObjectId.rep 1)), .call (Env.calm (ObjectId.rep 1)), .resume 0,
            .resume 0, .call (Env.calm (ObjectId.rep 1))]
          ⟨World.fresh oneProfile, []⟩).2.world.connects = 2 ∧
      (Proc.run
          [.call (Env.calm (ObjectId.rep 1)), .resume 0, .call (Env.calm (ObjectId.rep 1)),
            .call (Env.calm (ObjectId.rep 1))]
          ⟨World.fresh oneProfile, []⟩).1
        = [none, some (.ok 0), some (.ok 0), some (.ok 0)] := by
  refine ⟨fun env w w1 n hok envs => connectMany_cached (connectDB_eq_ok hok).1 envs,
    fun p n evs h => ?_, fun p n evs h hw => (run_settled evs h hw).1, rfl, rfl, rfl⟩
  obtain ⟨⟨m, hm⟩, hc⟩ := run_cached evs h
  exact ⟨hc, fun env => ⟨m, by simp [Proc.step, hm]⟩⟩

/-- C17: a handler always answers.  When `connectDB` fails with an error of message `t`, when
the identifier of the request is malformed, or when the store operation fails with an error of
message `t`, each of the eight handlers answers with status 500 and the body
`{success: false, message, error}` where `message` is the handler's own and `error` is the
message text of the error raised; and every answer with status 500 has that form for some
error. -/
theorem failures_caught (env : Env) (w : World) (req : Request) :
    (∀ t, w.dbInstance = none → env.connect = .error t →
        (handle env w req).1
          = ⟨500, .doc [("success", .bool false), ("message", .str req.failText),
              ("error", .str t)]⟩) ∧
      (∀ farmerId, req.farmerId = some farmerId → ObjectId.ofString farmerId = none →
        env.Connects w →
        (handle env w req).1
          = ⟨500, .doc [("success", .bool false), ("message", .str req.failText),
              ("error", .str (env.libraryText .invalidObjectId))]⟩) ∧
      (∀ t, env.fault = some t → env.Connects w →
        (∀ farmerId, req.farmerId = some farmerId → ObjectId.ofString farmerId ≠ none) →
        (handle env w req).1
          = ⟨500, .doc [("success", .bool false), ("message", .str req.failText),
              ("error", .str t)]⟩) ∧
      ((handle env w req).1.status = 500 →
        ∃ e : Thrown, (handle env w req).1
          = ⟨500, .doc [("success", .bool false), ("message", .str req.failText),
              ("error", .str (e.message env))]⟩) := by
  refine ⟨fun t hdb hcon => ?_, fun farmerId hreq hbad hconn => ?_,
    fun t hfault hconn hgood => ?_, fun h => handle_500 env w req h⟩
  · have hc : connectDB env w
        = (.error (.connect t), { w with connects := w.connects + 1 }) := by
      simp [connectDB, hdb, hcon]
    cases req <;>
      simp [handle, register, login, getProfile, updateProfile, getDashboard, appendCrop,
        listAll, deleteById, hc, serverError, Thrown.message, Request.failText]
  · obtain ⟨n, w1, hc, _, _⟩ := connectDB_ok hconn
    have hnew : newObjectId farmerId = .error .invalidObjectId := by simp [newObjectId, hbad]
    cases req <;> simp only [Request.farmerId, Option.some.injEq, reduceCtorEq] at hreq <;>
      subst hreq <;>
      simp [handle, getProfile, updateProfile, getDashboard, appendCrop, deleteById, hc, hnew,
        serverError, Thrown.message, Request.failText]
  · obtain ⟨n, w1, hc, _, _⟩ := connectDB_ok hconn
    have hs := store_fault hfault w1.farmers
    have hid : ∀ farmerId, req.farmerId = some farmerId →
        ∃ i, newObjectId farmerId = .ok i := by
      intro farmerId hreq
      cases ho : ObjectId.ofString farmerId with
      | none => exact absurd ho (hgood farmerId hreq)
      | some i => exact ⟨i, by simp [newObjectId, ho]⟩
    cases req with
    | register body =>
      simp [handle, register, hc, hs.1, serverError, Thrown.message, Request.failText]
    | login body =>
      simp [handle, login, hc, hs.2.1, serverError, Thrown.message, Request.failText]
    | listAll =>
      simp [handle, listAll, hc, hs.2.2.1, serverError, Thrown.message, Request.failText]
    | getProfile farmerId =>
      obtain ⟨i, hi⟩ := hid farmerId rfl
      simp [handle, getProfile, hc, hi, hs.2.1, serverError, Thrown.message, Request.failText]
    | getDashboard farmerId =>
      obtain ⟨i, hi⟩ := hid farmerId rfl
      simp [handle, getDashboard, hc, hi, hs.2.1, serverError, Thrown.message,
        Request.failText]
    | deleteById farmerId =>
      obtain ⟨i, hi⟩ := hid farmerId rfl
      simp [handle, deleteById, hc, hi, hs.2.2.2.1, serverError, Thrown.message,
        Request.failText]
    | updateProfile farmerId body =>
      obtain ⟨i, hi⟩ := hid farmerId rfl
      simp [handle, updateProfile, hc, hi, hs.2.2.2.2.1, serverError, Thrown.message,
        Request.failText]
    | appendCrop farmerId body =>
      obtain ⟨i, hi⟩ := hid farmerId rfl
      simp [handle, appendCrop, hc, hi, hs.2.2.2.2.2, serverError, Thrown.message,
        Request.failText]

/-- C17 at a refused connection, at a malformed identifier and at a failing lookup. -/
theorem failures_caught_witness :
    (handle { Env.calm (ObjectId.rep 1) with connect := .error "unreachable" }
        (World.fresh oneProfile) (.register scenarioBody)).1
        = ⟨500, .doc [("success", .bool false), ("message", .str "Registration failed"),
            ("error", .str "unreachable")]⟩ ∧
      (handle (Env.calm (ObjectId.rep 1)) (World.fresh oneProfile) (.deleteById "abc")).1
        = ⟨500, .doc [("success", .bool false), ("message", .str "Failed to delete farmer"),
            ("error", .str "error")]⟩ ∧
      (handle { Env.calm (ObjectId.rep 1) with fault := some "timed out" }
        (World.fresh oneProfile) .listAll).1
        = ⟨500, .doc [("success", .bool false), ("message", .str "Failed to fetch farmers"),
            ("error", .str "timed out")]⟩ :=
  ⟨(failures_caught { Env.calm (ObjectId.rep 1) with connect := .error "unreachable" }
      (World.fresh oneProfile) (.register scenarioBody)).1 "unreachable" rfl rfl,
    (failures_caught (Env.calm (ObjectId.rep 1)) (World.fresh oneProfile)
      (.deleteById "abc")).2.1 "abc" rfl (by decide) (Or.inr rfl),
    (failures_caught { Env.calm (ObjectId.rep 1) with fault := some "timed out" }
      (World.fresh oneProfile) .listAll).2.2.1 "timed out" rfl (Or.inr rfl)
      (fun _ h => by cases h)⟩

/-- C15: for a form that passes `validateForm`, whenever the registration call fails (it
throws, or it returns a result whose `success` is not truthy), `handleSubmit` stores the
submitted form under the key `farmerData`, sets `userType` to `farmer`, shows the completion
message, schedules the navigation to the farmer dashboard, and ends with the loading flag off
and an empty error set: no error is shown.  The local storage and the scheduled route are those
of a call that succeeded without a farmer record in its result. -/
theorem handleSubmit_falls_back (reply : ServiceReply) (p : FarmerPage)
    (hvalid : (validateForm p.formData).2 = true) (hfail : reply.Failed) :
    (FarmerLogin.handleSubmit reply p).localStorage
        = setItem "userType" (.text "farmer")
            (setItem "farmerData" (.json (formJson p.formData)) p.localStorage) ∧
      (FarmerLogin.handleSubmit reply p).successMessage
        = "Registration completed! Redirecting to dashboard..." ∧
      (FarmerLogin.handleSubmit reply p).timers = p.timers ++ [(1500, "/farmer-dashboard")] ∧
      (FarmerLogin.handleSubmit reply p).errors = [] ∧
      (FarmerLogin.handleSubmit reply p).isLoading = false ∧
      (FarmerLogin.handleSubmit reply p).sent = p.sent ++ [p.formData] ∧
      (FarmerLogin.handleSubmit reply p).localStorage
        = (FarmerLogin.handleSubmit
            (.resolved (some (.doc [("success", .bool true), ("data", .doc [])]))) p
          ).localStorage ∧
      (FarmerLogin.handleSubmit reply p).timers.map Prod.snd
        = (FarmerLogin.handleSubmit
            (.resolved (some (.doc [("success", .bool true), ("data", .doc [])]))) p
          ).timers.map Prod.snd := by
  have herr : (validateForm p.formData).1 = [] := by
    have := hvalid
    simp only [validateForm] at this ⊢
    exact List.isEmpty_iff.1 this
  have hsucc : FarmerLogin.handleSubmit
      (.resolved (some (.doc [("success", .bool true), ("data", .doc [])]))) p
      = { p with
          errors := [], isLoading := false, sent := p.sent ++ [p.formData],
          successMessage := "Registration successful! Redirecting to dashboard...",
          localStorage := setItem "userType" (.text "farmer")
            (setItem "farmerData" (.json (formJson p.formData)) p.localStorage),
          timers := p.timers ++ [(2000, "/farmer-dashboard")] } := by
    simp [FarmerLogin.handleSubmit, hvalid, herr, FarmerLogin.afterReply, readProp, getField,
      truthyOpt, truthy]
  have hfb : FarmerLogin.handleSubmit reply p
      = { p with
          errors := [], isLoading := false, sent := p.sent ++ [p.formData],
          successMessage := "Registration completed! Redirecting to dashboard...",
          localStorage := setItem "userType" (.text "farmer")
            (setItem "farmerData" (.json (formJson p.formData)) p.localStorage),
          timers := p.timers ++ [(1500, "/farmer-dashboard")],
          console := (FarmerLogin.handleSubmit reply p).console } := by
    cases reply with
    | rejected =>
      simp [FarmerLogin.handleSubmit, hvalid, herr, FarmerLogin.caught, FarmerLogin.fallback]
    | resolved result =>
      simp only [ServiceReply.Failed] at hfail
      cases hr : readProp result "success" with
      | none =>
        simp [FarmerLogin.handleSubmit, hvalid, herr, FarmerLogin.afterReply, hr,
          FarmerLogin.caught, FarmerLogin.fallback]
      | some success =>
        simp only [hr] at hfail
        simp [FarmerLogin.handleSubmit, hvalid, herr, FarmerLogin.afterReply, hr, hfail,
          FarmerLogin.fallback]
  rw [hsucc]
  rw [hfb]
  simp

/-- C15 at the form of the scenario and a rejected call. -/
theorem handleSubmit_falls_back_witness :
    getItem "farmerData" (FarmerLogin.handleSubmit .rejected scenarioPage).localStorage
        = some (.json (formJson scenarioForm)) ∧
      getItem "userType" (FarmerLogin.handleSubmit .rejected scenarioPage).localStorage
        = some (.text "farmer") ∧
      (FarmerLogin.handleSubmit .rejected scenarioPage).timers = [(1500, "/farmer-dashboard")] :=
  have h := handleSubmit_falls_back .rejected scenarioPage (by decide) trivial
  ⟨by rw [h.1]; rfl, by rw [h.1]; rfl, h.2.2.1⟩

/-- C16: for a form on which `validateForm` returns false, `handleSubmit` only replaces the
error set by the errors found: the registration service is not called, local storage, the
scheduled navigations, the loading flag and the success message stay as they are. -/
theorem handleSubmit_rejects_invalid (reply : ServiceReply) (p : FarmerPage)
    (hinvalid : (validateForm p.formData).2 = false) :
    FarmerLogin.handleSubmit reply p = { p with errors := (validateForm p.formData).1 } ∧
      (FarmerLogin.handleSubmit reply p).sent = p.sent ∧
      (FarmerLogin.handleSubmit reply p).localStorage = p.localStorage ∧
      (FarmerLogin.handleSubmit reply p).timers = p.timers ∧
      (FarmerLogin.handleSubmit reply p).isLoading = p.isLoading ∧
      (FarmerLogin.handleSubmit reply p).successMessage = p.successMessage ∧
      (FarmerLogin.handleSubmit reply p).errors ≠ [] := by
  have h : FarmerLogin.handleSubmit reply p
      = { p with errors := (validateForm p.formData).1 } := by
    simp [FarmerLogin.handleSubmit, hinvalid]
  refine ⟨h, by rw [h], by rw [h], by rw [h], by rw [h], by rw [h], ?_⟩
  rw [h]
  intro hnil
  have : (validateForm p.formData).2 = true := by
    simp only [validateForm] at hnil ⊢
    exact List.isEmpty_iff.2 hnil
  rw [hinvalid] at this
  cases this

/-- C16 at the scenario's form with the name removed. -/
theorem handleSubmit_rejects_invalid_witness :
    FarmerLogin.handleSubmit .rejected { scenarioPage with formData.name := "" }
      = { scenarioPage with
          formData.name := ""
          errors := [("name", "Name is required")] } :=
  (handleSubmit_rejects_invalid .rejected { scenarioPage with formData.name := "" }
    (by decide)).1

/-- C19: the admin login stores `adminData` (with the user name, the role `admin` and the login
time) and `userType` `admin` in local storage and navigates to the admin dashboard exactly when
the user name is `admin` and the password is `admin123`; for every other pair it leaves local
storage as it is, does not navigate, and sets the error `Invalid username or password`.  In
both cases the loading flag ends off. -/
theorem adminLogin_hardcoded (now : String) (p : AdminPage) :
    (p.credentials.username = "admin" ∧ p.credentials.password = "admin123" →
        AdminLogin.handleSubmit now p
          = { p with
              isLoading := false
              error := ""
              localStorage :=
                setItem "userType" (.text "admin")
                  (setItem "adminData"
                    (.json (.doc [("username", .str "admin"), ("role", .str "admin"),
                      ("loginTime", .str now)]))
                    p.localStorage)
              navigated := p.navigated ++ ["/admin-dashboard"] }) ∧
      (¬ (p.credentials.username = "admin" ∧ p.credentials.password = "admin123") →
        AdminLogin.handleSubmit now p
          = { p with isLoading := false, error := "Invalid username or password" }) ∧
      ((AdminLogin.handleSubmit now p).navigated = p.navigated ++ ["/admin-dashboard"] ↔
        p.credentials.username = "admin" ∧ p.credentials.password = "admin123") ∧
      ((AdminLogin.handleSubmit now p).localStorage = p.localStorage ∧
          (AdminLogin.handleSubmit now p).navigated = p.navigated ∧
          (AdminLogin.handleSubmit now p).error = "Invalid username or password" ↔
        ¬ (p.credentials.username = "admin" ∧ p.credentials.password = "admin123")) := by
  by_cases h : p.credentials.username = "admin" ∧ p.credentials.password = "admin123"
  · have hs : AdminLogin.handleSubmit now p
        = { p with
            isLoading := false
            error := ""
            localStorage :=
              setItem "userType" (.text "admin")
                (setItem "adminData"
                  (.json (.doc [("username", .str "admin"), ("role", .str "admin"),
                    ("loginTime", .str now)]))
                  p.localStorage)
            navigated := p.navigated ++ ["/admin-dashboard"] } := by
      simp [AdminLogin.handleSubmit, h]
    refine ⟨fun _ => hs, fun hn => absurd h hn, ⟨fun _ => h, fun _ => by rw [hs]⟩, ?_⟩
    constructor
    · rintro ⟨_, hnav, _⟩
      rw [hs] at hnav
      simp at hnav
    · intro hn
      exact absurd h hn
  · have hs : AdminLogin.handleSubmit now p
        = { p with isLoading := false, error := "Invalid username or password" } := by
      simp [AdminLogin.handleSubmit, h]
    refine ⟨fun hy => absurd hy h, fun _ => hs, ⟨fun hnav => ?_, fun hy => absurd hy h⟩, ?_⟩
    · rw [hs] at hnav
      simp at hnav
    · exact ⟨fun _ => h, fun _ => by rw [hs]; exact ⟨rfl, rfl, rfl⟩⟩

/-- C19 at the pair `admin`, `admin123` and at the pair `admin`, `admin`. -/
theorem adminLogin_hardcoded_witness :
    (AdminLogin.handleSubmit "2024-01-01T00:00:00.000Z"
        ⟨⟨"admin", "admin123"⟩, false, "", [], []⟩).navigated = ["/admin-dashboard"] ∧
      AdminLogin.handleSubmit "2024-01-01T00:00:00.000Z"
          ⟨⟨"admin", "admin"⟩, false, "", [], []⟩
        = ⟨⟨"admin", "admin"⟩, false, "Invalid username or password", [], []⟩ :=
  ⟨(adminLogin_hardcoded "2024-01-01T00:00:00.000Z"
      ⟨⟨"admin", "admin123"⟩, false, "", [], []⟩).2.2.1.2 ⟨rfl, rfl⟩,
    (adminLogin_hardcoded "2024-01-01T00:00:00.000Z"
      ⟨⟨"admin", "admin"⟩, false, "", [], []⟩).2.1 (by decide)⟩

/-- C20: the register and login handlers of `backend/routes/farmer.js` give the same response
and the same state as those of `backend/src/api/routes/farmers.js` for every state and request,
and so does its get-profile handler where the library's `ObjectId` constructs when it is called
as a plain function.  Where `ObjectId` is a class, the get-profile handler of
`backend/routes/farmer.js` answers every request on an open connection with status 500 and the
text of the `TypeError`; for the stored profile with the all-zero identifier the handler of
`farmers.js` returns the profile and the handler of `farmer.js` returns that failure. -/
theorem farmer_routes_copy :
    (∀ env w body, RoutesFarmer.register env w body = register env w body) ∧
      (∀ env w body, RoutesFarmer.login env w body = login env w body) ∧
      (∀ env w farmerId,
        RoutesFarmer.getProfile true env w farmerId = getProfile env w farmerId) ∧
      (∀ env w farmerId, Env.Connects env w →
        (RoutesFarmer.getProfile false env w farmerId).1
          = serverError env "Profile fetch failed"
              (.other "Class constructor ObjectId cannot be invoked without 'new'")) ∧
      (getProfile (Env.calm (ObjectId.rep 1)) (World.fresh oneProfile)
          "000000000000000000000000").1 = .json (.doc profileB) ∧
      (RoutesFarmer.getProfile false (Env.calm (ObjectId.rep 1)) (World.fresh oneProfile)
          "000000000000000000000000").1
        = ⟨500, .doc [("success", .bool false), ("message", .str "Profile fetch failed"),
            ("error", .str "Class constructor ObjectId cannot be invoked without 'new'")]⟩ := by
  refine ⟨fun _ _ _ => rfl, fun _ _ _ => rfl, fun env w farmerId => ?_,
    fun env w farmerId hconn => ?_, by decide, by decide⟩
  · simp only [RoutesFarmer.getProfile, getProfile, RoutesFarmer.newObjectId, if_true]
  · obtain ⟨n, w1, hc, -, -⟩ := connectDB_ok hconn
    simp only [RoutesFarmer.getProfile, hc, RoutesFarmer.newObjectId]
    rfl

/-- C21: a call of `connectDB` that finds no cached handle and whose `client.connect` throws
propagates that error, leaves `dbInstance` unset and has counted one connection attempt.  The
next call attempts `client.connect` again: the count is two higher than before, and the call
gives the new error when the attempt fails and the handle that `client.db()` then returns,
which it caches, when the attempt succeeds.  A handler that meets the failure leaves
`dbInstance` unset as well.  In every sequence of calls, a handle is in `dbInstance` at the end
only if it was there at the start or a call of the sequence made a connection; and while every
`client.connect` of a sequence throws, every call propagates its own error, `dbInstance` stays
unset and every call is counted as an attempt. -/
theorem failed_connection_not_cached (env : Env) (w : World) (t : String)
    (hnone : w.dbInstance = none) (hfail : env.connect = .error t) :
    connectDB env w = (.error (.connect t), { w with connects := w.connects + 1 }) ∧
      (connectDB env w).2.dbInstance = none ∧
      (∀ env2 : Env,
        (connectDB env2 (connectDB env w).2).2.connects = w.connects + 2 ∧
          (∀ t2, env2.connect = .error t2 →
            (connectDB env2 (connectDB env w).2).1 = .error (.connect t2) ∧
              (connectDB env2 (connectDB env w).2).2.dbInstance = none) ∧
          (env2.connect = .ok () →
            (connectDB env2 (connectDB env w).2).1 = .ok w.handles ∧
              (connectDB env2 (connectDB env w).2).2.dbInstance = some w.handles)) ∧
      (∀ req, (handle env w req).2.dbInstance = none ∧
        (handle env w req).2.connects = w.connects + 1) ∧
      (∀ (envs : List Env) (w0 : World) (h : Nat),
        (connectMany envs w0).2.dbInstance = some h →
        w0.dbInstance = some h ∨ ∃ e ∈ envs, e.connect = .ok ()) ∧
      (∀ envs : List Env, (∀ e ∈ envs, ∃ t2, e.connect = .error t2) →
        List.Forall₂ (fun e r => ∃ t2, e.connect = .error t2 ∧ r = .error (.connect t2))
            envs (connectMany envs w).1 ∧
          (connectMany envs w).2.dbInstance = none ∧
          (connectMany envs w).2.connects = w.connects + envs.length) := by
  have hc := connectDB_failed hnone hfail
  have hnone1 : (connectDB env w).2.dbInstance = none := by rw [hc]; exact hnone
  refine ⟨hc, hnone1, fun env2 => ?_, fun req => ?_,
    fun envs w0 h hset => connectMany_sets_cache envs hset, fun envs hall => ?_⟩
  · refine ⟨?_, fun t2 h2 => ?_, fun h2 => ?_⟩
    · cases h2 : env2.connect with
      | error t2 => rw [connectDB_failed hnone1 h2, hc]
      | ok u => cases u; rw [connectDB_fresh hnone1 h2, hc]
    · rw [connectDB_failed hnone1 h2]
      exact ⟨rfl, hnone1⟩
    · rw [connectDB_fresh hnone1 h2, hc]
      exact ⟨rfl, rfl⟩
  · have hh := handle_connection env w req
    rw [hc] at hh
    exact ⟨by rw [hh.1]; exact hnone, hh.2.1⟩
  · have hm := connectMany_all_failed envs hnone hall
    refine ⟨hm.1, ?_, ?_⟩ <;> rw [hm.2]
    exact hnone

/-- C21 at a first call that is refused, followed by a call that is refused again and by one
that connects: the two errors are passed on, the third call gives the first handle, and three
connection attempts have been made. -/
theorem failed_connection_not_cached_witness :
    (connectDB { Env.calm (ObjectId.rep 1) with connect := .error "unreachable" }
        (World.fresh oneProfile)).1 = .error (.connect "unreachable") ∧
      (connectDB { Env.calm (ObjectId.rep 1) with connect := .error "unreachable" }
        (World.fresh oneProfile)).2.dbInstance = none ∧
      (connectDB (Env.calm (ObjectId.rep 1))
        (connectDB { Env.calm (ObjectId.rep 1) with connect := .error "unreachable" }
          (World.fresh oneProfile)).2).1 = .ok 0 ∧
      (connectMany
        [{ Env.calm (ObjectId.rep 1) with connect := .error "unreachable" },
          { Env.calm (ObjectId.rep 1) with connect := .error "refused" },
          Env.calm (ObjectId.rep 1)]
        (World.fresh oneProfile)).1
        = [.error (.connect "unreachable"), .error (.connect "refused"), .ok 0] ∧
      (connectMany
        [{ Env.calm (ObjectId.rep 1) with connect := .error "unreachable" },
          { Env.calm (ObjectId.rep 1) with connect := .error "refused" },
          Env.calm (ObjectId.rep 1)]
        (World.fresh oneProfile)).2.connects = 3 :=
  have h := failed_connection_not_cached
    { Env.calm (ObjectId.rep 1) with connect := .error "unreachable" }
    (World.fresh oneProfile) "unreachable" rfl rfl
  ⟨congrArg Prod.fst h.1, h.2.1, ((h.2.2.1 (Env.calm (ObjectId.rep 1))).2.2 rfl).1,
    rfl, rfl⟩

end FasalNeeti
